import Mathlib

/-!
# common-c: RPC node link and MQTT node bridge

A shallow embedding of
* `src/rpc/cxa_rpc_nodeRemote.c` (the node link and its provisioning handshake),
* `src/rpc/cxa_rpc_messageHandler.c` and `include/rpc/cxa_rpc_messageHandler.h`,
* the `cxa_array_initStd` / `cxa_array_iterate` macros of `include/collections/cxa_array.h`,
* `src/mqtt/rpc/cxa_mqtt_rpc_node_bridge.c` (the MQTT node bridge),
* `src/arch-esp8266/cxa_esp8266_network_factory.c` (the pools of TCP clients and servers),
* `src/console/cxa_console.c` (the command line of the console).

Pointers are natural-number addresses (`Option Nat` when they may be `NULL`).
Calls that leave the translated files (transport writes, the message pool,
callbacks, handlers of other objects) are recorded, in program order, in an
event trace that every operation returns next to the new state.  What those
calls answer is read from an environment record.  Logging is not modelled.
A `none` result of an operation stands for a `NULL` dereference in the C code.
-/

namespace CommonC

/-! ## Constants of cxa_rpc_nodeRemote.c -/

def PROTO_VERSION : Nat := 2
def PROVISION_TIMEOUT_MS : Nat := 5000
def LINK_MANAGEMENT_DEST : String := "_linkMan"
def LINK_MANAGEMENT_METHOD_PROVISON : String := "_getName"
def LINK_MANAGEMENT_ID_PROVISON : Nat := 1234

/-! ## RPC messages -/

/-- Modelled from the spec: the message kinds of `cxa_rpc_message.h` (the header is not among
the sources); the link only names `REQUEST` and `RESPONSE`. -/
inductive cxa_rpc_message_type_t
  | UNKNOWN
  | REQUEST
  | RESPONSE
  | NOTIFICATION
  deriving DecidableEq

/-- Modelled from the spec: an RPC message as the accessors used by the link see it
(`cxa_rpc_message.h` is not among the sources).  `destination`, `method` and `params` are
`none` when the accessor returns `NULL`; `params` is the linked field of parameters, an
ordered list of C strings; `source` lists the node names prepended so far. -/
structure cxa_rpc_message_t where
  type : cxa_rpc_message_type_t
  destination : Option String
  method : Option String
  source : List String
  id : Nat
  returnValue : Nat
  params : Option (List String)
  deriving DecidableEq

/-- Modelled from the spec: the message handed out by `cxa_rpc_messageFactory_getFreeMessage_empty`. -/
def emptyMessage : cxa_rpc_message_t :=
  { type := .UNKNOWN, destination := none, method := none, source := [], id := 0,
    returnValue := 0, params := none }

def cxa_rpc_message_getType (msgIn : cxa_rpc_message_t) : cxa_rpc_message_type_t := msgIn.type
def cxa_rpc_message_getDestination (msgIn : cxa_rpc_message_t) : Option String := msgIn.destination
def cxa_rpc_message_getMethod (msgIn : cxa_rpc_message_t) : Option String := msgIn.method
def cxa_rpc_message_getId (msgIn : cxa_rpc_message_t) : Nat := msgIn.id
def cxa_rpc_message_getReturnValue (msgIn : cxa_rpc_message_t) : Nat := msgIn.returnValue
def cxa_rpc_message_getParams (msgIn : cxa_rpc_message_t) : Option (List String) := msgIn.params

/-- Modelled from the spec: `cxa_stringUtils_equals`, equality of two C strings. -/
def cxa_stringUtils_equals (a b : String) : Bool := decide (a = b)

/-- Modelled from the spec: `cxa_linkedField_get_cstring_inPlace(field, idx, &out, NULL)`;
`none` when no string can be read at `idx`. -/
def cxa_linkedField_get_cstring_inPlace (field : List String) (idx : Nat) : Option String :=
  field[idx]?

/-- Modelled from the spec: `cxa_linkedField_get_pointerToIndex(field, idx)` read as a C string;
`none` when the result is `NULL`. -/
def cxa_linkedField_get_pointerToIndex (field : List String) (idx : Nat) : Option String :=
  field[idx]?

/-- What the collaborators of a link answer during one call.  The numeric value of
`CXA_RPC_METHOD_RETVAL_SUCCESS` is declared in a header that is not among the sources, so it is
a field here.  `isElapsed_recurring_ms td ms` is `cxa_timeDiff_isElaped_recurring_ms`: its
answer and the timer's next state.  The `...Ok` fields say whether the message constructors
succeed. -/
structure NrEnv where
  CXA_RPC_METHOD_RETVAL_SUCCESS : Nat
  timeDiff_init : Nat → Nat
  isElapsed_recurring_ms : Nat → Nat → Bool × Nat
  freeMessage : Bool
  initRequestOk : Bool
  initResponseOk : Bool
  setIdOk : Bool
  prependOk : Bool
  getParamsOk : Bool
  appendOk : Bool
  writeMessage : cxa_rpc_message_t → Bool

/-- Modelled from the spec: `cxa_rpc_message_initRequest(msg, dest, method, NULL, 0)`, a faithful
setter that may fail. -/
def cxa_rpc_message_initRequest (env : NrEnv) (msg : cxa_rpc_message_t) (dest method : String) :
    Option cxa_rpc_message_t :=
  if env.initRequestOk then
    some { msg with type := .REQUEST, destination := some dest, method := some method,
                    params := some [] }
  else none

/-- Modelled from the spec: `cxa_rpc_message_initResponse(msg, dest, id, retVal)`. -/
def cxa_rpc_message_initResponse (env : NrEnv) (msg : cxa_rpc_message_t) (dest : String)
    (idIn retValIn : Nat) : Option cxa_rpc_message_t :=
  if env.initResponseOk then
    some { msg with type := .RESPONSE, destination := some dest, id := idIn,
                    returnValue := retValIn, params := some [] }
  else none

/-- Modelled from the spec: `cxa_rpc_message_setId`. -/
def cxa_rpc_message_setId (env : NrEnv) (msg : cxa_rpc_message_t) (idIn : Nat) :
    Option cxa_rpc_message_t :=
  if env.setIdOk then some { msg with id := idIn } else none

/-- Modelled from the spec: `cxa_rpc_message_prependNodeNameToSource`. -/
def cxa_rpc_message_prependNodeNameToSource (env : NrEnv) (msg : cxa_rpc_message_t)
    (nameIn : String) : Option cxa_rpc_message_t :=
  if env.prependOk then some { msg with source := nameIn :: msg.source } else none

/-- Modelled from the spec: `cxa_rpc_message_getParams` followed by
`cxa_linkedField_append_cString` on the message under construction. -/
def cxa_linkedField_append_cString (env : NrEnv) (msg : cxa_rpc_message_t) (s : String) :
    Option cxa_rpc_message_t :=
  if !env.getParamsOk then none
  else match cxa_rpc_message_getParams msg with
    | none => none
    | some field =>
      if env.appendOk then some { msg with params := some (field ++ [s]) } else none

/-! ## cxa_array (macros of include/collections/cxa_array.h) -/

/-- The array object of `cxa_array.h`, at element granularity: `bufferLoc` is `none` for a `NULL`
buffer and otherwise holds the element slots of the buffer it points to. -/
structure cxa_array_t (α : Type) where
  bufferLoc : Option (List α)
  insertIndex : Nat
  maxNumElements : Nat
  deriving DecidableEq

/-- The macro `cxa_array_initStd(arrIn, bufferIn)`: an empty array over the declared C array
`bufferIn`, whose capacity `sizeof(bufferIn) / sizeof(*bufferIn)` is its number of slots. -/
def cxa_array_initStd {α : Type} (bufferIn : Option (List α)) : cxa_array_t α :=
  match bufferIn with
  | none => { bufferLoc := none, insertIndex := 0, maxNumElements := 0 }
  | some buf => { bufferLoc := some buf, insertIndex := 0, maxNumElements := buf.length }

/-- Modelled from the spec: `cxa_array_append` as documented in `cxa_array.h` (the
implementation is not among the sources): a full array is left unmodified and `false` is
returned, otherwise the item is copied into the slot at `insertIndex`. -/
def cxa_array_append {α : Type} (arrIn : cxa_array_t α) (itemIn : α) : Bool × cxa_array_t α :=
  match arrIn.bufferLoc with
  | none => (false, arrIn)
  | some buf =>
    if arrIn.insertIndex < arrIn.maxNumElements then
      (true, { arrIn with bufferLoc := some (buf.set arrIn.insertIndex itemIn),
                          insertIndex := arrIn.insertIndex + 1 })
    else (false, arrIn)

/-- The macro `cxa_array_iterate(arrIn, var, T)`: the elements the loop body is run on, in
order: none for a `NULL` buffer, otherwise the slots below `insertIndex`. -/
def cxa_array_iterate {α : Type} (arrIn : cxa_array_t α) : List α :=
  match arrIn.bufferLoc with
  | none => []
  | some buf => buf.take arrIn.insertIndex

/-! ## Message handlers and nodes -/

/-- The `struct cxa_rpc_messageHandler` of `cxa_rpc_messageHandler.h` (without its logger);
function pointers are identified by a number. -/
structure cxa_rpc_messageHandler_t where
  cb_upstream : Option Nat
  cb_downstream : Option Nat
  parent : Option Nat
  deriving DecidableEq

/-- Modelled from the spec: the fields of `cxa_rpc_node_t` the link reads and writes
(`cxa_rpc_node.h` is not among the sources). -/
structure cxa_rpc_node_t where
  super : cxa_rpc_messageHandler_t
  name : String
  isGlobalRoot : Bool
  isLocalRoot : Bool
  deriving DecidableEq

/-- The nodes in memory, by address. -/
abbrev NodeMem := Nat → cxa_rpc_node_t

def cxa_rpc_node_getName (nodes : NodeMem) (nodeIn : Nat) : String := (nodes nodeIn).name

/-- Identifier of the link's static function `handleMessage_upstream`. -/
def fn_handleMessage_upstream : Nat := 1
/-- Identifier of the link's static function `handleMessage_downstream`. -/
def fn_handleMessage_downstream : Nat := 2

/-- The function `cxa_rpc_messageHandler_init` of cxa_rpc_messageHandler.c. -/
def cxa_rpc_messageHandler_init (_handlerIn : cxa_rpc_messageHandler_t)
    (cb_upstreamIn cb_downstreamIn : Nat) : cxa_rpc_messageHandler_t :=
  { cb_upstream := some cb_upstreamIn, cb_downstream := some cb_downstreamIn, parent := none }

/-! ## The link -/

structure cxa_rpc_nodeRemote_linkListener_t where
  cb_linkEstablished : Option Nat
  userVar : Nat
  deriving DecidableEq

/-- Modelled from the spec: the protocol parser owned by a link, as far as its initialisation
goes (`cxa_rpc_protocolParser` is not among the sources). -/
structure cxa_rpc_protocolParser_t where
  protoVersion : Nat
  ioStream : Nat
  messageListeners : List Nat
  deriving DecidableEq

/-- Modelled from the spec: the `struct cxa_rpc_nodeRemote` (`cxa_rpc_nodeRemote.h` is not among
the sources), with the members the implementation uses.  `linkListeners_raw` is the storage
declared in the struct; once `cxa_array_initStd` has run, its slots live in
`linkListeners.bufferLoc`.  `td_provision` is the state of the provisioning timer. -/
structure cxa_rpc_nodeRemote_t where
  super : cxa_rpc_messageHandler_t
  downstreamSubNode : Option Nat
  isProvisioned : Bool
  td_provision : Nat
  linkListeners_raw : List cxa_rpc_nodeRemote_linkListener_t
  linkListeners : cxa_array_t cxa_rpc_nodeRemote_linkListener_t
  protocolParser : cxa_rpc_protocolParser_t
  deriving DecidableEq

/-- Calls a link makes into its collaborators. -/
inductive NrEvent
  | isElapsed_recurring_ms (ms : Nat) (elapsed : Bool)
  | getFreeMessage_empty (gotOne : Bool)
  | decrementMessageRefCount (nonNull : Bool)
  | writeMessage (msg : cxa_rpc_message_t) (ok : Bool)
  | protocolParser_update
  | cb_linkEstablished (cb : Nat) (userVar : Nat)
  | cb_upstream (cb : Nat) (handler : Nat) (msg : cxa_rpc_message_t)
  | cb_downstream (cb : Nat) (handler : Nat) (msg : cxa_rpc_message_t)
  deriving DecidableEq

/-- The listener calls made by the loop
`cxa_array_iterate(&nrIn->linkListeners, currListener, ...)` of both link-management handlers:
every iterated listener whose callback is set is called with the link and its own user
variable. -/
def notifyLinkListeners (nrIn : cxa_rpc_nodeRemote_t) : List NrEvent :=
  (cxa_array_iterate nrIn.linkListeners).filterMap fun currListener =>
    match currListener.cb_linkEstablished with
    | some cb => some (NrEvent.cb_linkEstablished cb currListener.userVar)
    | none => none

/-- Modelled from the spec: `cxa_rpc_protocolParser_init` followed by
`cxa_rpc_protocolParser_addMessageListener(.., messageReceived_cb, nrIn)`; the listener is
recorded by the address of the link it is registered for. -/
def cxa_rpc_protocolParser_init (protoVersionIn ioStreamIn nrAddr : Nat) :
    cxa_rpc_protocolParser_t :=
  { protoVersion := protoVersionIn, ioStream := ioStreamIn, messageListeners := [nrAddr] }

/-- The function `cxa_rpc_nodeRemote_init_upstream`; `nrAddr` is the address of `nrIn`. -/
def cxa_rpc_nodeRemote_init_upstream (nrAddr : Nat) (nrIn : cxa_rpc_nodeRemote_t)
    (ioStreamIn : Nat) : cxa_rpc_nodeRemote_t :=
  { nrIn with
    super := cxa_rpc_messageHandler_init nrIn.super fn_handleMessage_upstream
      fn_handleMessage_downstream
    downstreamSubNode := none
    isProvisioned := false
    linkListeners := cxa_array_initStd (some nrIn.linkListeners_raw)
    protocolParser := cxa_rpc_protocolParser_init PROTO_VERSION ioStreamIn nrAddr }

/-- The function `cxa_rpc_nodeRemote_init_downstream`; `nrAddr` is the address of `nrIn` and
`subNodeIn` the address of the subnode.  Returns the C return value, the link and the memory
of nodes after the call. -/
def cxa_rpc_nodeRemote_init_downstream (env : NrEnv) (nodes : NodeMem) (nrAddr : Nat)
    (nrIn : cxa_rpc_nodeRemote_t) (ioStreamIn timeBaseIn subNodeIn : Nat) :
    Bool × cxa_rpc_nodeRemote_t × NodeMem :=
  let nr : cxa_rpc_nodeRemote_t :=
    { nrIn with
      super := cxa_rpc_messageHandler_init nrIn.super fn_handleMessage_upstream
        fn_handleMessage_downstream
      downstreamSubNode := some subNodeIn
      isProvisioned := false
      td_provision := env.timeDiff_init timeBaseIn
      linkListeners := cxa_array_initStd (some nrIn.linkListeners_raw)
      protocolParser := cxa_rpc_protocolParser_init PROTO_VERSION ioStreamIn nrAddr }
  -- set ourselves as the downstream node's parent
  if (nodes subNodeIn).super.parent ≠ none then
    (false, nr, nodes)
  -- make sure we're not trying to add the global root as a subnode
  else if (nodes subNodeIn).isGlobalRoot then
    (false, nr, nodes)
  else
    -- if we made it here, we're good to add
    let sub := nodes subNodeIn
    (true, nr,
      Function.update nodes subNodeIn
        { sub with super := { sub.super with parent := some nrAddr }, isLocalRoot := true })

/-- The function `cxa_rpc_nodeRemote_addLinkListener`. -/
def cxa_rpc_nodeRemote_addLinkListener (nrIn : cxa_rpc_nodeRemote_t) (cb_linkEstablishedIn : Nat)
    (userVarIn : Nat) : Bool × cxa_rpc_nodeRemote_t :=
  let newListener : cxa_rpc_nodeRemote_linkListener_t :=
    { cb_linkEstablished := some cb_linkEstablishedIn, userVar := userVarIn }
  let r := cxa_array_append nrIn.linkListeners newListener
  (r.1, { nrIn with linkListeners := r.2 })

/-- The static function `isUpstream`. -/
def isUpstream (nrIn : cxa_rpc_nodeRemote_t) : Bool :=
  nrIn.downstreamSubNode == none

/-- The condition of lines 149-154 of `cxa_rpc_nodeRemote_update`, after the free message has
been obtained: the provisioning request, or `none` when one of the constructors fails. -/
def buildProvisionRequest (env : NrEnv) (nameIn : String) : Option cxa_rpc_message_t := do
  let m1 ← cxa_rpc_message_initRequest env emptyMessage LINK_MANAGEMENT_DEST
    LINK_MANAGEMENT_METHOD_PROVISON
  let m2 ← cxa_rpc_message_setId env m1 LINK_MANAGEMENT_ID_PROVISON
  let m3 ← cxa_rpc_message_prependNodeNameToSource env m2 LINK_MANAGEMENT_DEST
  cxa_linkedField_append_cString env m3 nameIn

/-- The function `cxa_rpc_nodeRemote_update`. -/
def cxa_rpc_nodeRemote_update (env : NrEnv) (nodes : NodeMem) (nrIn : cxa_rpc_nodeRemote_t) :
    cxa_rpc_nodeRemote_t × List NrEvent :=
  -- see if we need to try and provision ourselves...
  if !isUpstream nrIn && !nrIn.isProvisioned then
    let r := env.isElapsed_recurring_ms nrIn.td_provision PROVISION_TIMEOUT_MS
    let nr := { nrIn with td_provision := r.2 }
    let evTimer := NrEvent.isElapsed_recurring_ms PROVISION_TIMEOUT_MS r.1
    match r.1, nrIn.downstreamSubNode with
    | true, some subNode =>
      if !env.freeMessage then
        (nr, [evTimer, .getFreeMessage_empty false, .decrementMessageRefCount false])
      else
        match buildProvisionRequest env (cxa_rpc_node_getName nodes subNode) with
        | none =>
          (nr, [evTimer, .getFreeMessage_empty true, .decrementMessageRefCount true])
        | some nameReqMsg =>
          if !env.writeMessage nameReqMsg then
            (nr, [evTimer, .getFreeMessage_empty true, .writeMessage nameReqMsg false,
                  .decrementMessageRefCount true])
          else
            (nr, [evTimer, .getFreeMessage_empty true, .writeMessage nameReqMsg true,
                  .decrementMessageRefCount true, .protocolParser_update])
    | _, _ => (nr, [evTimer, .protocolParser_update])
  else
    (nrIn, [.protocolParser_update])

/-- The link's static function `handleMessage_upstream`; `msgIn` is `none` for `NULL`. -/
def handleMessage_upstream (env : NrEnv) (nrIn : cxa_rpc_nodeRemote_t)
    (msgIn : Option cxa_rpc_message_t) : cxa_rpc_nodeRemote_t × List NrEvent :=
  match msgIn with
  | none => (nrIn, [])
  | some msg =>
    -- this function should only be called on the downstream side of the connection
    if isUpstream nrIn then (nrIn, [])
    -- we have a message that we need to send via our ioStream
    else (nrIn, [.writeMessage msg (env.writeMessage msg)])

/-- The link's static function `handleMessage_downstream`, with its return value. -/
def handleMessage_downstream (env : NrEnv) (nrIn : cxa_rpc_nodeRemote_t)
    (msgIn : Option cxa_rpc_message_t) : Bool × cxa_rpc_nodeRemote_t × List NrEvent :=
  match msgIn with
  | none => (false, nrIn, [])
  | some msg =>
    -- this function should only be called on the upstream side of the connection
    if !isUpstream nrIn then (false, nrIn, [])
    -- we have a message that we need to send via our ioStream
    else if !env.writeMessage msg then (false, nrIn, [.writeMessage msg false])
    else (true, nrIn, [.writeMessage msg true])

/-- The macro `cxa_rpc_messageHandler_handleUpstream(handlerIn, msgIn)`: the callback of the
handler at address `handlerIn` is called when it is set. -/
def cxa_rpc_messageHandler_handleUpstream (nodes : NodeMem) (handlerIn : Nat)
    (msgIn : cxa_rpc_message_t) : List NrEvent :=
  match (nodes handlerIn).super.cb_upstream with
  | some cb => [.cb_upstream cb handlerIn msgIn]
  | none => []

/-- The macro `cxa_rpc_messageHandler_handleDownstream(handlerIn, msgIn)`; its value is
discarded by the link. -/
def cxa_rpc_messageHandler_handleDownstream (nodes : NodeMem) (handlerIn : Nat)
    (msgIn : cxa_rpc_message_t) : List NrEvent :=
  match (nodes handlerIn).super.cb_downstream with
  | some cb => [.cb_downstream cb handlerIn msgIn]
  | none => []

/-- The condition of lines 298-302 of `handleLinkManagement_upstream`, after the free message
has been obtained: the provisioning response, or `none` when a constructor fails. -/
def buildProvisionResponse (env : NrEnv) (msgIn : cxa_rpc_message_t) (nodeName : String) :
    Option cxa_rpc_message_t := do
  let m1 ← cxa_rpc_message_initResponse env emptyMessage LINK_MANAGEMENT_DEST
    (cxa_rpc_message_getId msgIn) env.CXA_RPC_METHOD_RETVAL_SUCCESS
  let m2 ← cxa_rpc_message_prependNodeNameToSource env m1 LINK_MANAGEMENT_DEST
  cxa_linkedField_append_cString env m2 nodeName

/-- The static function `handleLinkManagement_upstream`. -/
def handleLinkManagement_upstream (env : NrEnv) (nrIn : cxa_rpc_nodeRemote_t)
    (msgIn : cxa_rpc_message_t) : cxa_rpc_nodeRemote_t × List NrEvent :=
  if decide (cxa_rpc_message_getType msgIn = .REQUEST) &&
      (match cxa_rpc_message_getMethod msgIn with
       | some method => cxa_stringUtils_equals method LINK_MANAGEMENT_METHOD_PROVISON
       | none => false) then
    -- this is a request to provision
    match cxa_rpc_message_getParams msgIn with
    | none => (nrIn, [])
    | some params =>
      match cxa_linkedField_get_pointerToIndex params 0 with
      | none => (nrIn, [])
      | some nodeName =>
        if nodeName.length = 0 then (nrIn, [])
        -- get our response ready
        else if !env.freeMessage then
          (nrIn, [.getFreeMessage_empty false, .decrementMessageRefCount false])
        else
          match buildProvisionResponse env msgIn nodeName with
          | none => (nrIn, [.getFreeMessage_empty true, .decrementMessageRefCount true])
          | some respMsg =>
            -- our response is ready to go, send it!
            if !env.writeMessage respMsg then
              (nrIn, [.getFreeMessage_empty true, .writeMessage respMsg false,
                      .decrementMessageRefCount true])
            else
              -- notify our listeners
              (nrIn, [.getFreeMessage_empty true, .writeMessage respMsg true,
                      .decrementMessageRefCount true] ++ notifyLinkListeners nrIn)
  else (nrIn, [])

/-- The static function `handleLinkManagement_downstream`; `none` when the link has no
subnode to take the name from (the caller only runs it on a downstream link). -/
def handleLinkManagement_downstream (nodes : NodeMem) (nrIn : cxa_rpc_nodeRemote_t)
    (msgIn : cxa_rpc_message_t) : Option (cxa_rpc_nodeRemote_t × List NrEvent) :=
  if cxa_rpc_message_getType msgIn = .RESPONSE ∧
      cxa_rpc_message_getId msgIn = LINK_MANAGEMENT_ID_PROVISON then
    match cxa_rpc_message_getParams msgIn with
    | none => some (nrIn, [])
    | some retParams =>
      match cxa_linkedField_get_cstring_inPlace retParams 0 with
      | none => some (nrIn, [])
      | some respName =>
        -- we have a properly formatted provision response...
        -- check out the name and make sure it's for us
        match nrIn.downstreamSubNode with
        | none => none
        | some subNode =>
          if !cxa_stringUtils_equals respName (cxa_rpc_node_getName nodes subNode) then
            -- not for us
            some (nrIn, [])
          -- this a provisioning response for us...check the return value
          else if cxa_rpc_message_getReturnValue msgIn = 0 then
            some ({ nrIn with isProvisioned := false }, [])
          else
            let nr := { nrIn with isProvisioned := true }
            -- notify our listeners
            some (nr, notifyLinkListeners nr)
  else some (nrIn, [])

/-- The static function `messageReceived_cb`, the listener the link registers with its protocol
parser; `none` when the C code dereferences a `NULL` parent. -/
def messageReceived_cb (env : NrEnv) (nodes : NodeMem) (nrIn : cxa_rpc_nodeRemote_t)
    (msgIn : cxa_rpc_message_t) : Option (cxa_rpc_nodeRemote_t × List NrEvent) :=
  -- check for our exclusive link management messages...
  if (match cxa_rpc_message_getDestination msgIn with
      | some dest => cxa_stringUtils_equals dest LINK_MANAGEMENT_DEST
      | none => false) then
    -- this is a link management message...process locally and discard
    if isUpstream nrIn then some (handleLinkManagement_upstream env nrIn msgIn)
    else handleLinkManagement_downstream nodes nrIn msgIn
  -- normal operation...depends what side we are on...
  else if isUpstream nrIn then
    -- pass to our parent for processing
    match nrIn.super.parent with
    | none => none
    | some parent => some (nrIn, cxa_rpc_messageHandler_handleUpstream nodes parent msgIn)
  else
    -- pass to our subNode for processing
    match nrIn.downstreamSubNode with
    | none => none
    | some subNode => some (nrIn, cxa_rpc_messageHandler_handleDownstream nodes subNode msgIn)

/-! ## MQTT node bridge (src/src/mqtt/rpc/cxa_mqtt_rpc_node_bridge.c) -/

/-- Modelled from the spec: the frame kinds of `cxa_mqtt_message.h` (the header is not among
the sources): connect, connack, publish, subscribe, ping-request, ping-response, and any other
type code. -/
inductive cxa_mqtt_message_type_t
  | CONNECT
  | CONNACK
  | PUBLISH
  | SUBSCRIBE
  | PINGREQ
  | PINGRESP
  | OTHER (code : Nat)
  deriving DecidableEq

/-- Modelled from the spec: the return codes of an acknowledgment frame
(`cxa_mqtt_message_connack.h` is not among the sources). -/
inductive cxa_mqtt_connAck_returnCode_t
  | ACCEPTED
  | REFUSED_CID
  | REFUSED_BADUSERNAMEPASSWORD
  | REFUSED_OTHER (code : Nat)
  deriving DecidableEq

/-- Modelled from the spec: a received frame as the accessors used by the bridge see it
(`cxa_mqtt_message.h` and `cxa_mqtt_message_connect.h` are not among the sources).  A field is
`none` when its accessor reports failure; byte strings are lists of bytes, and their 16-bit
length is the length of the list. -/
structure cxa_mqtt_message_t where
  type : cxa_mqtt_message_type_t
  connect_clientId : Option (List Nat)
  connect_hasUsername : Option Bool
  connect_username : Option (List Nat)
  connect_hasPassword : Option Bool
  connect_password : Option (List Nat)
  deriving DecidableEq

def cxa_mqtt_message_getType (msgIn : cxa_mqtt_message_t) : cxa_mqtt_message_type_t := msgIn.type
def cxa_mqtt_message_connect_getClientId (msgIn : cxa_mqtt_message_t) : Option (List Nat) :=
  msgIn.connect_clientId
def cxa_mqtt_message_connect_hasUsername (msgIn : cxa_mqtt_message_t) : Option Bool :=
  msgIn.connect_hasUsername
def cxa_mqtt_message_connect_getUsername (msgIn : cxa_mqtt_message_t) : Option (List Nat) :=
  msgIn.connect_username
def cxa_mqtt_message_connect_hasPassword (msgIn : cxa_mqtt_message_t) : Option Bool :=
  msgIn.connect_hasPassword
def cxa_mqtt_message_connect_getPassword (msgIn : cxa_mqtt_message_t) : Option (List Nat) :=
  msgIn.connect_password

/-- The arguments of one call of the authentication callback
`cb_auth(clientId, clientIdLen, username, usernameLen, password, passwordLen, userVar)`;
a `NULL` username or password is `none`. -/
structure AuthArgs where
  clientId : List Nat
  clientIdLen_bytes : Nat
  username : Option (List Nat)
  usernameLen_bytes : Nat
  password : Option (List Nat)
  passwordLen_bytes : Nat
  userVar : Nat
  deriving DecidableEq

/-- Modelled from the spec: the members of `cxa_mqtt_rpc_node_bridge_t` the implementation
sets (`cxa_mqtt_rpc_node_bridge.h` is not among the sources).  The callback returns the mapped
name, `none` for `NULL`. -/
structure cxa_mqtt_rpc_node_bridge_t where
  isSingle : Bool
  cb_auth : Option (AuthArgs → Option String)
  userVar_auth : Nat

/-- A packet the bridge hands to `cxa_protocolParser_writePacket`. -/
inductive MqttPacket
  | CONNACK (isSessionPresent : Bool) (retCode : cxa_mqtt_connAck_returnCode_t)
  | PINGRESP
  deriving DecidableEq

/-- Calls the bridge makes into its collaborators. -/
inductive BridgeEvent
  | cb_auth (args : AuthArgs)
  | getFreeMessage_empty (gotOne : Bool)
  | writePacket (packet : MqttPacket) (ok : Bool)
  | decrementMessageRefCount
  deriving DecidableEq

/-- What the collaborators of the bridge answer during one call.  The constant
`CXA_MQTT_RPC_NODE_BRIDGE_CLIENTID_MAXLEN_BYTES` is declared in a header that is not among the
sources, so it is a field here. -/
structure BridgeEnv where
  CXA_MQTT_RPC_NODE_BRIDGE_CLIENTID_MAXLEN_BYTES : Nat
  freeMessage : Bool
  connack_initOk : Bool
  pingResponse_initOk : Bool
  writePacket : MqttPacket → Bool

/-- The function `cxa_mqtt_rpc_node_bridge_setAuthenticationCb`. -/
def cxa_mqtt_rpc_node_bridge_setAuthenticationCb (nodeIn : cxa_mqtt_rpc_node_bridge_t)
    (cb_authIn : Option (AuthArgs → Option String)) (userVarIn : Nat) :
    cxa_mqtt_rpc_node_bridge_t :=
  { nodeIn with cb_auth := cb_authIn, userVar_auth := userVarIn }

/-- The static function `sendMessage_connack`: the calls it makes. -/
def sendMessage_connack (env : BridgeEnv) (_nodeIn : cxa_mqtt_rpc_node_bridge_t)
    (isSessionPresentIn : Bool) (retCodeIn : cxa_mqtt_connAck_returnCode_t) :
    List BridgeEvent :=
  if !env.freeMessage then [.getFreeMessage_empty false]
  else if !env.connack_initOk then [.getFreeMessage_empty true, .decrementMessageRefCount]
  else
    let packet := MqttPacket.CONNACK isSessionPresentIn retCodeIn
    [.getFreeMessage_empty true, .writePacket packet (env.writePacket packet),
     .decrementMessageRefCount]

/-- The condition of lines 158-162 of `handleMessage_connect`: client id, username and password
of the frame (`none` for an absent username or password), or `none` when an accessor fails. -/
def readConnectInfo (msgIn : cxa_mqtt_message_t) :
    Option (List Nat × Option (List Nat) × Option (List Nat)) := do
  let clientId ← cxa_mqtt_message_connect_getClientId msgIn
  let hasUsername ← cxa_mqtt_message_connect_hasUsername msgIn
  let username ←
    if hasUsername then (cxa_mqtt_message_connect_getUsername msgIn).map some else some none
  let hasPassword ← cxa_mqtt_message_connect_hasPassword msgIn
  let password ←
    if hasPassword then (cxa_mqtt_message_connect_getPassword msgIn).map some else some none
  pure (clientId, username, password)

/-- Length of an optional byte string: `usernameLen_bytes` and `passwordLen_bytes` stay 0 when
the field is absent. -/
def lenOrZero (field : Option (List Nat)) : Nat :=
  match field with
  | some bytes => bytes.length
  | none => 0

/-- The static function `handleMessage_connect`. -/
def handleMessage_connect (env : BridgeEnv) (nodeIn : cxa_mqtt_rpc_node_bridge_t)
    (msgIn : cxa_mqtt_message_t) : cxa_mqtt_rpc_node_bridge_t × List BridgeEvent :=
  -- can't do anything unless we have an auth callback setup
  match nodeIn.cb_auth with
  | none => (nodeIn, [])
  | some cb_auth =>
    -- get our relevant information
    match readConnectInfo msgIn with
    | none => (nodeIn, [])
    | some (clientId, username, password) =>
      -- make sure our clientId is the appropriate size
      if clientId.length ≥ env.CXA_MQTT_RPC_NODE_BRIDGE_CLIENTID_MAXLEN_BYTES then
        (nodeIn, sendMessage_connack env nodeIn false .REFUSED_CID)
      else
        -- call our authentication function (already verified it was set)
        let args : AuthArgs :=
          { clientId := clientId, clientIdLen_bytes := clientId.length,
            username := username, usernameLen_bytes := lenOrZero username,
            password := password, passwordLen_bytes := lenOrZero password,
            userVar := nodeIn.userVar_auth }
        match cb_auth args with
        | none =>
          (nodeIn, BridgeEvent.cb_auth args ::
            sendMessage_connack env nodeIn false .REFUSED_BADUSERNAMEPASSWORD)
        | some _mappedName =>
          -- if we made it here, send our connack
          (nodeIn, BridgeEvent.cb_auth args :: sendMessage_connack env nodeIn false .ACCEPTED)

/-- The static function `handleMessage_pingReq`. -/
def handleMessage_pingReq (env : BridgeEnv) (nodeIn : cxa_mqtt_rpc_node_bridge_t)
    (_msgIn : cxa_mqtt_message_t) : cxa_mqtt_rpc_node_bridge_t × List BridgeEvent :=
  if !env.freeMessage then (nodeIn, [.getFreeMessage_empty false])
  else if !env.pingResponse_initOk then
    (nodeIn, [.getFreeMessage_empty true, .decrementMessageRefCount])
  else
    (nodeIn, [.getFreeMessage_empty true,
              .writePacket MqttPacket.PINGRESP (env.writePacket MqttPacket.PINGRESP),
              .decrementMessageRefCount])

/-- The static function `handleMessage_subscribe` (it only logs). -/
def handleMessage_subscribe (nodeIn : cxa_mqtt_rpc_node_bridge_t) (_msgIn : cxa_mqtt_message_t) :
    cxa_mqtt_rpc_node_bridge_t × List BridgeEvent :=
  (nodeIn, [])

/-- The static function `handleMessage_publish` (it only logs). -/
def handleMessage_publish (nodeIn : cxa_mqtt_rpc_node_bridge_t) (_msgIn : cxa_mqtt_message_t) :
    cxa_mqtt_rpc_node_bridge_t × List BridgeEvent :=
  (nodeIn, [])

/-- The static function `protoParseCb_onPacketReceived`; `msg` is what
`cxa_mqtt_messageFactory_getMessage_byBuffer(packetIn)` finds, `none` for `NULL`. -/
def protoParseCb_onPacketReceived (env : BridgeEnv) (nodeIn : cxa_mqtt_rpc_node_bridge_t)
    (msg : Option cxa_mqtt_message_t) : cxa_mqtt_rpc_node_bridge_t × List BridgeEvent :=
  match msg with
  | none => (nodeIn, [])
  | some msg =>
    match cxa_mqtt_message_getType msg with
    | .CONNECT => handleMessage_connect env nodeIn msg
    | .PINGREQ => handleMessage_pingReq env nodeIn msg
    | .SUBSCRIBE => handleMessage_subscribe nodeIn msg
    | .PUBLISH => handleMessage_publish nodeIn msg
    | _ => (nodeIn, [])

/-! ## ESP8266 network factory (src/src/arch-esp8266/cxa_esp8266_network_factory.c) -/

/-- Modelled from the spec: `cxa_array_init_inPlace` as documented in `cxa_array.h` (the
implementation is not among the sources): an array over a buffer that already holds
`currNumElemsIn` elements, so that its size is `currNumElemsIn`. -/
def cxa_array_init_inPlace {α : Type} (currNumElemsIn : Nat) (bufferLocIn : Option (List α)) :
    cxa_array_t α :=
  match bufferLocIn with
  | none => { bufferLoc := none, insertIndex := 0, maxNumElements := 0 }
  | some buf => { bufferLoc := some buf, insertIndex := currNumElemsIn,
                  maxNumElements := buf.length }

/-- A loop `cxa_array_iterate(arrIn, currEntry, T) { ... }` whose body writes through
`currEntry`: the iterated slots are replaced by `newSlots`, the slots at and above `insertIndex`
keep their contents. -/
def cxa_array_iterate_write {α : Type} (arrIn : cxa_array_t α) (newSlots : List α) :
    cxa_array_t α :=
  match arrIn.bufferLoc with
  | none => arrIn
  | some buf => { arrIn with bufferLoc := some (newSlots ++ buf.drop arrIn.insertIndex) }

/-- The local type `clientEntry_t`.  The contents of the `cxa_esp8266_network_tcpClient_t`
(declared in a header that is not among the sources) are an opaque number. -/
structure clientEntry_t where
  isUsed : Bool
  client : Nat
  deriving DecidableEq

/-- The local type `serverEntry_t`; the contents of the server object are an opaque number. -/
structure serverEntry_t where
  isUsed : Bool
  server : Nat
  deriving DecidableEq

/-- The static variables of cxa_esp8266_network_factory.c.  `clients_raw` and `servers_raw` are
the storage as declared: their lengths are `CXA_ESP8266_NETWORKFACTORY_MAXNUM_CLIENTS` and
`CXA_ESP8266_NETWORKFACTORY_MAXNUM_SERVERS` (2 each unless configured otherwise); once
`cxa_array_init_inPlace` has run, the slots live in `clients.bufferLoc` and
`servers.bufferLoc`.  A pointer to a client or server of the pool is the index of its slot
(the code identifies an object with its `super` member by a cast); any other number is a
pointer to something else. -/
structure NetworkFactory where
  isInit : Bool
  clients : cxa_array_t clientEntry_t
  clients_raw : List clientEntry_t
  servers : cxa_array_t serverEntry_t
  servers_raw : List serverEntry_t
  deriving DecidableEq

/-- The constant `CXA_ESP8266_NETWORKFACTORY_MAXNUM_CLIENTS` of the build `f` belongs to. -/
def CXA_ESP8266_NETWORKFACTORY_MAXNUM_CLIENTS (f : NetworkFactory) : Nat := f.clients_raw.length

/-- The constant `CXA_ESP8266_NETWORKFACTORY_MAXNUM_SERVERS` of the build `f` belongs to. -/
def CXA_ESP8266_NETWORKFACTORY_MAXNUM_SERVERS (f : NetworkFactory) : Nat := f.servers_raw.length

/-- The function `cxa_esp8266_network_factory_init`. -/
def cxa_esp8266_network_factory_init (f : NetworkFactory) : NetworkFactory :=
  let clients :=
    if CXA_ESP8266_NETWORKFACTORY_MAXNUM_CLIENTS f > 0 then
      let arr := cxa_array_init_inPlace f.clients_raw.length (some f.clients_raw)
      -- mark each of our clients as unused
      cxa_array_iterate_write arr
        ((cxa_array_iterate arr).map fun currEntry => { currEntry with isUsed := false })
    else f.clients
  let servers :=
    if CXA_ESP8266_NETWORKFACTORY_MAXNUM_SERVERS f > 0 then
      let arr := cxa_array_init_inPlace f.servers_raw.length (some f.servers_raw)
      -- mark each of our servers as unused
      cxa_array_iterate_write arr
        ((cxa_array_iterate arr).map fun currEntry => { currEntry with isUsed := false })
    else f.servers
  { f with clients := clients, servers := servers, isInit := true }

/-- The loop of `cxa_network_factory_reserveTcpClient` over the slots from index `idx` on: the
first unused slot is marked used, its client initialised, and its pointer returned with the
slots after the loop; `none` when the loop ends without finding one. -/
def reserveClientLoop (tcpClient_init : Nat → Nat) :
    List clientEntry_t → Nat → Option (Nat × List clientEntry_t)
  | [], _ => none
  | currEntry :: rest, idx =>
    if !currEntry.isUsed then
      some (idx, { isUsed := true, client := tcpClient_init currEntry.client } :: rest)
    else
      match reserveClientLoop tcpClient_init rest (idx + 1) with
      | none => none
      | some r => some (r.1, currEntry :: r.2)

/-- The function `cxa_network_factory_reserveTcpClient`: the returned pointer (`none` for
`NULL`) and the factory after the call; the outer `none` is a failed `cxa_assert`.
`tcpClient_init` is `cxa_esp8266_network_tcpClient_init` on the client's contents. -/
def cxa_network_factory_reserveTcpClient (tcpClient_init : Nat → Nat) (f : NetworkFactory) :
    Option (Option Nat × NetworkFactory) :=
  if !f.isInit then none
  else if CXA_ESP8266_NETWORKFACTORY_MAXNUM_CLIENTS f > 0 then
    match reserveClientLoop tcpClient_init (cxa_array_iterate f.clients) 0 with
    | some r => some (some r.1, { f with clients := cxa_array_iterate_write f.clients r.2 })
    -- if we made it here, we don't have any free clients
    | none => some (none, f)
  else none

/-- The loop of `cxa_network_factory_freeTcpClient` over the slots from index `idx` on: the
slot whose client is `clientIn` is marked unused and the loop ends. -/
def freeClientLoop (clientIn : Option Nat) : List clientEntry_t → Nat → List clientEntry_t
  | [], _ => []
  | currEntry :: rest, idx =>
    if some idx = clientIn then { currEntry with isUsed := false } :: rest
    else currEntry :: freeClientLoop clientIn rest (idx + 1)

/-- The function `cxa_network_factory_freeTcpClient`; `clientIn` is `none` for `NULL`; the
result is `none` for a failed `cxa_assert`. -/
def cxa_network_factory_freeTcpClient (f : NetworkFactory) (clientIn : Option Nat) :
    Option NetworkFactory :=
  if !f.isInit then none
  else if CXA_ESP8266_NETWORKFACTORY_MAXNUM_CLIENTS f > 0 then
    some { f with clients :=
      cxa_array_iterate_write f.clients (freeClientLoop clientIn (cxa_array_iterate f.clients) 0) }
  else none

/-- The loop of `cxa_network_factory_reserveTcpServer`, as `reserveClientLoop`. -/
def reserveServerLoop (tcpServer_init : Nat → Nat) :
    List serverEntry_t → Nat → Option (Nat × List serverEntry_t)
  | [], _ => none
  | currEntry :: rest, idx =>
    if !currEntry.isUsed then
      some (idx, { isUsed := true, server := tcpServer_init currEntry.server } :: rest)
    else
      match reserveServerLoop tcpServer_init rest (idx + 1) with
      | none => none
      | some r => some (r.1, currEntry :: r.2)

/-- The function `cxa_network_factory_reserveTcpServer`. -/
def cxa_network_factory_reserveTcpServer (tcpServer_init : Nat → Nat) (f : NetworkFactory) :
    Option (Option Nat × NetworkFactory) :=
  if !f.isInit then none
  else if CXA_ESP8266_NETWORKFACTORY_MAXNUM_SERVERS f > 0 then
    match reserveServerLoop tcpServer_init (cxa_array_iterate f.servers) 0 with
    | some r => some (some r.1, { f with servers := cxa_array_iterate_write f.servers r.2 })
    -- if we made it here, we don't have any free servers
    | none => some (none, f)
  else none

/-- The loop of `cxa_network_factory_freeTcpServer`, as `freeClientLoop`. -/
def freeServerLoop (serverIn : Option Nat) : List serverEntry_t → Nat → List serverEntry_t
  | [], _ => []
  | currEntry :: rest, idx =>
    if some idx = serverIn then { currEntry with isUsed := false } :: rest
    else currEntry :: freeServerLoop serverIn rest (idx + 1)

/-- The function `cxa_network_factory_freeTcpServer`. -/
def cxa_network_factory_freeTcpServer (f : NetworkFactory) (serverIn : Option Nat) :
    Option NetworkFactory :=
  if !f.isInit then none
  else if CXA_ESP8266_NETWORKFACTORY_MAXNUM_SERVERS f > 0 then
    some { f with servers :=
      cxa_array_iterate_write f.servers (freeServerLoop serverIn (cxa_array_iterate f.servers) 0) }
  else none

/-- The client slots of the pool, in index order. -/
def clientSlots (f : NetworkFactory) : List clientEntry_t := cxa_array_iterate f.clients

/-- A run of `count` consecutive calls of `cxa_network_factory_reserveTcpClient`: the pointers
returned, in order, and the factory after the last call. -/
def reserveTcpClients (tcpClient_init : Nat → Nat) :
    Nat → NetworkFactory → Option (List (Option Nat) × NetworkFactory)
  | 0, f => some ([], f)
  | count + 1, f =>
    match cxa_network_factory_reserveTcpClient tcpClient_init f with
    | none => none
    | some r1 =>
      match reserveTcpClients tcpClient_init count r1.2 with
      | none => none
      | some r2 => some (r1.1 :: r2.1, r2.2)

/-- A factory that has been initialised and not been tampered with: the client array covers
the whole of its storage, which has at least one slot. -/
def clientPoolReady (f : NetworkFactory) : Prop :=
  f.isInit = true ∧ 0 < CXA_ESP8266_NETWORKFACTORY_MAXNUM_CLIENTS f ∧
    ∃ buf, f.clients.bufferLoc = some buf ∧ f.clients.insertIndex = buf.length ∧
      buf.length = CXA_ESP8266_NETWORKFACTORY_MAXNUM_CLIENTS f

/-- One call into the factory after its initialisation. -/
inductive FactoryCall
  | reserveTcpClient
  | freeTcpClient (clientIn : Option Nat)
  | reserveTcpServer
  | freeTcpServer (serverIn : Option Nat)
  deriving DecidableEq

/-- The factory after one call (the returned pointer is dropped); `none` for a failed
`cxa_assert`. -/
def factoryCall (tcpClient_init tcpServer_init : Nat → Nat) (f : NetworkFactory) :
    FactoryCall → Option NetworkFactory
  | .reserveTcpClient => (cxa_network_factory_reserveTcpClient tcpClient_init f).map (·.2)
  | .freeTcpClient clientIn => cxa_network_factory_freeTcpClient f clientIn
  | .reserveTcpServer => (cxa_network_factory_reserveTcpServer tcpServer_init f).map (·.2)
  | .freeTcpServer serverIn => cxa_network_factory_freeTcpServer f serverIn

/-- The factory after a sequence of calls. -/
def factoryCalls (tcpClient_init tcpServer_init : Nat → Nat) (f : NetworkFactory) :
    List FactoryCall → Option NetworkFactory
  | [] => some f
  | call :: rest =>
    match factoryCall tcpClient_init tcpServer_init f call with
    | none => none
    | some f1 => factoryCalls tcpClient_init tcpServer_init f1 rest

/-- The static variables before `cxa_esp8266_network_factory_init`, in the default build with
two client and two server slots whose storage holds arbitrary contents. -/
def sampleFactoryStorage : NetworkFactory :=
  { isInit := false
    clients := { bufferLoc := none, insertIndex := 0, maxNumElements := 0 }
    clients_raw := [⟨true, 41⟩, ⟨false, 42⟩]
    servers := { bufferLoc := none, insertIndex := 0, maxNumElements := 0 }
    servers_raw := [⟨true, 51⟩, ⟨true, 52⟩] }

/-- The default build after initialisation and two reservations: both client slots in use. -/
def sampleFactoryExhausted : NetworkFactory :=
  { isInit := true
    clients := { bufferLoc := some [⟨true, 0⟩, ⟨true, 0⟩], insertIndex := 2,
                 maxNumElements := 2 }
    clients_raw := [⟨true, 41⟩, ⟨false, 42⟩]
    servers := { bufferLoc := some [⟨false, 51⟩, ⟨false, 52⟩], insertIndex := 2,
                 maxNumElements := 2 }
    servers_raw := [⟨true, 51⟩, ⟨true, 52⟩] }

/-- An upstream link at address 200 whose parent is the node at address 8. -/
def sampleUpstreamLinkWithParent : cxa_rpc_nodeRemote_t :=
  { cxa_rpc_nodeRemote_init_upstream 200
      { super := { cb_upstream := none, cb_downstream := none, parent := none }
        downstreamSubNode := none, isProvisioned := false, td_provision := 0
        linkListeners_raw := [⟨none, 0⟩, ⟨none, 0⟩]
        linkListeners := { bufferLoc := none, insertIndex := 0, maxNumElements := 0 }
        protocolParser := { protoVersion := 0, ioStream := 0, messageListeners := [] } } 1 with
    super := { cb_upstream := some 1, cb_downstream := some 2, parent := some 8 } }

/-- An application message: a request for the node "dev1". -/
def sampleApplicationMessage : cxa_rpc_message_t :=
  { type := .REQUEST, destination := some "dev1", method := some "ping", source := [],
    id := 7, returnValue := 0, params := some [] }

/-- The listener table of a link is in the state the link's initialisation and
`cxa_array_append` leave it in: it has a buffer, its capacity is the number of slots of the
buffer, and `insertIndex` does not exceed it. -/
def listenerTableReady (nrIn : cxa_rpc_nodeRemote_t) : Prop :=
  ∃ buf, nrIn.linkListeners.bufferLoc = some buf ∧
    nrIn.linkListeners.maxNumElements = buf.length ∧
    nrIn.linkListeners.insertIndex ≤ buf.length

/-- The listeners currently registered with a link, in registration order. -/
def registeredListeners (nrIn : cxa_rpc_nodeRemote_t) : List cxa_rpc_nodeRemote_linkListener_t :=
  cxa_array_iterate nrIn.linkListeners

/-- The link after the listeners `ls` (callback, user variable) have been handed, in order, to
`cxa_rpc_nodeRemote_addLinkListener`; the return values are dropped. -/
def addLinkListeners (nrIn : cxa_rpc_nodeRemote_t) : List (Nat × Nat) → cxa_rpc_nodeRemote_t
  | [] => nrIn
  | l :: rest => addLinkListeners (cxa_rpc_nodeRemote_addLinkListener nrIn l.1 l.2).2 rest

/-- The call of the listener `l` (callback, user variable) by the link. -/
def listenerCall (l : Nat × Nat) : NrEvent := NrEvent.cb_linkEstablished l.1 l.2

/-- Whether the client slot that the pointer `p` stands for is marked used (`false` when `p`
is not a client of the pool). -/
def clientIsUsed (f : NetworkFactory) (p : Nat) : Bool :=
  match (clientSlots f)[p]? with
  | some currEntry => currEntry.isUsed
  | none => false

/-- One call into the factory together with the bookkeeping of its callers: `held` lists the
client pointers that `cxa_network_factory_reserveTcpClient` has handed out and that have not
been passed to `cxa_network_factory_freeTcpClient` since. -/
def trackedCall (tcpClient_init tcpServer_init : Nat → Nat) (f : NetworkFactory)
    (held : List Nat) : FactoryCall → Option (NetworkFactory × List Nat)
  | .reserveTcpClient =>
    match cxa_network_factory_reserveTcpClient tcpClient_init f with
    | none => none
    | some r => some (r.2, match r.1 with
                           | some p => p :: held
                           | none => held)
  | .freeTcpClient clientIn =>
    match cxa_network_factory_freeTcpClient f clientIn with
    | none => none
    | some f1 => some (f1, held.filter fun p => decide (some p ≠ clientIn))
  | .reserveTcpServer =>
    match cxa_network_factory_reserveTcpServer tcpServer_init f with
    | none => none
    | some r => some (r.2, held)
  | .freeTcpServer serverIn =>
    match cxa_network_factory_freeTcpServer f serverIn with
    | none => none
    | some f1 => some (f1, held)

/-- A sequence of calls with the bookkeeping of `trackedCall`. -/
def trackedCalls (tcpClient_init tcpServer_init : Nat → Nat) (f : NetworkFactory)
    (held : List Nat) : List FactoryCall → Option (NetworkFactory × List Nat)
  | [] => some (f, held)
  | call :: rest =>
    match trackedCall tcpClient_init tcpServer_init f held call with
    | none => none
    | some st => trackedCalls tcpClient_init tcpServer_init st.1 st.2 rest

/-! ## Console (src/src/console/cxa_console.c) -/

/-- The macro `COMMAND_BUFFER_LEN_BYTES`. -/
def COMMAND_BUFFER_LEN_BYTES : Nat := 100

/-- The macro `MAX_ARGS`. -/
def MAX_ARGS : Nat := 4

/-- The macro `MAX_ARG_LEN`. -/
def MAX_ARG_LEN : Nat := 80

/-- Modelled from the spec: `cxa_array_getSize_elems` as documented in `cxa_array.h` (the
implementation is not among the sources): the number of elements of the array. -/
def cxa_array_getSize_elems {α : Type} (arrIn : cxa_array_t α) : Nat := arrIn.insertIndex

/-- Modelled from the spec: `cxa_array_isEmpty` as documented in `cxa_array.h`: whether the
array holds no elements. -/
def cxa_array_isEmpty {α : Type} (arrIn : cxa_array_t α) : Bool := arrIn.insertIndex == 0

/-- Modelled from the spec: `cxa_array_get` as documented in `cxa_array.h`: a pointer to the
element at `indexIn` inside the array's buffer (its slot index), `none` for `NULL` when the
index is out of bounds. -/
def cxa_array_get {α : Type} (arrIn : cxa_array_t α) (indexIn : Nat) : Option Nat :=
  match arrIn.bufferLoc with
  | none => none
  | some _ => if indexIn < arrIn.insertIndex then some indexIn else none

/-- Modelled from the spec: `cxa_array_clear` as documented in `cxa_array.h`: the array is
empty afterwards, "but the underlying memory may still contain the original data". -/
def cxa_array_clear {α : Type} (arrIn : cxa_array_t α) : cxa_array_t α :=
  { arrIn with insertIndex := 0 }

/-- Modelled from the spec: `cxa_array_remove_atIndex` as documented in `cxa_array.h`: the
element at `indexIn` is removed, "moving all following elements down"; `false` for an invalid
index.  The slot that held the last element keeps its contents. -/
def cxa_array_remove_atIndex {α : Type} (arrIn : cxa_array_t α) (indexIn : Nat) :
    Bool × cxa_array_t α :=
  match arrIn.bufferLoc with
  | none => (false, arrIn)
  | some buf =>
    if indexIn < arrIn.insertIndex then
      (true, { arrIn with
        bufferLoc := some (buf.take indexIn ++
          (buf.drop (indexIn + 1)).take (arrIn.insertIndex - indexIn - 1) ++
          buf.drop (arrIn.insertIndex - 1)),
        insertIndex := arrIn.insertIndex - 1 })
    else (false, arrIn)

/-- The local type `commandEntry_t`: `command` holds the bytes of the C string without its
terminator, `cb` and `userVar` are pointers. -/
structure commandEntry_t where
  command : List Nat
  cb : Option Nat
  userVar : Option Nat
  deriving DecidableEq

/-- The static variables of cxa_console.c once `ioStream` is set (each slot of
`commandBuffer` is one `char`). -/
structure Console where
  commandBuffer : cxa_array_t Nat
  commandEntries : cxa_array_t commandEntry_t
  isExecutingCommand : Bool
  deriving DecidableEq

/-- What cxa_console.c takes from outside the sources: the constants
`CXA_CONSOLE_MAX_COMMAND_LEN_BYTES`, `CXA_CONSOLE_MAXNUM_COMMANDS` and `CXA_LINE_ENDING`, the
answers of `cxa_stringUtils_startsWith(str, start)` and
`cxa_stringUtils_indexOf_withLengths(str, strLen, target, targetLen)`, where `str` is given as
the bytes from the pointer passed to the end of the buffer it points into, and the contents
that the local array `arg_buf` has before anything is written to it. -/
structure ConsoleEnv where
  CXA_CONSOLE_MAX_COMMAND_LEN_BYTES : Nat
  CXA_CONSOLE_MAXNUM_COMMANDS : Nat
  CXA_LINE_ENDING : String
  startsWith : List Nat → List Nat → Bool
  indexOf_withLengths : List Nat → Int → List Nat → Nat → Int
  arg_buf_before : Nat → Nat

/-- The calls that leave cxa_console.c.  `command_cb` is the call
`currEntry->cb(ioStream, currEntry->userVar, argc, argv)`: `argv` is `none` for `NULL` and
otherwise lists, for each index below `argc`, the C string that `argv[index]` points to at the
time of the call. -/
inductive ConsoleEvent
  | ioStream_writeString (s : String)
  | ioStream_writeByte (b : Nat)
  | ioStream_writeLine (s : String)
  | command_cb (cb : Nat) (userVar : Option Nat) (argc : Int) (argv : Option (List (List Nat)))
  deriving DecidableEq

/-- The function `cxa_console_addCommand`; `none` for a failed `cxa_assert`.  The copy made by
`cxa_stringUtils_copy` holds the whole of `commandIn`, whose length the assertion bounds. -/
def cxa_console_addCommand (env : ConsoleEnv) (c : Console) (commandIn : Option (List Nat))
    (cbIn userVarIn : Option Nat) : Option Console :=
  match commandIn, cbIn with
  | some command, some cb =>
    if command.length ≤ env.CXA_CONSOLE_MAX_COMMAND_LEN_BYTES then
      let newEntry : commandEntry_t := { command := command, cb := some cb, userVar := userVarIn }
      let r := cxa_array_append c.commandEntries newEntry
      if r.1 then some { c with commandEntries := r.2 } else none
    else none
  | _, _ => none

/-- The function `printCommandLine`. -/
def printCommandLine (env : ConsoleEnv) (c : Console) : Console × List ConsoleEvent :=
  ({ c with isExecutingCommand := false },
    [ConsoleEvent.ioStream_writeString env.CXA_LINE_ENDING,
     ConsoleEvent.ioStream_writeString " > "] ++
    (cxa_array_iterate c.commandBuffer).map ConsoleEvent.ioStream_writeByte)

/-- The function `printError`. -/
def printError (env : ConsoleEnv) (errorIn : String) : List ConsoleEvent :=
  [.ioStream_writeString env.CXA_LINE_ENDING, .ioStream_writeString "!! ",
   .ioStream_writeLine errorIn]

/-- The call `memcpy(&dstBuf[dst], &srcBuf[src], n)`: the destination afterwards, `none` when
the copy leaves either buffer. -/
def memcpy (dstBuf : List Nat) (dst : Nat) (srcBuf : List Nat) (src n : Nat) :
    Option (List Nat) :=
  if dst + n ≤ dstBuf.length ∧ src + n ≤ srcBuf.length then
    some (dstBuf.take dst ++ (srcBuf.drop src).take n ++ dstBuf.drop (dst + n))
  else none

/-- The assignment `buf[idx] = b`: `none` when `idx` is outside of `buf`. -/
def storeByte (buf : List Nat) (idx : Int) (b : Nat) : Option (List Nat) :=
  if 0 ≤ idx ∧ idx < buf.length then some (buf.set idx.toNat b) else none

/-- The C string that starts at `buf[loc]`: the bytes before the first zero byte. -/
def cString (buf : List Nat) (loc : Nat) : List Nat := (buf.drop loc).takeWhile (· ≠ 0)

/-- The loop `for (int lcv = 0; lcv < MAX_ARGS; lcv++)` of `cb_onRunLoopUpdate` from the
iteration `lcv` on, with `remaining = MAX_ARGS - lcv`: `raw` is the storage of
`commandBuffer`, `cmdBufPtr` an index into it.  The result is `arg_buf` and `argc` after the
loop (`argv[i]` is `&arg_buf[i * MAX_ARG_LEN]` for each `i` below `argc`); `none` when an
access leaves its buffer. -/
def parseArgs (env : ConsoleEnv) (raw : List Nat) :
    Nat → Nat → Nat → Int → List Nat → Int → Option (List Nat × Int)
  | 0, _, _, _, arg_buf, argc => some (arg_buf, argc)
  | remaining + 1, lcv, cmdBufPtr, cmdBufLen, arg_buf, argc =>
    let offs := env.indexOf_withLengths (raw.drop cmdBufPtr) cmdBufLen [32] 1
    if offs ≥ 0 then
      match memcpy arg_buf (lcv * MAX_ARG_LEN) raw cmdBufPtr offs.toNat with
      | none => none
      | some copied =>
        match storeByte copied (lcv * MAX_ARG_LEN + offs) 0 with
        | none => none
        | some arg_buf1 =>
          parseArgs env raw remaining (lcv + 1) (cmdBufPtr + (offs.toNat + 1))
            (cmdBufLen - offs) arg_buf1 (argc + 1)
    else
      -- There's one argument left...
      if cmdBufLen < 0 then none
      else
        match memcpy arg_buf (lcv * MAX_ARG_LEN) raw cmdBufPtr cmdBufLen.toNat with
        | none => none
        | some copied =>
          match storeByte copied (lcv * MAX_ARG_LEN + cmdBufLen - 1) 0 with
          | none => none
          | some arg_buf1 => some (arg_buf1, argc + 1)

/-- The body that `cb_onRunLoopUpdate` runs for the matching entry `currEntry`, up to the
`break`: the console afterwards and the calls made. -/
def runCommand (env : ConsoleEnv) (c : Console) (currEntry : commandEntry_t) :
    Option (Console × List ConsoleEvent) :=
  match c.commandBuffer.bufferLoc, cxa_array_get c.commandBuffer 0 with
  | some raw, some cmdBufPtr =>
    match parseArgs env raw MAX_ARGS 0 cmdBufPtr (cxa_array_getSize_elems c.commandBuffer)
        ((List.range (MAX_ARGS * MAX_ARG_LEN)).map env.arg_buf_before) 0 with
    | none => none
    | some (arg_buf, argc) =>
      let call : List ConsoleEvent :=
        match currEntry.cb with
        | none => []
        | some cb =>
          if argc > 0 then
            [.command_cb cb currEntry.userVar argc
              (some ((List.range argc.toNat).map fun i => cString arg_buf (i * MAX_ARG_LEN)))]
          else [.command_cb cb currEntry.userVar 0 none]
      some ({ c with isExecutingCommand := true,
                     commandBuffer := cxa_array_clear c.commandBuffer },
        [ConsoleEvent.ioStream_writeString env.CXA_LINE_ENDING] ++ call ++
        [ConsoleEvent.ioStream_writeString env.CXA_LINE_ENDING])
  | _, _ => none

/-- The loop `cxa_array_iterate(&commandEntries, currEntry, commandEntry_t)` of
`cb_onRunLoopUpdate` over the entries `entries` still to visit: the inner `none` when the loop
ends with `foundCommand` false. -/
def processCommand (env : ConsoleEnv) (c : Console) :
    List commandEntry_t → Option (Option (Console × List ConsoleEvent))
  | [] => some none
  | currEntry :: rest =>
    match c.commandBuffer.bufferLoc, cxa_array_get c.commandBuffer 0 with
    | some raw, some cmdBufPtr =>
      if env.startsWith (raw.drop cmdBufPtr) currEntry.command then
        -- we have a matching command
        match runCommand env c currEntry with
        | none => none
        | some r => some (some r)
      else processCommand env c rest
    | _, _ => none

/-- The function `cb_onRunLoopUpdate`; `readByte` is the byte that `cxa_ioStream_readByte`
delivers (`none` when it does not answer `CXA_IOSTREAM_READSTAT_GOTDATA`).  The result is
`none` when an access leaves its buffer. -/
def cb_onRunLoopUpdate (env : ConsoleEnv) (c : Console) (readByte : Option Nat) :
    Option (Console × List ConsoleEvent) :=
  match readByte with
  | none => some (c, [])
  | some rxByte =>
    -- handle carriage returns / line feeds
    if rxByte = 13 ∨ rxByte = 10 then
      -- end of a command...make sure it's not empty
      if cxa_array_isEmpty c.commandBuffer then some (c, [])
      else
        match processCommand env c (cxa_array_iterate c.commandEntries) with
        | none => none
        | some (some r) =>
          let p := printCommandLine env r.1
          some (p.1, r.2 ++ p.2)
        | some none =>
          let p := printCommandLine env
            { c with commandBuffer := cxa_array_clear c.commandBuffer }
          some (p.1, printError env "Unknown command" ++ p.2)
    -- handle backspaces / deletes
    else if rxByte = 8 ∨ rxByte = 127 then
      let numItemsInCb := cxa_array_getSize_elems c.commandBuffer
      if numItemsInCb > 0 then
        some ({ c with commandBuffer :=
                  (cxa_array_remove_atIndex c.commandBuffer (numItemsInCb - 1)).2 },
          [.ioStream_writeByte rxByte])
      else some (c, [])
    else
      -- if we made it here, we're still in the middle of a command
      let r := cxa_array_append c.commandBuffer rxByte
      if !r.1 then
        -- commandBuffer is full
        let p := printCommandLine env { c with commandBuffer := cxa_array_clear r.2 }
        some (p.1, printError env "Command too long for buffer" ++ p.2)
      else some ({ c with commandBuffer := r.2 }, [.ioStream_writeByte rxByte])

/-- Consecutive runs of `cb_onRunLoopUpdate`, one for each byte of `bytes` that the stream
delivers: the console afterwards and all calls made, in order. -/
def receiveBytes (env : ConsoleEnv) (c : Console) :
    List Nat → Option (Console × List ConsoleEvent)
  | [] => some (c, [])
  | b :: rest =>
    match cb_onRunLoopUpdate env c (some b) with
    | none => none
    | some r1 =>
      match receiveBytes env r1.1 rest with
      | none => none
      | some r2 => some (r2.1, r1.2 ++ r2.2)

/-- The command callbacks invoked in a trace, in order: callback, user variable, `argc` and
`argv`. -/
def commandCalls (trace : List ConsoleEvent) :
    List (Nat × Option Nat × Int × Option (List (List Nat))) :=
  trace.filterMap fun e =>
    match e with
    | .command_cb cb userVar argc argv => some (cb, userVar, argc, argv)
    | _ => none

/-- The words of a line: its bytes split at each space (byte 32). -/
def lineWords (line : List Nat) : List (List Nat) := line.splitOn 32

/-- A build of the console with room for two application commands and commands of up to
16 bytes, string utilities that answer the way their names say
(`cxa_stringUtils_startsWith` compares with the C string at `str`,
`cxa_stringUtils_indexOf_withLengths` answers the first index below `strLen` at which the
target occurs and -1 when there is none), and a local `arg_buf` that holds the byte 255
everywhere before it is written. -/
def sampleConsoleEnv : ConsoleEnv :=
  { CXA_CONSOLE_MAX_COMMAND_LEN_BYTES := 16
    CXA_CONSOLE_MAXNUM_COMMANDS := 2
    CXA_LINE_ENDING := "\r\n"
    startsWith := fun str start => start.isPrefixOf (str.takeWhile (· ≠ 0))
    indexOf_withLengths := fun str strLen target targetLen =>
      match (List.range strLen.toNat).find? fun i =>
          decide (i + targetLen ≤ strLen.toNat) &&
            (target.take targetLen).isPrefixOf (str.drop i) with
      | some i => i
      | none => -1
    arg_buf_before := fun _ => 255 }

/-- The static variables after the calls that `cxa_console_init` makes on them
(`cxa_array_initStd` on both arrays, whose storage is zero-initialised, then
`cxa_console_addCommand` for "clear" and for "help"), with `command_clear` at address 1 and
`command_help` at address 2. -/
def sampleConsole : Option Console :=
  (cxa_console_addCommand sampleConsoleEnv
    { commandBuffer := cxa_array_initStd (some (List.replicate COMMAND_BUFFER_LEN_BYTES 0))
      commandEntries := cxa_array_initStd (some (List.replicate
        (sampleConsoleEnv.CXA_CONSOLE_MAXNUM_COMMANDS + 2) ⟨[], none, none⟩))
      isExecutingCommand := false }
    (some [99, 108, 101, 97, 114]) (some 1) none).bind fun c =>
  cxa_console_addCommand sampleConsoleEnv c (some [104, 101, 108, 112]) (some 2) none

/-! ## Reading traces -/

/-- The messages handed to `cxa_rpc_protocolParser_writeMessage`, in order. -/
def writtenMessages (trace : List NrEvent) : List cxa_rpc_message_t :=
  trace.filterMap fun e => match e with
    | .writeMessage msg _ => some msg
    | _ => none

/-- The link-established listener calls of a trace, in order. -/
def listenerCalls (trace : List NrEvent) : List NrEvent :=
  trace.filter fun e => match e with
    | .cb_linkEstablished _ _ => true
    | _ => false

/-- The handler calls (parent's upstream handler, subnode's downstream handler) of a trace. -/
def handlerCalls (trace : List NrEvent) : List NrEvent :=
  trace.filter fun e => match e with
    | .cb_upstream _ _ _ => true
    | .cb_downstream _ _ _ => true
    | _ => false

/-- The number of times a trace asks the message factory for a free message: the attempts to
build a link-management message. -/
def requestAttempts (trace : List NrEvent) : Nat :=
  trace.countP fun e => match e with
    | .getFreeMessage_empty _ => true
    | _ => false

/-- The packets handed to `cxa_protocolParser_writePacket`, in order. -/
def writtenPackets (trace : List BridgeEvent) : List MqttPacket :=
  trace.filterMap fun e => match e with
    | .writePacket packet _ => some packet
    | _ => none

/-- The calls of the authentication callback in a trace, in order. -/
def authCalls (trace : List BridgeEvent) : List AuthArgs :=
  trace.filterMap fun e => match e with
    | .cb_auth args => some args
    | _ => none

/-- The number of pool messages acquired in a trace. -/
def acquiredMessages (trace : List BridgeEvent) : Nat :=
  trace.countP fun e => match e with
    | .getFreeMessage_empty true => true
    | _ => false

/-- The number of pool messages released in a trace. -/
def releasedMessages (trace : List BridgeEvent) : Nat :=
  trace.countP fun e => match e with
    | .decrementMessageRefCount => true
    | _ => false

/-- The arguments the bridge `nodeIn` passes to its authentication callback for the client id,
username and password read from a CONNECT frame. -/
def authArgsOf (nodeIn : cxa_mqtt_rpc_node_bridge_t) (clientId : List Nat)
    (username password : Option (List Nat)) : AuthArgs :=
  { clientId := clientId, clientIdLen_bytes := clientId.length,
    username := username, usernameLen_bytes := lenOrZero username,
    password := password, passwordLen_bytes := lenOrZero password,
    userVar := nodeIn.userVar_auth }

/-! ## Sequences of received messages and the handshake, as the spec words them -/

/-- The link's parser delivers the messages of `steps` one after the other to
`messageReceived_cb`, each under its own environment; the traces are concatenated. -/
def receiveAll (nodes : NodeMem) (nrIn : cxa_rpc_nodeRemote_t) :
    List (NrEnv × cxa_rpc_message_t) → Option (cxa_rpc_nodeRemote_t × List NrEvent)
  | [] => some (nrIn, [])
  | step :: rest =>
    match messageReceived_cb step.1 nodes nrIn step.2 with
    | none => none
    | some r1 =>
      match receiveAll nodes r1.1 rest with
      | none => none
      | some r2 => some (r2.1, r1.2 ++ r2.2)

/-- The name a message carries: its first parameter, when it can be read. -/
def carriedName (msgIn : cxa_rpc_message_t) : Option String :=
  match msgIn.params with
  | none => none
  | some field => field[0]?

/-- A link-management response as the spec words it: destination "_linkMan", type response,
provisioning id 1234 and a readable name parameter. -/
def isProvisionResponse (msgIn : cxa_rpc_message_t) : Prop :=
  msgIn.destination = some LINK_MANAGEMENT_DEST ∧ msgIn.type = .RESPONSE ∧
    msgIn.id = LINK_MANAGEMENT_ID_PROVISON ∧ (carriedName msgIn).isSome = true

instance (msgIn : cxa_rpc_message_t) : Decidable (isProvisionResponse msgIn) := by
  unfold isProvisionResponse; infer_instance

/-- A provisioning response that names the node `rootName` and carries a non-zero return
value. -/
def isAcceptedResponseFor (rootName : String) (msgIn : cxa_rpc_message_t) : Prop :=
  isProvisionResponse msgIn ∧ carriedName msgIn = some rootName ∧ msgIn.returnValue ≠ 0

instance (rootName : String) (msgIn : cxa_rpc_message_t) :
    Decidable (isAcceptedResponseFor rootName msgIn) := by
  unfold isAcceptedResponseFor; infer_instance

/-- An environment in which a free message is available and every message constructor and
every write succeeds. -/
def allSucceed (env : NrEnv) : Prop :=
  env.freeMessage = true ∧ env.initRequestOk = true ∧ env.initResponseOk = true ∧
    env.setIdOk = true ∧ env.prependOk = true ∧ env.getParamsOk = true ∧ env.appendOk = true ∧
    ∀ msg, env.writeMessage msg = true

/-- The provisioning request for the node name `nameIn`, as lines 150-154 of
`cxa_rpc_nodeRemote_update` fill it in. -/
def provisionRequest (nameIn : String) : cxa_rpc_message_t :=
  { type := .REQUEST, destination := some LINK_MANAGEMENT_DEST,
    method := some LINK_MANAGEMENT_METHOD_PROVISON, source := [LINK_MANAGEMENT_DEST],
    id := LINK_MANAGEMENT_ID_PROVISON, returnValue := 0, params := some [nameIn] }

/-- The provisioning response to a request with id `idIn` for the node name `nameIn`, as lines
299-302 of `handleLinkManagement_upstream` fill it in. -/
def provisionResponse (idIn retValIn : Nat) (nameIn : String) : cxa_rpc_message_t :=
  { type := .RESPONSE, destination := some LINK_MANAGEMENT_DEST, method := none,
    source := [LINK_MANAGEMENT_DEST], id := idIn, returnValue := retValIn,
    params := some [nameIn] }

/-- One call into an initialised link: its public functions, its two message handlers, and
the delivery of a received message by its protocol parser. -/
inductive LinkCall
  | update (env : NrEnv)
  | handleMessage_upstream (env : NrEnv) (msgIn : Option cxa_rpc_message_t)
  | handleMessage_downstream (env : NrEnv) (msgIn : Option cxa_rpc_message_t)
  | addLinkListener (cb userVar : Nat)
  | messageReceived (env : NrEnv) (msgIn : cxa_rpc_message_t)

/-- The link after one call; `none` when the call dereferences `NULL`. -/
def linkCall (nodes : NodeMem) (nrIn : cxa_rpc_nodeRemote_t) :
    LinkCall → Option cxa_rpc_nodeRemote_t
  | .update env => some (cxa_rpc_nodeRemote_update env nodes nrIn).1
  | .handleMessage_upstream env msgIn => some (handleMessage_upstream env nrIn msgIn).1
  | .handleMessage_downstream env msgIn => some (handleMessage_downstream env nrIn msgIn).2.1
  | .addLinkListener cb userVar => some (cxa_rpc_nodeRemote_addLinkListener nrIn cb userVar).2
  | .messageReceived env msgIn => (messageReceived_cb env nodes nrIn msgIn).map (·.1)

/-- The link after a sequence of calls. -/
def linkCalls (nodes : NodeMem) (nrIn : cxa_rpc_nodeRemote_t) :
    List LinkCall → Option cxa_rpc_nodeRemote_t
  | [] => some nrIn
  | call :: rest =>
    match linkCall nodes nrIn call with
    | none => none
    | some nr1 => linkCalls nodes nr1 rest

/-- The call delivers a link-management response (destination "_linkMan", type response,
id 1234, readable name) that names `rootName`. -/
def deliversResponseNaming (rootName : String) : LinkCall → Prop
  | .messageReceived _ msgIn => isProvisionResponse msgIn ∧ carriedName msgIn = some rootName
  | _ => False

/-- The number of times a trace polls the protocol parser (`cxa_rpc_protocolParser_update`). -/
def parserPolls (trace : List NrEvent) : Nat :=
  trace.countP fun e => match e with
    | .protocolParser_update => true
    | _ => false

/-- A provisioning request is due in a call of `update`: the link is a downstream link, is not
provisioned, and the recurring 5000 ms timer reports elapsed. -/
def provisioningDue (env : NrEnv) (nrIn : cxa_rpc_nodeRemote_t) : Prop :=
  isUpstream nrIn = false ∧ nrIn.isProvisioned = false ∧
    (env.isElapsed_recurring_ms nrIn.td_provision PROVISION_TIMEOUT_MS).1 = true

instance (env : NrEnv) (nrIn : cxa_rpc_nodeRemote_t) : Decidable (provisioningDue env nrIn) := by
  unfold provisioningDue; infer_instance

/-- The provisioning request that is due can be built and written: a free message is
available, the constructors succeed for the name of the owned subnode, and the write
succeeds. -/
def requestGoesOut (env : NrEnv) (nodes : NodeMem) (nrIn : cxa_rpc_nodeRemote_t) : Bool :=
  env.freeMessage &&
    match nrIn.downstreamSubNode with
    | none => false
    | some subNode =>
      match buildProvisionRequest env (cxa_rpc_node_getName nodes subNode) with
      | none => false
      | some req => env.writeMessage req

/-- The response an upstream link writes for a received link-management message, as the spec
words it: the message is a request with method "_getName" whose first parameter is a non-empty
name, and the response can be built and written; `none` in every other case. -/
def answeredRequest (env : NrEnv) (msgIn : cxa_rpc_message_t) : Option cxa_rpc_message_t :=
  if msgIn.type = .REQUEST ∧ msgIn.method = some LINK_MANAGEMENT_METHOD_PROVISON then
    match carriedName msgIn with
    | none => none
    | some name =>
      if name.length = 0 ∨ env.freeMessage = false then none
      else
        match buildProvisionResponse env msgIn name with
        | none => none
        | some respMsg => if env.writeMessage respMsg = true then some respMsg else none
  else none

/-! ## Sample objects -/

/-- A node named "leafA" without parent, and not the global root, at every address. -/
def sampleNodes : NodeMem := fun _ =>
  { super := { cb_upstream := some 11, cb_downstream := some 12, parent := none },
    name := "leafA", isGlobalRoot := false, isLocalRoot := false }

/-- An environment in which the pool has a free message and every constructor and write
succeeds; the provisioning timer always reports elapsed. -/
def sampleEnv : NrEnv :=
  { CXA_RPC_METHOD_RETVAL_SUCCESS := 1
    timeDiff_init := fun _ => 0
    isElapsed_recurring_ms := fun td _ => (true, td + 1)
    freeMessage := true, initRequestOk := true, initResponseOk := true, setIdOk := true
    prependOk := true, getParamsOk := true, appendOk := true
    writeMessage := fun _ => true }

/-- Uninitialised storage of a link with room for two listeners. -/
def sampleRawLink : cxa_rpc_nodeRemote_t :=
  { super := { cb_upstream := none, cb_downstream := none, parent := none }
    downstreamSubNode := none, isProvisioned := false, td_provision := 0
    linkListeners_raw := [⟨none, 0⟩, ⟨none, 0⟩]
    linkListeners := { bufferLoc := none, insertIndex := 0, maxNumElements := 0 }
    protocolParser := { protoVersion := 0, ioStream := 0, messageListeners := [] } }

/-- A downstream link at address 100 owning the node at address 5, with one registered
listener (callback 7, user variable 9). -/
def sampleDownstreamLink : cxa_rpc_nodeRemote_t :=
  (cxa_rpc_nodeRemote_addLinkListener
    (cxa_rpc_nodeRemote_init_downstream sampleEnv sampleNodes 100 sampleRawLink 1 2 5).2.1
    7 9).2

/-- An upstream link at address 200. -/
def sampleUpstreamLink : cxa_rpc_nodeRemote_t :=
  cxa_rpc_nodeRemote_init_upstream 200 sampleRawLink 1

/-- A provisioning response naming `name` with return value `retVal`. -/
def sampleResponse (name : String) (retVal : Nat) : cxa_rpc_message_t :=
  { type := .RESPONSE, destination := some "_linkMan", method := none, source := ["_linkMan"],
    id := 1234, returnValue := retVal, params := some [name] }

/-- A bridge environment with a maximum client id length of 4 bytes in which the pool has a
free message and initialisation and writes succeed. -/
def sampleBridgeEnv : BridgeEnv :=
  { CXA_MQTT_RPC_NODE_BRIDGE_CLIENTID_MAXLEN_BYTES := 4
    freeMessage := true, connack_initOk := true, pingResponse_initOk := true
    writePacket := fun _ => true }

/-- The same environment with an exhausted message pool. -/
def sampleBridgeEnvExhausted : BridgeEnv :=
  { sampleBridgeEnv with freeMessage := false }

/-- A bridge whose authentication callback accepts exactly the user name `[1]`. -/
def sampleBridge : cxa_mqtt_rpc_node_bridge_t :=
  { isSingle := true
    cb_auth := some fun args => if args.username = some [1] then some "node" else none
    userVar_auth := 3 }

/-- A CONNECT frame with the given client id, user name `[1]` and no password. -/
def sampleConnect (clientId : List Nat) : cxa_mqtt_message_t :=
  { type := .CONNECT, connect_clientId := some clientId, connect_hasUsername := some true,
    connect_username := some [1], connect_hasPassword := some false, connect_password := none }

/-- A frame of the given type without CONNECT fields. -/
def sampleFrame (type : cxa_mqtt_message_type_t) : cxa_mqtt_message_t :=
  { type := type, connect_clientId := none, connect_hasUsername := none,
    connect_username := none, connect_hasPassword := none, connect_password := none }

/-- A CONNECT frame with a 2-byte client id whose flags announce neither username nor
password. -/
def sampleConnectAnonymous : cxa_mqtt_message_t :=
  { type := .CONNECT, connect_clientId := some [1, 2], connect_hasUsername := some false,
    connect_username := none, connect_hasPassword := some false, connect_password := none }

/-- A CONNECT frame whose flags announce a username that cannot be read. -/
def sampleConnectMalformed : cxa_mqtt_message_t :=
  { type := .CONNECT, connect_clientId := some [1, 2], connect_hasUsername := some true,
    connect_username := none, connect_hasPassword := some false, connect_password := none }

/-- A node named "root" that is the global root, at every address. -/
def sampleGlobalRoot : NodeMem := fun _ =>
  { super := { cb_upstream := some 11, cb_downstream := some 12, parent := none },
    name := "root", isGlobalRoot := true, isLocalRoot := false }

/-- A provisioning request for the name "leafA" with the given type. -/
def sampleRequest (type : cxa_rpc_message_type_t) : cxa_rpc_message_t :=
  { type := type, destination := some "_linkMan", method := some "_getName",
    source := ["_linkMan"], id := 1234, returnValue := 0, params := some ["leafA"] }

/-- An environment in which everything succeeds but the write. -/
def sampleEnvWriteFails : NrEnv :=
  { sampleEnv with writeMessage := fun _ => false }

/-- The factory of `sampleFactoryStorage` after its initialisation and the calls
reserveTcpClient, reserveTcpServer, reserveTcpClient, freeTcpClient of the first client, where
initialising a client or a server leaves its contents as they are: the second client is held. -/
def sampleFactoryInUse : NetworkFactory :=
  { isInit := true
    clients := { bufferLoc := some [⟨false, 41⟩, ⟨true, 42⟩], insertIndex := 2,
                 maxNumElements := 2 }
    clients_raw := [⟨true, 41⟩, ⟨false, 42⟩]
    servers := { bufferLoc := some [⟨true, 51⟩, ⟨false, 52⟩], insertIndex := 2,
                 maxNumElements := 2 }
    servers_raw := [⟨true, 51⟩, ⟨true, 52⟩] }

/-! # Theorems -/

/-! ## Helper lemmas on the link -/

theorem notifyLinkListeners_congr (nr1 nr2 : cxa_rpc_nodeRemote_t)
    (h : nr1.linkListeners = nr2.linkListeners) :
    notifyLinkListeners nr1 = notifyLinkListeners nr2 := by
  unfold notifyLinkListeners
  rw [h]

theorem listenerCalls_notifyLinkListeners (nrIn : cxa_rpc_nodeRemote_t) :
    listenerCalls (notifyLinkListeners nrIn) = notifyLinkListeners nrIn := by
  unfold listenerCalls notifyLinkListeners
  rw [List.filter_eq_self]
  intro e he
  rw [List.mem_filterMap] at he
  obtain ⟨l, _, hl⟩ := he
  cases hcb : l.cb_linkEstablished with
  | none => simp [hcb] at hl
  | some cb =>
    simp [hcb] at hl
    subst hl
    rfl

theorem handlerCalls_notifyLinkListeners (nrIn : cxa_rpc_nodeRemote_t) :
    handlerCalls (notifyLinkListeners nrIn) = [] := by
  unfold handlerCalls notifyLinkListeners
  rw [List.filter_eq_nil_iff]
  intro e he
  rw [List.mem_filterMap] at he
  obtain ⟨l, _, hl⟩ := he
  cases hcb : l.cb_linkEstablished with
  | none => simp [hcb] at hl
  | some cb =>
    simp [hcb] at hl
    subst hl
    simp

/-- What `handleLinkManagement_downstream` does on a link that owns the node `subNode`. -/
theorem handleLinkManagement_downstream_eq (nodes : NodeMem) (nrIn : cxa_rpc_nodeRemote_t)
    (subNode : Nat) (msgIn : cxa_rpc_message_t) (hds : nrIn.downstreamSubNode = some subNode) :
    handleLinkManagement_downstream nodes nrIn msgIn =
      some (if msgIn.type = .RESPONSE ∧ msgIn.id = LINK_MANAGEMENT_ID_PROVISON ∧
                carriedName msgIn = some (nodes subNode).name then
              if msgIn.returnValue = 0 then ({ nrIn with isProvisioned := false }, [])
              else ({ nrIn with isProvisioned := true }, notifyLinkListeners nrIn)
            else (nrIn, [])) := by
  unfold handleLinkManagement_downstream carriedName cxa_rpc_message_getType
    cxa_rpc_message_getId cxa_rpc_message_getParams cxa_rpc_message_getReturnValue
    cxa_linkedField_get_cstring_inPlace cxa_stringUtils_equals cxa_rpc_node_getName
  rw [hds]
  by_cases h1 : msgIn.type = .RESPONSE ∧ msgIn.id = LINK_MANAGEMENT_ID_PROVISON
  · obtain ⟨ht, hi⟩ := h1
    cases hp : msgIn.params with
    | none => simp [ht, hi]
    | some field =>
      cases hn : field[0]? with
      | none => simp [ht, hi, hn]
      | some respName =>
        by_cases hname : respName = (nodes subNode).name
        · by_cases hr : msgIn.returnValue = 0
          · simp [ht, hi, hn, hname, hr]
          · simp only [ht, hi, hn, hname, hr, and_self, if_true, decide_True, Bool.not_true,
              Bool.false_eq_true, if_false]
            exact congrArg some (Prod.ext rfl (notifyLinkListeners_congr _ _ rfl))
        · simp [ht, hi, hn, hname]
  · have h2 : ¬ (msgIn.type = .RESPONSE ∧ msgIn.id = LINK_MANAGEMENT_ID_PROVISON ∧
        carriedName msgIn = some (nodes subNode).name) := fun h => h1 ⟨h.1, h.2.1⟩
    unfold carriedName at h2
    rw [if_neg h1, if_neg h2]

theorem listenerCalls_append (t1 t2 : List NrEvent) :
    listenerCalls (t1 ++ t2) = listenerCalls t1 ++ listenerCalls t2 := by
  unfold listenerCalls
  exact List.filter_append _ _

theorem listenerCalls_handleDownstream (nodes : NodeMem) (handlerIn : Nat)
    (msgIn : cxa_rpc_message_t) :
    listenerCalls (cxa_rpc_messageHandler_handleDownstream nodes handlerIn msgIn) = [] := by
  unfold cxa_rpc_messageHandler_handleDownstream listenerCalls
  cases (nodes handlerIn).super.cb_downstream <;> simp

/-- On a downstream link `messageReceived_cb` hands a message for "_linkMan" to
`handleLinkManagement_downstream` and every other message to the subnode. -/
theorem messageReceived_cb_downstream_eq (env : NrEnv) (nodes : NodeMem)
    (nrIn : cxa_rpc_nodeRemote_t) (subNode : Nat) (msgIn : cxa_rpc_message_t)
    (hds : nrIn.downstreamSubNode = some subNode) :
    messageReceived_cb env nodes nrIn msgIn =
      if msgIn.destination = some LINK_MANAGEMENT_DEST then
        handleLinkManagement_downstream nodes nrIn msgIn
      else some (nrIn, cxa_rpc_messageHandler_handleDownstream nodes subNode msgIn) := by
  unfold messageReceived_cb isUpstream cxa_rpc_message_getDestination cxa_stringUtils_equals
  rw [hds]
  cases hd : msgIn.destination with
  | none => simp
  | some dest =>
    by_cases h : dest = LINK_MANAGEMENT_DEST
    · simp [h]
    · simp [h]

/-- One received message on a downstream link: the call succeeds, the link stays a downstream
link over the same node with the same listeners, and the listeners are called exactly when the
message is an accepted provisioning response naming the local root. -/
theorem messageReceived_cb_downstream_step (env : NrEnv) (nodes : NodeMem)
    (nrIn : cxa_rpc_nodeRemote_t) (subNode : Nat) (msgIn : cxa_rpc_message_t)
    (hds : nrIn.downstreamSubNode = some subNode) :
    ∃ nr trace, messageReceived_cb env nodes nrIn msgIn = some (nr, trace) ∧
      nr.downstreamSubNode = some subNode ∧ nr.linkListeners = nrIn.linkListeners ∧
      listenerCalls trace =
        if isAcceptedResponseFor (nodes subNode).name msgIn then notifyLinkListeners nrIn
        else [] := by
  rw [messageReceived_cb_downstream_eq env nodes nrIn subNode msgIn hds]
  by_cases hdest : msgIn.destination = some LINK_MANAGEMENT_DEST
  · rw [if_pos hdest, handleLinkManagement_downstream_eq nodes nrIn subNode msgIn hds]
    by_cases hm : msgIn.type = .RESPONSE ∧ msgIn.id = LINK_MANAGEMENT_ID_PROVISON ∧
        carriedName msgIn = some (nodes subNode).name
    · rw [if_pos hm]
      by_cases hr : msgIn.returnValue = 0
      · rw [if_pos hr]
        refine ⟨_, _, rfl, hds, rfl, ?_⟩
        have : ¬ isAcceptedResponseFor (nodes subNode).name msgIn := fun h => h.2.2 hr
        rw [if_neg this]
        rfl
      · rw [if_neg hr]
        refine ⟨_, _, rfl, hds, rfl, ?_⟩
        have : isAcceptedResponseFor (nodes subNode).name msgIn :=
          ⟨⟨hdest, hm.1, hm.2.1, by rw [hm.2.2]; rfl⟩, hm.2.2, hr⟩
        rw [if_pos this]
        exact listenerCalls_notifyLinkListeners nrIn
    · rw [if_neg hm]
      refine ⟨_, _, rfl, hds, rfl, ?_⟩
      have : ¬ isAcceptedResponseFor (nodes subNode).name msgIn :=
        fun h => hm ⟨h.1.2.1, h.1.2.2.1, h.2.1⟩
      rw [if_neg this]
      rfl
  · rw [if_neg hdest]
    refine ⟨_, _, rfl, hds, rfl, ?_⟩
    have : ¬ isAcceptedResponseFor (nodes subNode).name msgIn := fun h => hdest h.1.1
    rw [if_neg this]
    exact listenerCalls_handleDownstream nodes subNode msgIn

/-! ## C1 -/

/-- C1, as the code has it: on a downstream link, over any sequence of received messages, the
registered listeners are called once, in registration order, for every accepted provisioning
response naming the local root (destination "_linkMan", type response, id 1234, non-zero
return value), whether or not the link was provisioned before, and for no other message. -/
theorem listeners_called_once_per_accepted_response (nodes : NodeMem) (subNode : Nat)
    (steps : List (NrEnv × cxa_rpc_message_t)) (nrIn : cxa_rpc_nodeRemote_t)
    (hds : nrIn.downstreamSubNode = some subNode) :
    ∃ nr trace, receiveAll nodes nrIn steps = some (nr, trace) ∧
      listenerCalls trace =
        (steps.map fun step =>
          if isAcceptedResponseFor (nodes subNode).name step.2 then notifyLinkListeners nrIn
          else []).flatten := by
  induction steps generalizing nrIn with
  | nil => exact ⟨nrIn, [], rfl, rfl⟩
  | cons step rest ih =>
    obtain ⟨nr1, t1, h1, hds1, hl1, hc1⟩ :=
      messageReceived_cb_downstream_step step.1 nodes nrIn subNode step.2 hds
    obtain ⟨nr2, t2, h2, hc2⟩ := ih nr1 hds1
    refine ⟨nr2, t1 ++ t2, ?_, ?_⟩
    · simp only [receiveAll, h1, h2]
    · rw [listenerCalls_append, hc1, hc2, notifyLinkListeners_congr nr1 nrIn hl1]
      simp only [List.map_cons, List.flatten_cons]

theorem listeners_called_once_per_accepted_response_witness :
    sampleDownstreamLink.downstreamSubNode = some 5 ∧ ∃ nr trace,
      receiveAll sampleNodes sampleDownstreamLink
          [(sampleEnv, sampleResponse "leafB" 1), (sampleEnv, sampleResponse "leafA" 1)]
        = some (nr, trace) ∧
      listenerCalls trace =
        ([(sampleEnv, sampleResponse "leafB" 1), (sampleEnv, sampleResponse "leafA" 1)].map
          fun step =>
            if isAcceptedResponseFor (sampleNodes 5).name step.2 then
              notifyLinkListeners sampleDownstreamLink
            else []).flatten :=
  ⟨rfl, listeners_called_once_per_accepted_response sampleNodes 5 _ sampleDownstreamLink rfl⟩

/-- C1 fails as stated: a second response naming the local root "leafA" (provisioning id,
non-zero return value), received while the link is already provisioned, calls the registered
listener again. -/
theorem second_matching_response_refires_listener :
    ∃ nr1 t1 nr2 t2,
      messageReceived_cb sampleEnv sampleNodes sampleDownstreamLink (sampleResponse "leafA" 1)
        = some (nr1, t1) ∧
      listenerCalls t1 = [NrEvent.cb_linkEstablished 7 9] ∧
      nr1.isProvisioned = true ∧
      messageReceived_cb sampleEnv sampleNodes nr1 (sampleResponse "leafA" 1) = some (nr2, t2) ∧
      nr2.isProvisioned = true ∧
      listenerCalls t2 = [NrEvent.cb_linkEstablished 7 9] :=
  ⟨_, _, _, _, rfl, rfl, rfl, rfl, rfl, rfl⟩

/-! ## C2 -/

/-- C2, as the code has it: on a downstream link, after a link-management response (destination
"_linkMan", type response, id 1234, readable name) naming the local root has been handled, the
link is provisioned exactly when the response carries a non-zero return value; with return
value zero the request counts as denied and `isProvisioned` is false. -/
theorem matching_response_provisions_iff_accepted (env : NrEnv) (nodes : NodeMem)
    (nrIn : cxa_rpc_nodeRemote_t) (subNode : Nat) (msgIn : cxa_rpc_message_t)
    (hds : nrIn.downstreamSubNode = some subNode)
    (hresp : isProvisionResponse msgIn)
    (hname : carriedName msgIn = some (nodes subNode).name) :
    ∃ nr trace, messageReceived_cb env nodes nrIn msgIn = some (nr, trace) ∧
      (nr.isProvisioned = true ↔ msgIn.returnValue ≠ 0) := by
  rw [messageReceived_cb_downstream_eq env nodes nrIn subNode msgIn hds, if_pos hresp.1,
    handleLinkManagement_downstream_eq nodes nrIn subNode msgIn hds,
    if_pos ⟨hresp.2.1, hresp.2.2.1, hname⟩]
  by_cases hr : msgIn.returnValue = 0
  · rw [if_pos hr]
    exact ⟨_, _, rfl, by simp [hr]⟩
  · rw [if_neg hr]
    exact ⟨_, _, rfl, by simp [hr]⟩

theorem matching_response_provisions_iff_accepted_witness :
    (sampleDownstreamLink.downstreamSubNode = some 5 ∧
      isProvisionResponse (sampleResponse "leafA" 3) ∧
      carriedName (sampleResponse "leafA" 3) = some (sampleNodes 5).name) ∧
    ∃ nr trace,
      messageReceived_cb sampleEnv sampleNodes sampleDownstreamLink (sampleResponse "leafA" 3)
        = some (nr, trace) ∧
      (nr.isProvisioned = true ↔ (sampleResponse "leafA" 3).returnValue ≠ 0) :=
  ⟨⟨rfl, by decide, rfl⟩,
    matching_response_provisions_iff_accepted sampleEnv sampleNodes sampleDownstreamLink 5
      (sampleResponse "leafA" 3) rfl (by decide) rfl⟩

/-- C2 fails as stated: a link-management response naming the local root "leafA" with return
value 0 leaves the link unprovisioned. -/
theorem matching_response_with_zero_retval_not_provisioned :
    isProvisionResponse (sampleResponse "leafA" 0) ∧
    carriedName (sampleResponse "leafA" 0) = some (cxa_rpc_node_getName sampleNodes 5) ∧
    sampleDownstreamLink.downstreamSubNode = some 5 ∧
    (messageReceived_cb sampleEnv sampleNodes sampleDownstreamLink
        (sampleResponse "leafA" 0)).map (fun r => r.1.isProvisioned) = some false := by
  decide

/-! ## C3 -/

/-- C3: on a downstream link, a received link-management message (a response, or of any other
type) whose carried name differs from the local root's name is ignored: the link
(`isProvisioned` included) is what it was, and the call makes no listener call, no write and
no call into the subnode (the trace is empty). -/
theorem mismatching_response_ignored (env : NrEnv) (nodes : NodeMem)
    (nrIn : cxa_rpc_nodeRemote_t) (subNode : Nat) (msgIn : cxa_rpc_message_t) (name : String)
    (hds : nrIn.downstreamSubNode = some subNode)
    (hdest : msgIn.destination = some LINK_MANAGEMENT_DEST)
    (hcarried : carriedName msgIn = some name)
    (hname : name ≠ cxa_rpc_node_getName nodes subNode) :
    messageReceived_cb env nodes nrIn msgIn = some (nrIn, []) := by
  rw [messageReceived_cb_downstream_eq env nodes nrIn subNode msgIn hds, if_pos hdest,
    handleLinkManagement_downstream_eq nodes nrIn subNode msgIn hds, if_neg]
  rintro ⟨_, _, h⟩
  rw [hcarried] at h
  exact hname (Option.some.inj h)

theorem mismatching_response_ignored_witness :
    (sampleDownstreamLink.downstreamSubNode = some 5 ∧
      (sampleResponse "leafB" 1).destination = some LINK_MANAGEMENT_DEST ∧
      carriedName (sampleResponse "leafB" 1) = some "leafB" ∧
      "leafB" ≠ cxa_rpc_node_getName sampleNodes 5) ∧
    messageReceived_cb sampleEnv sampleNodes sampleDownstreamLink (sampleResponse "leafB" 1)
      = some (sampleDownstreamLink, []) :=
  ⟨⟨rfl, rfl, rfl, by decide⟩,
    mismatching_response_ignored sampleEnv sampleNodes sampleDownstreamLink 5
      (sampleResponse "leafB" 1) "leafB" rfl rfl rfl (by decide)⟩

/-- When the provisioning request is due and can be built, `update` hands exactly that request
to the parser's write. -/
theorem update_writes_built_request (env : NrEnv) (nodes : NodeMem)
    (nrIn : cxa_rpc_nodeRemote_t) (subNode : Nat) (req : cxa_rpc_message_t)
    (hds : nrIn.downstreamSubNode = some subNode) (hunprov : nrIn.isProvisioned = false)
    (htimer : (env.isElapsed_recurring_ms nrIn.td_provision PROVISION_TIMEOUT_MS).1 = true)
    (hfree : env.freeMessage = true)
    (hbuild : buildProvisionRequest env (cxa_rpc_node_getName nodes subNode) = some req) :
    writtenMessages (cxa_rpc_nodeRemote_update env nodes nrIn).2 = [req] := by
  unfold cxa_rpc_nodeRemote_update isUpstream
  cases hw : env.writeMessage req <;>
    simp [writtenMessages, hds, hunprov, htimer, hfree, hbuild, hw]

/-! ## C4 -/

/-- C4: `cxa_rpc_nodeRemote_update` attempts a provisioning request (once) if and only if the
link is a downstream link, is not provisioned and the recurring 5000 ms timer reports elapsed,
and it never attempts more than one; when the request can be built, exactly that one request
is written in the call; a provisioned link and an upstream link attempt and write nothing,
whatever the timer says. -/
theorem update_attempts_request_iff_due (env : NrEnv) (nodes : NodeMem)
    (nrIn : cxa_rpc_nodeRemote_t) :
    (requestAttempts (cxa_rpc_nodeRemote_update env nodes nrIn).2 = 1 ↔
      (isUpstream nrIn = false ∧ nrIn.isProvisioned = false ∧
        (env.isElapsed_recurring_ms nrIn.td_provision PROVISION_TIMEOUT_MS).1 = true)) ∧
    requestAttempts (cxa_rpc_nodeRemote_update env nodes nrIn).2 ≤ 1 ∧
    (∀ subNode req, nrIn.downstreamSubNode = some subNode → nrIn.isProvisioned = false →
      (env.isElapsed_recurring_ms nrIn.td_provision PROVISION_TIMEOUT_MS).1 = true →
      env.freeMessage = true →
      buildProvisionRequest env (cxa_rpc_node_getName nodes subNode) = some req →
      writtenMessages (cxa_rpc_nodeRemote_update env nodes nrIn).2 = [req]) ∧
    ((isUpstream nrIn = true ∨ nrIn.isProvisioned = true) →
      requestAttempts (cxa_rpc_nodeRemote_update env nodes nrIn).2 = 0 ∧
      writtenMessages (cxa_rpc_nodeRemote_update env nodes nrIn).2 = []) := by
  unfold cxa_rpc_nodeRemote_update isUpstream
  cases hsub : nrIn.downstreamSubNode with
  | none => simp [requestAttempts, writtenMessages]
  | some subNode =>
    cases hprov : nrIn.isProvisioned with
    | true => simp [requestAttempts, writtenMessages]
    | false =>
      cases htimer : (env.isElapsed_recurring_ms nrIn.td_provision PROVISION_TIMEOUT_MS).1 with
      | false => simp [requestAttempts, writtenMessages, htimer]
      | true =>
        cases hfree : env.freeMessage with
        | false => simp [requestAttempts, writtenMessages, htimer, hfree]
        | true =>
          cases hbuild : buildProvisionRequest env (cxa_rpc_node_getName nodes subNode) with
          | none =>
            simp [requestAttempts, writtenMessages, htimer, hfree, hbuild]
            intro s r hs hb
            subst hs
            rw [hbuild] at hb
            exact Option.noConfusion hb
          | some req =>
            cases hw : env.writeMessage req <;>
              simp [requestAttempts, writtenMessages, htimer, hfree, hbuild, hw] <;>
              intro s r hs hb <;> subst hs <;> rw [hbuild] at hb <;> exact Option.some.inj hb

theorem update_attempts_request_iff_due_witness :
    requestAttempts (cxa_rpc_nodeRemote_update sampleEnv sampleNodes sampleDownstreamLink).2 = 1 ∧
    writtenMessages (cxa_rpc_nodeRemote_update sampleEnv sampleNodes sampleDownstreamLink).2 =
      [{ type := .REQUEST, destination := some "_linkMan", method := some "_getName",
         source := ["_linkMan"], id := 1234, returnValue := 0, params := some ["leafA"] }] ∧
    requestAttempts (cxa_rpc_nodeRemote_update sampleEnv sampleNodes sampleUpstreamLink).2 = 0 :=
  ⟨(update_attempts_request_iff_due sampleEnv sampleNodes sampleDownstreamLink).1.mpr
      ⟨rfl, rfl, rfl⟩,
    (update_attempts_request_iff_due sampleEnv sampleNodes sampleDownstreamLink).2.2.1 5 _
      rfl rfl rfl rfl rfl,
    ((update_attempts_request_iff_due sampleEnv sampleNodes sampleUpstreamLink).2.2.2
      (Or.inl rfl)).1⟩

/-! ## C5 -/

/-- The provisioning request `update` builds when the constructors succeed. -/
theorem buildProvisionRequest_ok (env : NrEnv) (nameIn : String) (hok : allSucceed env) :
    buildProvisionRequest env nameIn = some (provisionRequest nameIn) := by
  obtain ⟨_, h1, _, h3, h4, h5, h6, _⟩ := hok
  simp [buildProvisionRequest, cxa_rpc_message_initRequest, cxa_rpc_message_setId,
    cxa_rpc_message_prependNodeNameToSource, cxa_linkedField_append_cString,
    cxa_rpc_message_getParams, emptyMessage, provisionRequest, h1, h3, h4, h5, h6]

theorem writtenPackets_sendMessage_connack (env : BridgeEnv)
    (nodeIn : cxa_mqtt_rpc_node_bridge_t) (sp : Bool) (rc : cxa_mqtt_connAck_returnCode_t) :
    writtenPackets (sendMessage_connack env nodeIn sp rc) =
      if env.freeMessage = true ∧ env.connack_initOk = true then [MqttPacket.CONNACK sp rc]
      else [] := by
  unfold sendMessage_connack writtenPackets
  cases env.freeMessage <;> cases env.connack_initOk <;> simp

theorem authCalls_sendMessage_connack (env : BridgeEnv)
    (nodeIn : cxa_mqtt_rpc_node_bridge_t) (sp : Bool) (rc : cxa_mqtt_connAck_returnCode_t) :
    authCalls (sendMessage_connack env nodeIn sp rc) = [] := by
  unfold sendMessage_connack authCalls
  cases env.freeMessage <;> cases env.connack_initOk <;> simp

/-! ## C6 -/

/-- C6, as the code has it: for a CONNECT frame whose fields can be read and whose client id is
longer than `CXA_MQTT_RPC_NODE_BRIDGE_CLIENTID_MAXLEN_BYTES`, the authentication callback is
never invoked and the bridge's state is unchanged; when an authentication callback is set and
a pool message is available and can be initialised, exactly one packet is written, a CONNACK
with session-present false and return code REFUSED_CID; otherwise nothing is written. -/
theorem connect_long_clientId_refused (env : BridgeEnv) (nodeIn : cxa_mqtt_rpc_node_bridge_t)
    (msgIn : cxa_mqtt_message_t) (clientId : List Nat) (username password : Option (List Nat))
    (htype : cxa_mqtt_message_getType msgIn = .CONNECT)
    (hread : readConnectInfo msgIn = some (clientId, username, password))
    (hlen : clientId.length > env.CXA_MQTT_RPC_NODE_BRIDGE_CLIENTID_MAXLEN_BYTES) :
    authCalls (protoParseCb_onPacketReceived env nodeIn (some msgIn)).2 = [] ∧
    (protoParseCb_onPacketReceived env nodeIn (some msgIn)).1 = nodeIn ∧
    writtenPackets (protoParseCb_onPacketReceived env nodeIn (some msgIn)).2 =
      if nodeIn.cb_auth.isSome = true ∧ env.freeMessage = true ∧ env.connack_initOk = true then
        [MqttPacket.CONNACK false .REFUSED_CID]
      else [] := by
  unfold protoParseCb_onPacketReceived
  simp only [htype]
  unfold handleMessage_connect
  cases hcb : nodeIn.cb_auth with
  | none => simp [authCalls, writtenPackets]
  | some cb =>
    simp only [hread, ge_iff_le, Nat.le_of_lt hlen, if_true, Option.isSome_some, true_and]
    exact ⟨authCalls_sendMessage_connack _ _ _ _, writtenPackets_sendMessage_connack _ _ _ _⟩

theorem connect_long_clientId_refused_witness :
    (cxa_mqtt_message_getType (sampleConnect [1, 2, 3, 4, 5]) = .CONNECT ∧
      readConnectInfo (sampleConnect [1, 2, 3, 4, 5]) = some ([1, 2, 3, 4, 5], some [1], none) ∧
      [1, 2, 3, 4, 5].length > sampleBridgeEnv.CXA_MQTT_RPC_NODE_BRIDGE_CLIENTID_MAXLEN_BYTES) ∧
    writtenPackets (protoParseCb_onPacketReceived sampleBridgeEnv sampleBridge
        (some (sampleConnect [1, 2, 3, 4, 5]))).2 = [MqttPacket.CONNACK false .REFUSED_CID] :=
  ⟨⟨rfl, rfl, by decide⟩,
    (connect_long_clientId_refused sampleBridgeEnv sampleBridge (sampleConnect [1, 2, 3, 4, 5])
      [1, 2, 3, 4, 5] (some [1]) none rfl rfl (by decide)).2.2⟩

/-- C6 fails as stated: a readable CONNECT frame whose client id (5 bytes) is longer than the
maximum (4 bytes) gets no CONNACK when the bridge's authentication callback is null, and none
when the message pool is exhausted. -/
theorem connect_long_clientId_without_connack :
    readConnectInfo (sampleConnect [1, 2, 3, 4, 5]) = some ([1, 2, 3, 4, 5], some [1], none) ∧
    (protoParseCb_onPacketReceived sampleBridgeEnv
        (cxa_mqtt_rpc_node_bridge_setAuthenticationCb sampleBridge none 0)
        (some (sampleConnect [1, 2, 3, 4, 5]))).2 = [] ∧
    writtenPackets (protoParseCb_onPacketReceived sampleBridgeEnvExhausted sampleBridge
        (some (sampleConnect [1, 2, 3, 4, 5]))).2 = [] :=
  ⟨rfl, rfl, rfl⟩

/-! ## C7 -/

/-- C7, as the code has it: for a CONNECT frame whose fields can be read, with an
authentication callback set and a client id that passes the length check, the callback is
invoked exactly once, with the frame's client id, username and password (and the registered
user variable), before anything is sent; the bridge's state is unchanged; when a pool message
is available and can be initialised exactly one packet is written, a CONNACK with
session-present false and return code ACCEPTED if the callback returns a mapped name and
REFUSED_BADUSERNAMEPASSWORD if it returns null; when no pool message is available, or it
cannot be initialised, nothing is written. -/
theorem connect_authenticated (env : BridgeEnv) (nodeIn : cxa_mqtt_rpc_node_bridge_t)
    (msgIn : cxa_mqtt_message_t) (cb : AuthArgs → Option String) (clientId : List Nat)
    (username password : Option (List Nat))
    (htype : cxa_mqtt_message_getType msgIn = .CONNECT)
    (hcb : nodeIn.cb_auth = some cb)
    (hread : readConnectInfo msgIn = some (clientId, username, password))
    (hlen : clientId.length < env.CXA_MQTT_RPC_NODE_BRIDGE_CLIENTID_MAXLEN_BYTES) :
    (protoParseCb_onPacketReceived env nodeIn (some msgIn)).1 = nodeIn ∧
    (protoParseCb_onPacketReceived env nodeIn (some msgIn)).2 =
      BridgeEvent.cb_auth
          { clientId := clientId, clientIdLen_bytes := clientId.length,
            username := username, usernameLen_bytes := lenOrZero username,
            password := password, passwordLen_bytes := lenOrZero password,
            userVar := nodeIn.userVar_auth } ::
        sendMessage_connack env nodeIn false
          (if (cb { clientId := clientId, clientIdLen_bytes := clientId.length,
                    username := username, usernameLen_bytes := lenOrZero username,
                    password := password, passwordLen_bytes := lenOrZero password,
                    userVar := nodeIn.userVar_auth }).isSome
           then .ACCEPTED else .REFUSED_BADUSERNAMEPASSWORD) ∧
    authCalls (protoParseCb_onPacketReceived env nodeIn (some msgIn)).2 =
      [{ clientId := clientId, clientIdLen_bytes := clientId.length,
         username := username, usernameLen_bytes := lenOrZero username,
         password := password, passwordLen_bytes := lenOrZero password,
         userVar := nodeIn.userVar_auth }] ∧
    writtenPackets (protoParseCb_onPacketReceived env nodeIn (some msgIn)).2 =
      if env.freeMessage = true ∧ env.connack_initOk = true then
        [MqttPacket.CONNACK false
          (if (cb { clientId := clientId, clientIdLen_bytes := clientId.length,
                    username := username, usernameLen_bytes := lenOrZero username,
                    password := password, passwordLen_bytes := lenOrZero password,
                    userVar := nodeIn.userVar_auth }).isSome
           then .ACCEPTED else .REFUSED_BADUSERNAMEPASSWORD)]
      else [] := by
  have hnot : ¬ clientId.length ≥ env.CXA_MQTT_RPC_NODE_BRIDGE_CLIENTID_MAXLEN_BYTES :=
    Nat.not_le_of_lt hlen
  unfold protoParseCb_onPacketReceived
  simp only [htype]
  unfold handleMessage_connect
  simp only [hcb, hread, hnot, if_false]
  cases hres : cb { clientId := clientId, clientIdLen_bytes := clientId.length,
                    username := username, usernameLen_bytes := lenOrZero username,
                    password := password, passwordLen_bytes := lenOrZero password,
                    userVar := nodeIn.userVar_auth } with
  | none =>
    refine ⟨rfl, rfl, ?_, ?_⟩
    · simp only [authCalls, List.filterMap_cons]
      exact congrArg _ (authCalls_sendMessage_connack _ _ _ _)
    · simp only [writtenPackets, List.filterMap_cons]
      exact writtenPackets_sendMessage_connack _ _ _ _
  | some mappedName =>
    refine ⟨rfl, rfl, ?_, ?_⟩
    · simp only [authCalls, List.filterMap_cons]
      exact congrArg _ (authCalls_sendMessage_connack _ _ _ _)
    · simp only [writtenPackets, List.filterMap_cons]
      exact writtenPackets_sendMessage_connack _ _ _ _

theorem connect_authenticated_witness :
    (cxa_mqtt_message_getType (sampleConnect [1, 2]) = .CONNECT ∧
      readConnectInfo (sampleConnect [1, 2]) = some ([1, 2], some [1], none) ∧
      [1, 2].length < sampleBridgeEnv.CXA_MQTT_RPC_NODE_BRIDGE_CLIENTID_MAXLEN_BYTES) ∧
    authCalls (protoParseCb_onPacketReceived sampleBridgeEnv sampleBridge
        (some (sampleConnect [1, 2]))).2 =
      [{ clientId := [1, 2], clientIdLen_bytes := 2, username := some [1],
         usernameLen_bytes := 1, password := none, passwordLen_bytes := 0, userVar := 3 }] ∧
    writtenPackets (protoParseCb_onPacketReceived sampleBridgeEnv sampleBridge
        (some (sampleConnect [1, 2]))).2 = [MqttPacket.CONNACK false .ACCEPTED] :=
  ⟨⟨rfl, rfl, by decide⟩,
    (connect_authenticated sampleBridgeEnv sampleBridge (sampleConnect [1, 2]) _ [1, 2]
      (some [1]) none rfl rfl rfl (by decide)).2.2.1,
    (connect_authenticated sampleBridgeEnv sampleBridge (sampleConnect [1, 2]) _ [1, 2]
      (some [1]) none rfl rfl rfl (by decide)).2.2.2⟩

/-- C7 fails as stated: a readable CONNECT frame with a 2-byte client id (maximum 4) that the
set authentication callback accepts gets no CONNACK when the message pool is exhausted; the
callback has been invoked all the same. -/
theorem connect_accepted_without_connack :
    readConnectInfo (sampleConnect [1, 2]) = some ([1, 2], some [1], none) ∧
    sampleBridge.cb_auth.isSome = true ∧
    (authCalls (protoParseCb_onPacketReceived sampleBridgeEnvExhausted sampleBridge
        (some (sampleConnect [1, 2]))).2).length = 1 ∧
    writtenPackets (protoParseCb_onPacketReceived sampleBridgeEnvExhausted sampleBridge
        (some (sampleConnect [1, 2]))).2 = [] :=
  ⟨rfl, rfl, rfl, rfl⟩

/-! ## C8 -/

/-- C8: for a received PINGREQ frame, when a pool message is available and can be initialised,
the bridge writes exactly one packet, a PINGRESP, and nothing else; it does not invoke the
authentication callback, and it releases the message it acquired. -/
theorem pingReq_answered (env : BridgeEnv) (nodeIn : cxa_mqtt_rpc_node_bridge_t)
    (msgIn : cxa_mqtt_message_t)
    (htype : cxa_mqtt_message_getType msgIn = .PINGREQ)
    (hfree : env.freeMessage = true) (hinit : env.pingResponse_initOk = true) :
    protoParseCb_onPacketReceived env nodeIn (some msgIn) =
      (nodeIn, [.getFreeMessage_empty true,
                .writePacket MqttPacket.PINGRESP (env.writePacket MqttPacket.PINGRESP),
                .decrementMessageRefCount]) ∧
    writtenPackets (protoParseCb_onPacketReceived env nodeIn (some msgIn)).2
      = [MqttPacket.PINGRESP] ∧
    authCalls (protoParseCb_onPacketReceived env nodeIn (some msgIn)).2 = [] := by
  unfold protoParseCb_onPacketReceived
  simp only [htype]
  unfold handleMessage_pingReq
  simp [hfree, hinit, writtenPackets, authCalls]

theorem pingReq_answered_witness :
    (cxa_mqtt_message_getType (sampleFrame .PINGREQ) = .PINGREQ ∧
      sampleBridgeEnv.freeMessage = true ∧ sampleBridgeEnv.pingResponse_initOk = true) ∧
    writtenPackets (protoParseCb_onPacketReceived sampleBridgeEnv sampleBridge
        (some (sampleFrame .PINGREQ))).2 = [MqttPacket.PINGRESP] :=
  ⟨⟨rfl, rfl, rfl⟩,
    (pingReq_answered sampleBridgeEnv sampleBridge (sampleFrame .PINGREQ) rfl rfl rfl).2.1⟩

/-! ## C9 -/

/-- C9: for a received frame whose type is SUBSCRIBE or PUBLISH, and likewise any type other
than CONNECT and PINGREQ, the bridge's state is unchanged and its trace is empty: no packet is
written, no pool message acquired and no authentication callback invoked. -/
theorem other_frames_have_no_effect (env : BridgeEnv) (nodeIn : cxa_mqtt_rpc_node_bridge_t)
    (msgIn : cxa_mqtt_message_t)
    (hconnect : cxa_mqtt_message_getType msgIn ≠ .CONNECT)
    (hping : cxa_mqtt_message_getType msgIn ≠ .PINGREQ) :
    protoParseCb_onPacketReceived env nodeIn (some msgIn) = (nodeIn, []) ∧
    writtenPackets (protoParseCb_onPacketReceived env nodeIn (some msgIn)).2 = [] ∧
    acquiredMessages (protoParseCb_onPacketReceived env nodeIn (some msgIn)).2 = 0 ∧
    authCalls (protoParseCb_onPacketReceived env nodeIn (some msgIn)).2 = [] := by
  have h : protoParseCb_onPacketReceived env nodeIn (some msgIn) = (nodeIn, []) := by
    unfold protoParseCb_onPacketReceived
    cases ht : cxa_mqtt_message_getType msgIn with
    | CONNECT => exact absurd ht hconnect
    | PINGREQ => exact absurd ht hping
    | SUBSCRIBE => simp only [ht, handleMessage_subscribe]
    | PUBLISH => simp only [ht, handleMessage_publish]
    | CONNACK => simp only [ht]
    | PINGRESP => simp only [ht]
    | OTHER code => simp only [ht]
  rw [h]
  exact ⟨rfl, rfl, rfl, rfl⟩

theorem other_frames_have_no_effect_witness :
    (cxa_mqtt_message_getType (sampleFrame .SUBSCRIBE) ≠ .CONNECT ∧
      cxa_mqtt_message_getType (sampleFrame .SUBSCRIBE) ≠ .PINGREQ) ∧
    protoParseCb_onPacketReceived sampleBridgeEnv sampleBridge (some (sampleFrame .SUBSCRIBE))
      = (sampleBridge, []) :=
  ⟨⟨by decide, by decide⟩,
    (other_frames_have_no_effect sampleBridgeEnv sampleBridge (sampleFrame .SUBSCRIBE)
      (by decide) (by decide)).1⟩

/-! ## C10 -/

/-- C10: `cxa_rpc_nodeRemote_init_downstream` returns true if and only if the given subnode has
no parent and is not the global root.  On true the subnode's parent is the link and the
subnode is marked as local root (no other node is touched); on false no node is touched, so
the subnode's parent and local-root flag are what they were and it gets no second parent. -/
theorem init_downstream_result (env : NrEnv) (nodes : NodeMem) (nrAddr : Nat)
    (nrIn : cxa_rpc_nodeRemote_t) (ioStreamIn timeBaseIn subNodeIn : Nat) :
    ((cxa_rpc_nodeRemote_init_downstream env nodes nrAddr nrIn ioStreamIn timeBaseIn
        subNodeIn).1 = true ↔
      ((nodes subNodeIn).super.parent = none ∧ (nodes subNodeIn).isGlobalRoot = false)) ∧
    ((cxa_rpc_nodeRemote_init_downstream env nodes nrAddr nrIn ioStreamIn timeBaseIn
        subNodeIn).1 = true →
      ((cxa_rpc_nodeRemote_init_downstream env nodes nrAddr nrIn ioStreamIn timeBaseIn
          subNodeIn).2.2 subNodeIn).super.parent = some nrAddr ∧
      ((cxa_rpc_nodeRemote_init_downstream env nodes nrAddr nrIn ioStreamIn timeBaseIn
          subNodeIn).2.2 subNodeIn).isLocalRoot = true ∧
      ∀ other, other ≠ subNodeIn →
        (cxa_rpc_nodeRemote_init_downstream env nodes nrAddr nrIn ioStreamIn timeBaseIn
          subNodeIn).2.2 other = nodes other) ∧
    ((cxa_rpc_nodeRemote_init_downstream env nodes nrAddr nrIn ioStreamIn timeBaseIn
        subNodeIn).1 = false →
      (cxa_rpc_nodeRemote_init_downstream env nodes nrAddr nrIn ioStreamIn timeBaseIn
        subNodeIn).2.2 = nodes) := by
  unfold cxa_rpc_nodeRemote_init_downstream
  cases hp : (nodes subNodeIn).super.parent with
  | some parent => simp
  | none =>
    cases hg : (nodes subNodeIn).isGlobalRoot with
    | true => simp
    | false =>
      simp only [ne_eq, not_true_eq_false, if_false, Bool.false_eq_true, and_self, true_iff,
        forall_true_left, false_implies, and_true, true_and, Function.update_same]
      refine ⟨?_, ?_⟩
      · intro other hne
        exact Function.update_noteq hne _ _
      · intro h
        exact absurd h (by decide)

theorem init_downstream_result_witness :
    (cxa_rpc_nodeRemote_init_downstream sampleEnv sampleNodes 100 sampleRawLink 1 2 5).1 = true ∧
    ((cxa_rpc_nodeRemote_init_downstream sampleEnv sampleNodes 100 sampleRawLink 1 2
        5).2.2 5).super.parent = some 100 ∧
    ((cxa_rpc_nodeRemote_init_downstream sampleEnv sampleNodes 100 sampleRawLink 1 2
        5).2.2 5).isLocalRoot = true :=
  ⟨(init_downstream_result sampleEnv sampleNodes 100 sampleRawLink 1 2 5).1.mpr ⟨rfl, rfl⟩,
    ((init_downstream_result sampleEnv sampleNodes 100 sampleRawLink 1 2 5).2.1
      ((init_downstream_result sampleEnv sampleNodes 100 sampleRawLink 1 2 5).1.mpr
        ⟨rfl, rfl⟩)).1,
    ((init_downstream_result sampleEnv sampleNodes 100 sampleRawLink 1 2 5).2.1
      ((init_downstream_result sampleEnv sampleNodes 100 sampleRawLink 1 2 5).1.mpr
        ⟨rfl, rfl⟩)).2.1⟩

/-! ## Helper lemmas on the network factory -/

theorem reserveClientLoop_eq_none_iff (ini : Nat → Nat) (slots : List clientEntry_t) (idx : Nat) :
    reserveClientLoop ini slots idx = none ↔ ∀ e ∈ slots, e.isUsed = true := by
  induction slots generalizing idx with
  | nil => simp [reserveClientLoop]
  | cons e rest ih =>
    unfold reserveClientLoop
    cases hu : e.isUsed with
    | false => simp [hu]
    | true =>
      have := ih (idx + 1)
      cases hr : reserveClientLoop ini rest (idx + 1) with
      | none => simpa [hu, hr] using this.mp hr
      | some r =>
        simp only [hu, Bool.not_true, Bool.false_eq_true, if_false, List.mem_cons,
          forall_eq_or_imp, true_and]
        constructor
        · intro h
          exact Option.noConfusion h
        · intro h
          rw [this.mpr h] at hr
          exact Option.noConfusion hr

/-- The reservation loop returns the first unused slot and marks it used. -/
theorem reserveClientLoop_first_unused (ini : Nat → Nat) (slots : List clientEntry_t)
    (idx i : Nat) (hi : i < slots.length)
    (hbefore : ∀ j (_ : j < i) (_ : j < slots.length), (slots[j]).isUsed = true)
    (hunused : (slots[i]).isUsed = false) :
    reserveClientLoop ini slots idx =
      some (idx + i, slots.set i { isUsed := true, client := ini (slots[i]).client }) := by
  induction slots generalizing idx i with
  | nil => exact absurd hi (Nat.not_lt_zero _)
  | cons e rest ih =>
    unfold reserveClientLoop
    cases i with
    | zero =>
      simp only [List.getElem_cons_zero] at hunused
      simp [hunused]
    | succ i =>
      have h0 : e.isUsed = true := hbefore 0 (Nat.succ_pos _) (Nat.succ_pos _)
      have hi1 : i < rest.length := Nat.lt_of_succ_lt_succ hi
      have hb : ∀ j (_ : j < i) (_ : j < rest.length), (rest[j]).isUsed = true := by
        intro j hj hjl
        exact hbefore (j + 1) (Nat.succ_lt_succ hj) (Nat.succ_lt_succ hjl)
      have hu : (rest[i]).isUsed = false := by
        simpa using hunused
      rw [ih (idx + 1) i hi1 hb hu]
      simp [h0, Nat.add_assoc, Nat.add_comm 1 i]

theorem reserveClientLoop_some (ini : Nat → Nat) (slots : List clientEntry_t) (idx : Nat)
    (r : Nat × List clientEntry_t) (h : reserveClientLoop ini slots idx = some r) :
    r.2.length = slots.length ∧
      r.2.countP (fun e => e.isUsed) = slots.countP (fun e => e.isUsed) + 1 := by
  induction slots generalizing idx r with
  | nil => simp [reserveClientLoop] at h
  | cons e rest ih =>
    unfold reserveClientLoop at h
    cases hu : e.isUsed with
    | false =>
      simp only [hu, Bool.not_false, if_true, Option.some.injEq] at h
      subst h
      simp [hu, List.countP_cons]
    | true =>
      cases hr : reserveClientLoop ini rest (idx + 1) with
      | none => simp [hu, hr] at h
      | some r1 =>
        simp only [hu, hr, Bool.not_true, Bool.false_eq_true, if_false,
          Option.some.injEq] at h
        subst h
        obtain ⟨h1, h2⟩ := ih (idx + 1) r1 hr
        simp [hu, List.countP_cons, h1, h2]

theorem freeClientLoop_length (clientIn : Option Nat) (slots : List clientEntry_t) (idx : Nat) :
    (freeClientLoop clientIn slots idx).length = slots.length := by
  induction slots generalizing idx with
  | nil => rfl
  | cons e rest ih =>
    unfold freeClientLoop
    split
    · rfl
    · simp [ih]

/-- Freeing the client of slot `i` marks that slot unused and touches no other slot. -/
theorem freeClientLoop_inside (slots : List clientEntry_t) (idx i : Nat)
    (hi : i < slots.length) :
    freeClientLoop (some (idx + i)) slots idx =
      slots.set i { slots[i] with isUsed := false } := by
  induction slots generalizing idx i with
  | nil => exact absurd hi (Nat.not_lt_zero _)
  | cons e rest ih =>
    unfold freeClientLoop
    cases i with
    | zero => simp
    | succ i =>
      have hne : ¬ some idx = some (idx + (i + 1)) := by
        intro h
        have := Option.some.inj h
        omega
      have hi1 : i < rest.length := Nat.lt_of_succ_lt_succ hi
      have := ih (idx + 1) i hi1
      rw [show idx + 1 + i = idx + (i + 1) by omega] at this
      simp [hne, this]

/-- Freeing a pointer that is not a client of the slots in the loop changes nothing. -/
theorem freeClientLoop_outside (clientIn : Option Nat) (slots : List clientEntry_t) (idx : Nat)
    (h : ∀ q, clientIn = some q → q < idx ∨ idx + slots.length ≤ q) :
    freeClientLoop clientIn slots idx = slots := by
  induction slots generalizing idx with
  | nil => rfl
  | cons e rest ih =>
    unfold freeClientLoop
    have hne : ¬ some idx = clientIn := by
      intro heq
      have := h idx heq.symm
      simp only [List.length_cons] at this
      omega
    rw [if_neg hne, ih (idx + 1)]
    intro q hq
    have := h q hq
    simp only [List.length_cons] at this
    omega

theorem cxa_array_iterate_write_self {α : Type} (arrIn : cxa_array_t α) :
    cxa_array_iterate_write arrIn (cxa_array_iterate arrIn) = arrIn := by
  unfold cxa_array_iterate_write cxa_array_iterate
  cases hb : arrIn.bufferLoc with
  | none => rfl
  | some buf =>
    simp only [List.take_append_drop]
    cases arrIn
    simp_all

theorem clientSlots_of_ready (f : NetworkFactory) (buf : List clientEntry_t)
    (hb : f.clients.bufferLoc = some buf) (hi : f.clients.insertIndex = buf.length) :
    clientSlots f = buf := by
  unfold clientSlots cxa_array_iterate
  rw [hb, hi]
  exact List.take_length ..

theorem clientSlots_length_of_ready (f : NetworkFactory) (h : clientPoolReady f) :
    (clientSlots f).length = CXA_ESP8266_NETWORKFACTORY_MAXNUM_CLIENTS f := by
  obtain ⟨_, _, buf, hb, hi, hl⟩ := h
  rw [clientSlots_of_ready f buf hb hi, hl]

/-- Writing `newSlots` (as many as there are slots) through the iteration of a ready pool
gives a ready pool whose slots are `newSlots`. -/
theorem ready_after_write (f : NetworkFactory) (newSlots : List clientEntry_t)
    (h : clientPoolReady f) (hlen : newSlots.length = (clientSlots f).length) :
    clientPoolReady { f with clients := cxa_array_iterate_write f.clients newSlots } ∧
      clientSlots { f with clients := cxa_array_iterate_write f.clients newSlots } = newSlots := by
  have hl0 := clientSlots_length_of_ready f h
  obtain ⟨h1, h2, buf, hb, hi, hl⟩ := h
  have hw : cxa_array_iterate_write f.clients newSlots =
      { f.clients with bufferLoc := some newSlots } := by
    unfold cxa_array_iterate_write
    rw [hb]
    simp [hi]
  rw [hw]
  have hnl : newSlots.length = buf.length := by rw [hlen, hl0, hl]
  refine ⟨⟨h1, h2, newSlots, rfl, ?_, ?_⟩, ?_⟩
  · show f.clients.insertIndex = newSlots.length
    rw [hi, hnl]
  · show newSlots.length = f.clients_raw.length
    rw [hnl]
    exact hl
  · apply clientSlots_of_ready _ newSlots rfl
    show f.clients.insertIndex = newSlots.length
    rw [hi, hnl]

/-- After `cxa_esp8266_network_factory_init` the client pool is ready and every slot is
unused. -/
theorem init_ready (f0 : NetworkFactory)
    (hn : 0 < CXA_ESP8266_NETWORKFACTORY_MAXNUM_CLIENTS f0) :
    clientPoolReady (cxa_esp8266_network_factory_init f0) ∧
      (cxa_esp8266_network_factory_init f0).clients_raw = f0.clients_raw ∧
      clientSlots (cxa_esp8266_network_factory_init f0) =
        f0.clients_raw.map fun e => { e with isUsed := false } := by
  have hc : (cxa_esp8266_network_factory_init f0).clients =
      { bufferLoc := some (f0.clients_raw.map fun e => { e with isUsed := false }),
        insertIndex := f0.clients_raw.length, maxNumElements := f0.clients_raw.length } := by
    unfold cxa_esp8266_network_factory_init
    simp [hn, cxa_array_init_inPlace, cxa_array_iterate_write, cxa_array_iterate]
  refine ⟨⟨rfl, hn, _, congrArg (·.bufferLoc) hc, ?_, ?_⟩, rfl, ?_⟩
  · rw [hc]
    simp
  · simp [CXA_ESP8266_NETWORKFACTORY_MAXNUM_CLIENTS]
    rfl
  · apply clientSlots_of_ready _ _ (congrArg (·.bufferLoc) hc)
    rw [hc]
    simp

/-- One reservation on a ready pool returns, leaves the pool ready, and either finds no unused
slot and changes nothing, or returns what the loop found. -/
theorem reserve_of_ready (ini : Nat → Nat) (f : NetworkFactory) (h : clientPoolReady f) :
    ∃ r f1, cxa_network_factory_reserveTcpClient ini f = some (r, f1) ∧ clientPoolReady f1 ∧
      f1.clients_raw = f.clients_raw ∧ f1.servers = f.servers ∧
      ((reserveClientLoop ini (clientSlots f) 0 = none ∧ r = none ∧ f1 = f) ∨
        ∃ x, reserveClientLoop ini (clientSlots f) 0 = some x ∧ r = some x.1 ∧
          clientSlots f1 = x.2) := by
  have hinit := h.1
  have hpos := h.2.1
  have hc : ¬ ((!f.isInit) = true) := by simp [hinit]
  unfold cxa_network_factory_reserveTcpClient
  rw [if_neg hc, if_pos hpos]
  cases hr : reserveClientLoop ini (cxa_array_iterate f.clients) 0 with
  | none => exact ⟨none, f, rfl, h, rfl, rfl, Or.inl ⟨hr, rfl, rfl⟩⟩
  | some x =>
    have hlen := (reserveClientLoop_some ini _ 0 x hr).1
    obtain ⟨hready, hslots⟩ := ready_after_write f x.2 h hlen
    exact ⟨some x.1, _, rfl, hready, rfl, rfl, Or.inr ⟨x, hr, rfl, hslots⟩⟩

/-- Freeing on a ready pool returns, leaves the pool ready, and the slots are what the loop
leaves. -/
theorem free_of_ready (f : NetworkFactory) (clientIn : Option Nat) (h : clientPoolReady f) :
    ∃ f1, cxa_network_factory_freeTcpClient f clientIn = some f1 ∧ clientPoolReady f1 ∧
      f1.clients_raw = f.clients_raw ∧ f1.servers = f.servers ∧
      clientSlots f1 = freeClientLoop clientIn (clientSlots f) 0 := by
  have hinit := h.1
  have hpos := h.2.1
  have hc : ¬ ((!f.isInit) = true) := by simp [hinit]
  unfold cxa_network_factory_freeTcpClient
  rw [if_neg hc, if_pos hpos]
  obtain ⟨hready, hslots⟩ := ready_after_write f
    (freeClientLoop clientIn (cxa_array_iterate f.clients) 0) h
    (freeClientLoop_length _ _ _)
  exact ⟨_, rfl, hready, rfl, rfl, hslots⟩

/-- A reservation on a ready pool whose slots are all used returns `NULL` and changes
nothing. -/
theorem reserve_exhausted (ini : Nat → Nat) (f : NetworkFactory) (h : clientPoolReady f)
    (hall : ∀ e ∈ clientSlots f, e.isUsed = true) :
    cxa_network_factory_reserveTcpClient ini f = some (none, f) := by
  obtain ⟨r, f1, hres, _, _, _, hcase⟩ := reserve_of_ready ini f h
  rcases hcase with ⟨_, hr, hf⟩ | ⟨x, hx, _, _⟩
  · rw [hres, hr, hf]
  · rw [(reserveClientLoop_eq_none_iff ini _ 0).mpr hall] at hx
    exact Option.noConfusion hx

/-- A reservation on a ready pool returns the lowest unused slot and marks it used. -/
theorem reserve_first_unused (ini : Nat → Nat) (f : NetworkFactory) (i : Nat)
    (h : clientPoolReady f) (hi : i < (clientSlots f).length)
    (hbefore : ∀ j (_ : j < i) (_ : j < (clientSlots f).length),
      ((clientSlots f)[j]).isUsed = true)
    (hunused : ((clientSlots f)[i]).isUsed = false) :
    ∃ f1, cxa_network_factory_reserveTcpClient ini f = some (some i, f1) ∧
      clientPoolReady f1 ∧ f1.clients_raw = f.clients_raw ∧ f1.servers = f.servers ∧
      clientSlots f1 =
        (clientSlots f).set i { isUsed := true, client := ini ((clientSlots f)[i]).client } := by
  obtain ⟨r, f1, hres, hready, hraw, hsrv, hcase⟩ := reserve_of_ready ini f h
  have hloop := reserveClientLoop_first_unused ini (clientSlots f) 0 i hi hbefore hunused
  rw [Nat.zero_add] at hloop
  rcases hcase with ⟨hnone, _, _⟩ | ⟨x, hx, hr, hslots⟩
  · rw [hnone] at hloop
    exact Option.noConfusion hloop
  · rw [hx] at hloop
    have hxe := Option.some.inj hloop
    refine ⟨f1, ?_, hready, hraw, hsrv, ?_⟩
    · rw [hres, hr, hxe]
    · rw [hslots, hxe]

/-- While unused slots remain, consecutive reservations succeed, each using up one slot. -/
theorem reserveTcpClients_succeed (ini : Nat → Nat) (k : Nat) (f : NetworkFactory)
    (h : clientPoolReady f)
    (hk : (clientSlots f).countP (fun e => e.isUsed) + k ≤
      CXA_ESP8266_NETWORKFACTORY_MAXNUM_CLIENTS f) :
    ∃ rs f1, reserveTcpClients ini k f = some (rs, f1) ∧ clientPoolReady f1 ∧
      f1.clients_raw = f.clients_raw ∧ rs.length = k ∧ (∀ r ∈ rs, r ≠ none) ∧
      (clientSlots f1).countP (fun e => e.isUsed) =
        (clientSlots f).countP (fun e => e.isUsed) + k := by
  induction k generalizing f with
  | zero => exact ⟨[], f, rfl, h, rfl, rfl, by simp, rfl⟩
  | succ k ih =>
    obtain ⟨r, f1, hres, hready, hraw, _, hcase⟩ := reserve_of_ready ini f h
    have hlen := clientSlots_length_of_ready f h
    rcases hcase with ⟨hnone, _, _⟩ | ⟨x, hx, hr, hslots⟩
    · have hall := (reserveClientLoop_eq_none_iff ini _ 0).mp hnone
      have hcount : (clientSlots f).countP (fun e => e.isUsed) = (clientSlots f).length :=
        List.countP_eq_length.mpr hall
      omega
    · have hcount := (reserveClientLoop_some ini _ 0 x hx).2
      rw [← hslots] at hcount
      have hmax : CXA_ESP8266_NETWORKFACTORY_MAXNUM_CLIENTS f1 =
          CXA_ESP8266_NETWORKFACTORY_MAXNUM_CLIENTS f := by
        unfold CXA_ESP8266_NETWORKFACTORY_MAXNUM_CLIENTS
        rw [hraw]
      obtain ⟨rs, f2, hrun, hready2, hraw2, hlen2, hsome, hcount2⟩ :=
        ih f1 hready (by rw [hmax, hcount]; omega)
      refine ⟨r :: rs, f2, ?_, hready2, hraw2.trans hraw, by simp [hlen2], ?_, ?_⟩
      · simp only [reserveTcpClients, hres, hrun]
      · intro r1 hr1
        rcases List.mem_cons.mp hr1 with h1 | h1
        · rw [h1, hr]
          exact Option.some_ne_none _
        · exact hsome r1 h1
      · rw [hcount2, hcount]
        omega

/-- The calls on the server pool leave the client pool ready. -/
theorem ready_of_factoryCall (ini sini : Nat → Nat) (f f1 : NetworkFactory) (call : FactoryCall)
    (h : clientPoolReady f) (hcall : factoryCall ini sini f call = some f1) :
    clientPoolReady f1 ∧ f1.clients_raw = f.clients_raw := by
  cases call with
  | reserveTcpClient =>
    obtain ⟨r, f2, hres, hready, hraw, _, _⟩ := reserve_of_ready ini f h
    simp only [factoryCall, hres, Option.map_some', Option.some.injEq] at hcall
    subst hcall
    exact ⟨hready, hraw⟩
  | freeTcpClient clientIn =>
    obtain ⟨f2, hres, hready, hraw, _, _⟩ := free_of_ready f clientIn h
    simp only [factoryCall, hres, Option.some.injEq] at hcall
    subst hcall
    exact ⟨hready, hraw⟩
  | reserveTcpServer =>
    simp only [factoryCall, cxa_network_factory_reserveTcpServer] at hcall
    split at hcall
    · exact Option.noConfusion hcall
    · split at hcall
      · split at hcall
        · simp only [Option.map_some', Option.some.injEq] at hcall
          subst hcall
          exact ⟨h, rfl⟩
        · simp only [Option.map_some', Option.some.injEq] at hcall
          subst hcall
          exact ⟨h, rfl⟩
      · exact Option.noConfusion hcall
  | freeTcpServer serverIn =>
    simp only [factoryCall, cxa_network_factory_freeTcpServer] at hcall
    split at hcall
    · exact Option.noConfusion hcall
    · split at hcall
      · simp only [Option.some.injEq] at hcall
        subst hcall
        exact ⟨h, rfl⟩
      · exact Option.noConfusion hcall

theorem ready_of_factoryCalls (ini sini : Nat → Nat) (calls : List FactoryCall)
    (f f1 : NetworkFactory) (h : clientPoolReady f)
    (hcalls : factoryCalls ini sini f calls = some f1) :
    clientPoolReady f1 ∧ f1.clients_raw = f.clients_raw := by
  induction calls generalizing f with
  | nil =>
    simp only [factoryCalls, Option.some.injEq] at hcalls
    subst hcalls
    exact ⟨h, rfl⟩
  | cons call rest ih =>
    simp only [factoryCalls] at hcalls
    cases hc : factoryCall ini sini f call with
    | none => simp [hc] at hcalls
    | some f2 =>
      simp only [hc] at hcalls
      obtain ⟨hr2, hraw2⟩ := ready_of_factoryCall ini sini f f2 call h hc
      obtain ⟨hr1, hraw1⟩ := ih f2 hr2 hcalls
      exact ⟨hr1, hraw1.trans hraw2⟩

/-! ## C14 -/

/-- C14: starting from `cxa_esp8266_network_factory_init` (with at least one client slot
configured), in every state reached by reserve and free calls
`cxa_network_factory_reserveTcpClient` returns `NULL` if and only if every one of the
`CXA_ESP8266_NETWORKFACTORY_MAXNUM_CLIENTS` slots is in use, and then it leaves the factory
unchanged; right after the initialisation exactly that many consecutive reservations succeed
and the next one fails, leaving every slot as it was (the pool never grows). -/
theorem reserve_fails_iff_pool_exhausted (ini sini : Nat → Nat) (f0 : NetworkFactory)
    (hn : 0 < CXA_ESP8266_NETWORKFACTORY_MAXNUM_CLIENTS f0) :
    (∀ calls f, factoryCalls ini sini (cxa_esp8266_network_factory_init f0) calls = some f →
      (clientSlots f).length = CXA_ESP8266_NETWORKFACTORY_MAXNUM_CLIENTS f0 ∧
      ∃ r f1, cxa_network_factory_reserveTcpClient ini f = some (r, f1) ∧
        (r = none ↔ ∀ e ∈ clientSlots f, e.isUsed = true) ∧
        (r = none → f1 = f) ∧
        (clientSlots f1).length = CXA_ESP8266_NETWORKFACTORY_MAXNUM_CLIENTS f0) ∧
    ∃ rs f, reserveTcpClients ini (CXA_ESP8266_NETWORKFACTORY_MAXNUM_CLIENTS f0)
        (cxa_esp8266_network_factory_init f0) = some (rs, f) ∧
      rs.length = CXA_ESP8266_NETWORKFACTORY_MAXNUM_CLIENTS f0 ∧
      (∀ r ∈ rs, r ≠ none) ∧
      (∀ e ∈ clientSlots f, e.isUsed = true) ∧
      cxa_network_factory_reserveTcpClient ini f = some (none, f) := by
  obtain ⟨hready0, hraw0, hslots0⟩ := init_ready f0 hn
  have hmax0 : CXA_ESP8266_NETWORKFACTORY_MAXNUM_CLIENTS (cxa_esp8266_network_factory_init f0)
      = CXA_ESP8266_NETWORKFACTORY_MAXNUM_CLIENTS f0 := by
    unfold CXA_ESP8266_NETWORKFACTORY_MAXNUM_CLIENTS
    rw [hraw0]
  constructor
  · intro calls f hcalls
    obtain ⟨hready, hraw⟩ := ready_of_factoryCalls ini sini calls _ f hready0 hcalls
    have hmax : CXA_ESP8266_NETWORKFACTORY_MAXNUM_CLIENTS f
        = CXA_ESP8266_NETWORKFACTORY_MAXNUM_CLIENTS f0 := by
      unfold CXA_ESP8266_NETWORKFACTORY_MAXNUM_CLIENTS
      rw [hraw, hraw0]
    have hlen := clientSlots_length_of_ready f hready
    obtain ⟨r, f1, hres, hready1, hraw1, _, hcase⟩ := reserve_of_ready ini f hready
    have hlen1 := clientSlots_length_of_ready f1 hready1
    have hmax1 : CXA_ESP8266_NETWORKFACTORY_MAXNUM_CLIENTS f1
        = CXA_ESP8266_NETWORKFACTORY_MAXNUM_CLIENTS f := by
      unfold CXA_ESP8266_NETWORKFACTORY_MAXNUM_CLIENTS
      rw [hraw1]
    refine ⟨hlen.trans hmax, r, f1, hres, ?_, ?_, by rw [hlen1, hmax1, hmax]⟩
    · rcases hcase with ⟨hnone, hr, _⟩ | ⟨x, hx, hr, _⟩
      · exact ⟨fun _ => (reserveClientLoop_eq_none_iff ini _ 0).mp hnone, fun _ => hr⟩
      · constructor
        · intro hrn
          rw [hr] at hrn
          exact Option.noConfusion hrn
        · intro hall
          rw [(reserveClientLoop_eq_none_iff ini _ 0).mpr hall] at hx
          exact Option.noConfusion hx
    · intro hrn
      rcases hcase with ⟨_, _, hf⟩ | ⟨x, _, hr, _⟩
      · exact hf
      · rw [hr] at hrn
        exact Option.noConfusion hrn
  · have hunused : (clientSlots (cxa_esp8266_network_factory_init f0)).countP
        (fun e => e.isUsed) = 0 := by
      rw [hslots0, List.countP_eq_zero]
      intro e he
      obtain ⟨e0, _, he0⟩ := List.mem_map.mp he
      rw [← he0]
      simp
    obtain ⟨rs, f, hrun, hready, hraw, hlen, hsome, hcount⟩ :=
      reserveTcpClients_succeed ini (CXA_ESP8266_NETWORKFACTORY_MAXNUM_CLIENTS f0) _ hready0
        (by rw [hunused, hmax0]; omega)
    have hall : ∀ e ∈ clientSlots f, e.isUsed = true := by
      have hl := clientSlots_length_of_ready f hready
      have hmax : CXA_ESP8266_NETWORKFACTORY_MAXNUM_CLIENTS f
          = CXA_ESP8266_NETWORKFACTORY_MAXNUM_CLIENTS f0 := by
        unfold CXA_ESP8266_NETWORKFACTORY_MAXNUM_CLIENTS
        rw [hraw, hraw0]
      have : (clientSlots f).countP (fun e => e.isUsed) = (clientSlots f).length := by
        rw [hcount, hunused, hl, hmax, Nat.zero_add]
      exact List.countP_eq_length.mp this
    exact ⟨rs, f, hrun, hlen, hsome, hall, reserve_exhausted ini f hready hall⟩

theorem reserve_fails_iff_pool_exhausted_witness :
    0 < CXA_ESP8266_NETWORKFACTORY_MAXNUM_CLIENTS sampleFactoryStorage ∧
    ∃ rs f, reserveTcpClients (fun _ => 0)
        (CXA_ESP8266_NETWORKFACTORY_MAXNUM_CLIENTS sampleFactoryStorage)
        (cxa_esp8266_network_factory_init sampleFactoryStorage) = some (rs, f) ∧
      rs.length = CXA_ESP8266_NETWORKFACTORY_MAXNUM_CLIENTS sampleFactoryStorage ∧
      (∀ r ∈ rs, r ≠ none) ∧
      (∀ e ∈ clientSlots f, e.isUsed = true) ∧
      cxa_network_factory_reserveTcpClient (fun _ => 0) f = some (none, f) :=
  ⟨by decide,
    (reserve_fails_iff_pool_exhausted (fun _ => 0) (fun _ => 0) sampleFactoryStorage
      (by decide)).2⟩

/-! ## C15 -/

/-- C15: in a state reached from the initialisation in which the client pool is exhausted,
freeing the client of any slot makes exactly one further reservation succeed, which returns
that same client, and the reservation after it fails and changes nothing; and in every
reached state, freeing a pointer that is not a client of the pool (`NULL` included) changes
nothing. -/
theorem free_then_reserve_same_client (ini sini : Nat → Nat) (f0 f : NetworkFactory)
    (calls : List FactoryCall)
    (hn : 0 < CXA_ESP8266_NETWORKFACTORY_MAXNUM_CLIENTS f0)
    (hreach : factoryCalls ini sini (cxa_esp8266_network_factory_init f0) calls = some f) :
    ((∀ e ∈ clientSlots f, e.isUsed = true) →
      ∀ i, i < CXA_ESP8266_NETWORKFACTORY_MAXNUM_CLIENTS f0 →
        ∃ f1 f2, cxa_network_factory_freeTcpClient f (some i) = some f1 ∧
          cxa_network_factory_reserveTcpClient ini f1 = some (some i, f2) ∧
          cxa_network_factory_reserveTcpClient ini f2 = some (none, f2)) ∧
    (∀ clientIn, (∀ q, clientIn = some q → CXA_ESP8266_NETWORKFACTORY_MAXNUM_CLIENTS f0 ≤ q) →
      cxa_network_factory_freeTcpClient f clientIn = some f) := by
  obtain ⟨hready0, hraw0, _⟩ := init_ready f0 hn
  obtain ⟨hready, hraw⟩ := ready_of_factoryCalls ini sini calls _ f hready0 hreach
  have hmax : CXA_ESP8266_NETWORKFACTORY_MAXNUM_CLIENTS f
      = CXA_ESP8266_NETWORKFACTORY_MAXNUM_CLIENTS f0 := by
    unfold CXA_ESP8266_NETWORKFACTORY_MAXNUM_CLIENTS
    rw [hraw, hraw0]
  have hlen := (clientSlots_length_of_ready f hready).trans hmax
  constructor
  · intro hall i hi
    have hil : i < (clientSlots f).length := by rw [hlen]; exact hi
    obtain ⟨f1, hfree, hready1, _, _, hslots1⟩ := free_of_ready f (some i) hready
    have hfl := freeClientLoop_inside (clientSlots f) 0 i hil
    rw [Nat.zero_add] at hfl
    rw [hfl] at hslots1
    have hil1 : i < (clientSlots f1).length := by rw [hslots1, List.length_set]; exact hil
    have hbefore : ∀ j (_ : j < i) (_ : j < (clientSlots f1).length),
        ((clientSlots f1)[j]).isUsed = true := by
      intro j hj hjl
      have hjl0 : j < (clientSlots f).length := Nat.lt_trans hj hil
      have : (clientSlots f1)[j] = (clientSlots f)[j] := by
        simp only [hslots1]
        rw [List.getElem_set_ne (Nat.ne_of_gt hj)]
      rw [this]
      exact hall _ (List.getElem_mem hjl0)
    have hunused : ((clientSlots f1)[i]).isUsed = false := by
      simp only [hslots1]
      rw [List.getElem_set_self]
    obtain ⟨f2, hres, hready2, _, _, hslots2⟩ :=
      reserve_first_unused ini f1 i hready1 hil1 hbefore hunused
    have hall2 : ∀ e ∈ clientSlots f2, e.isUsed = true := by
      intro e he
      rw [hslots2] at he
      simp only [hslots1, List.set_set] at he
      rcases List.mem_or_eq_of_mem_set he with h1 | h1
      · exact hall e h1
      · rw [h1]
    exact ⟨f1, f2, hfree, hres, reserve_exhausted ini f2 hready2 hall2⟩
  · intro clientIn hforeign
    obtain ⟨f1, hfree, _, _, _, _⟩ := free_of_ready f clientIn hready
    have hloop : freeClientLoop clientIn (cxa_array_iterate f.clients) 0
        = cxa_array_iterate f.clients := by
      apply freeClientLoop_outside
      intro q hq
      right
      have := hforeign q hq
      have hl : (cxa_array_iterate f.clients).length
          = CXA_ESP8266_NETWORKFACTORY_MAXNUM_CLIENTS f0 := hlen
      omega
    have hc : ¬ ((!f.isInit) = true) := by simp [hready.1]
    unfold cxa_network_factory_freeTcpClient
    rw [if_neg hc, if_pos hready.2.1, hloop, cxa_array_iterate_write_self]

theorem free_then_reserve_same_client_witness :
    (0 < CXA_ESP8266_NETWORKFACTORY_MAXNUM_CLIENTS sampleFactoryStorage ∧
      factoryCalls (fun _ => 0) (fun _ => 0)
          (cxa_esp8266_network_factory_init sampleFactoryStorage)
          [.reserveTcpClient, .reserveTcpClient] = some sampleFactoryExhausted ∧
      (∀ e ∈ clientSlots sampleFactoryExhausted, e.isUsed = true) ∧
      1 < CXA_ESP8266_NETWORKFACTORY_MAXNUM_CLIENTS sampleFactoryStorage) ∧
    ∃ f1 f2, cxa_network_factory_freeTcpClient sampleFactoryExhausted (some 1) = some f1 ∧
      cxa_network_factory_reserveTcpClient (fun _ => 0) f1 = some (some 1, f2) ∧
      cxa_network_factory_reserveTcpClient (fun _ => 0) f2 = some (none, f2) :=
  ⟨⟨by decide, by decide, by decide, by decide⟩,
    (free_then_reserve_same_client (fun _ => 0) (fun _ => 0) sampleFactoryStorage
      sampleFactoryExhausted [.reserveTcpClient, .reserveTcpClient] (by decide)
      (by decide)).1 (by decide) 1 (by decide)⟩

/-! ## C11 -/

/-- C11: a received message whose destination is absent or differs from "_linkMan" is handed,
unmodified and exactly once, by a downstream link to the downstream handler of its owned
subnode, and by an upstream link whose parent is set to the upstream handler of its parent;
the trace holds that one call and nothing else, and the link is unchanged.  (The handler is the
callback stored in the subnode, respectively the parent; `cxa_rpc_messageHandler_init` only
stores non-null callbacks.) -/
theorem application_message_relayed (env : NrEnv) (nodes : NodeMem)
    (nrIn : cxa_rpc_nodeRemote_t) (msgIn : cxa_rpc_message_t)
    (hdest : msgIn.destination ≠ some LINK_MANAGEMENT_DEST) :
    (∀ subNode cb, nrIn.downstreamSubNode = some subNode →
      (nodes subNode).super.cb_downstream = some cb →
      messageReceived_cb env nodes nrIn msgIn
        = some (nrIn, [NrEvent.cb_downstream cb subNode msgIn])) ∧
    (∀ parent cb, nrIn.downstreamSubNode = none → nrIn.super.parent = some parent →
      (nodes parent).super.cb_upstream = some cb →
      messageReceived_cb env nodes nrIn msgIn
        = some (nrIn, [NrEvent.cb_upstream cb parent msgIn])) := by
  constructor
  · intro subNode cb hds hcb
    rw [messageReceived_cb_downstream_eq env nodes nrIn subNode msgIn hds, if_neg hdest]
    unfold cxa_rpc_messageHandler_handleDownstream
    rw [hcb]
  · intro parent cb hus hparent hcb
    unfold messageReceived_cb isUpstream cxa_rpc_message_getDestination cxa_stringUtils_equals
      cxa_rpc_messageHandler_handleUpstream
    rw [hus, hparent]
    cases hd : msgIn.destination with
    | none => simp [hcb]
    | some dest =>
      have hne : dest ≠ LINK_MANAGEMENT_DEST := by
        intro h
        rw [hd, h] at hdest
        exact hdest rfl
      simp [hne, hcb]

theorem application_message_relayed_witness :
    sampleApplicationMessage.destination ≠ some LINK_MANAGEMENT_DEST ∧
    messageReceived_cb sampleEnv sampleNodes sampleDownstreamLink sampleApplicationMessage
      = some (sampleDownstreamLink, [NrEvent.cb_downstream 12 5 sampleApplicationMessage]) ∧
    messageReceived_cb sampleEnv sampleNodes sampleUpstreamLinkWithParent
        sampleApplicationMessage
      = some (sampleUpstreamLinkWithParent,
          [NrEvent.cb_upstream 11 8 sampleApplicationMessage]) :=
  ⟨by decide,
    (application_message_relayed sampleEnv sampleNodes sampleDownstreamLink
      sampleApplicationMessage (by decide)).1 5 12 rfl rfl,
    (application_message_relayed sampleEnv sampleNodes sampleUpstreamLinkWithParent
      sampleApplicationMessage (by decide)).2 8 11 rfl rfl rfl⟩

/-! ## C12 -/

theorem take_succ_set {α : Type} (buf : List α) (i : Nat) (x : α) (hi : i < buf.length) :
    (buf.set i x).take (i + 1) = buf.take i ++ [x] := by
  induction buf generalizing i with
  | nil => exact absurd hi (Nat.not_lt_zero _)
  | cons a rest ih =>
    cases i with
    | zero => simp
    | succ i =>
      have := ih i (Nat.lt_of_succ_lt_succ hi)
      simp [this]

theorem init_upstream_listenerTableReady (nrAddr : Nat) (nrIn : cxa_rpc_nodeRemote_t)
    (ioStreamIn : Nat) :
    listenerTableReady (cxa_rpc_nodeRemote_init_upstream nrAddr nrIn ioStreamIn) :=
  ⟨nrIn.linkListeners_raw, rfl, rfl, Nat.zero_le _⟩

theorem init_downstream_listenerTableReady (env : NrEnv) (nodes : NodeMem) (nrAddr : Nat)
    (nrIn : cxa_rpc_nodeRemote_t) (ioStreamIn timeBaseIn subNodeIn : Nat) :
    listenerTableReady (cxa_rpc_nodeRemote_init_downstream env nodes nrAddr nrIn ioStreamIn
      timeBaseIn subNodeIn).2.1 := by
  unfold cxa_rpc_nodeRemote_init_downstream
  dsimp only
  split
  · exact ⟨nrIn.linkListeners_raw, rfl, rfl, Nat.zero_le _⟩
  · split
    · exact ⟨nrIn.linkListeners_raw, rfl, rfl, Nat.zero_le _⟩
    · exact ⟨nrIn.linkListeners_raw, rfl, rfl, Nat.zero_le _⟩

/-- What `cxa_rpc_nodeRemote_addLinkListener` does on a link whose listener table is ready. -/
theorem addLinkListener_of_ready (nrIn : cxa_rpc_nodeRemote_t) (cb userVar : Nat)
    (h : listenerTableReady nrIn) :
    (nrIn.linkListeners.insertIndex < nrIn.linkListeners.maxNumElements →
      (cxa_rpc_nodeRemote_addLinkListener nrIn cb userVar).1 = true ∧
      registeredListeners (cxa_rpc_nodeRemote_addLinkListener nrIn cb userVar).2 =
        registeredListeners nrIn ++ [{ cb_linkEstablished := some cb, userVar := userVar }] ∧
      listenerTableReady (cxa_rpc_nodeRemote_addLinkListener nrIn cb userVar).2 ∧
      (cxa_rpc_nodeRemote_addLinkListener nrIn cb userVar).2.linkListeners.maxNumElements =
        nrIn.linkListeners.maxNumElements ∧
      (cxa_rpc_nodeRemote_addLinkListener nrIn cb userVar).2.linkListeners.insertIndex =
        nrIn.linkListeners.insertIndex + 1) ∧
    (¬ nrIn.linkListeners.insertIndex < nrIn.linkListeners.maxNumElements →
      cxa_rpc_nodeRemote_addLinkListener nrIn cb userVar = (false, nrIn)) := by
  obtain ⟨buf, hb, hmax, hidx⟩ := h
  unfold cxa_rpc_nodeRemote_addLinkListener cxa_array_append registeredListeners
    cxa_array_iterate listenerTableReady
  simp only [hb]
  constructor
  · intro hlt
    have hlt2 : nrIn.linkListeners.insertIndex < buf.length := by rw [← hmax]; exact hlt
    simp only [hlt, if_true, true_and]
    refine ⟨take_succ_set buf _ _ hlt2, ⟨_, rfl, ?_, ?_⟩, trivial⟩
    · simp [hmax]
    · simp only [List.length_set]
      exact hlt2
  · intro hnlt
    simp only [hnlt, if_false]

/-- After the listeners `ls` have been handed to `cxa_rpc_nodeRemote_addLinkListener`, the
registered listeners are the earlier ones followed by as many of `ls`, in order, as there were
free slots. -/
theorem addLinkListeners_registered (ls : List (Nat × Nat)) (nrIn : cxa_rpc_nodeRemote_t)
    (h : listenerTableReady nrIn) :
    registeredListeners (addLinkListeners nrIn ls) =
      registeredListeners nrIn ++
        (ls.take (nrIn.linkListeners.maxNumElements - nrIn.linkListeners.insertIndex)).map
          (fun l => { cb_linkEstablished := some l.1, userVar := l.2 }) ∧
    (addLinkListeners nrIn ls).downstreamSubNode = nrIn.downstreamSubNode := by
  induction ls generalizing nrIn with
  | nil => simp [addLinkListeners]
  | cons l rest ih =>
    obtain ⟨hfree, hfull⟩ := addLinkListener_of_ready nrIn l.1 l.2 h
    unfold addLinkListeners
    by_cases hlt : nrIn.linkListeners.insertIndex < nrIn.linkListeners.maxNumElements
    · obtain ⟨_, hreg, hready, hmax, hidx⟩ := hfree hlt
      obtain ⟨h1, h2⟩ := ih _ hready
      rw [h1, h2, hreg, hmax, hidx]
      have hk : nrIn.linkListeners.maxNumElements - nrIn.linkListeners.insertIndex
          = (nrIn.linkListeners.maxNumElements - (nrIn.linkListeners.insertIndex + 1)) + 1 := by
        omega
      rw [hk, List.take_succ_cons, List.map_cons, List.append_assoc]
      exact ⟨rfl, rfl⟩
    · rw [hfull hlt]
      obtain ⟨h1, h2⟩ := ih nrIn h
      have hk : nrIn.linkListeners.maxNumElements - nrIn.linkListeners.insertIndex = 0 := by
        omega
      rw [hk] at h1 ⊢
      simp only [List.take_zero, List.map_nil, List.append_nil] at h1 ⊢
      exact ⟨h1, h2⟩

/-! ## C13 -/

/-- C13: on a link whose listener table is as the initialisation (upstream or downstream) and
earlier registrations leave it, `cxa_rpc_nodeRemote_addLinkListener` returns true and appends
the listener after the already registered ones when the table has a free slot; when the table
is full it returns false and leaves the link, its registered listeners included,
unmodified. -/
theorem addLinkListener_appends_or_fails (nrIn : cxa_rpc_nodeRemote_t) (cb userVar : Nat)
    (h : listenerTableReady nrIn) :
    (nrIn.linkListeners.insertIndex < nrIn.linkListeners.maxNumElements →
      (cxa_rpc_nodeRemote_addLinkListener nrIn cb userVar).1 = true ∧
      registeredListeners (cxa_rpc_nodeRemote_addLinkListener nrIn cb userVar).2 =
        registeredListeners nrIn ++ [{ cb_linkEstablished := some cb, userVar := userVar }] ∧
      listenerTableReady (cxa_rpc_nodeRemote_addLinkListener nrIn cb userVar).2) ∧
    (¬ nrIn.linkListeners.insertIndex < nrIn.linkListeners.maxNumElements →
      (cxa_rpc_nodeRemote_addLinkListener nrIn cb userVar).1 = false ∧
      (cxa_rpc_nodeRemote_addLinkListener nrIn cb userVar).2 = nrIn) := by
  obtain ⟨hfree, hfull⟩ := addLinkListener_of_ready nrIn cb userVar h
  constructor
  · intro hlt
    obtain ⟨h1, h2, h3, _, _⟩ := hfree hlt
    exact ⟨h1, h2, h3⟩
  · intro hnlt
    rw [hfull hnlt]
    exact ⟨rfl, rfl⟩

theorem addLinkListener_appends_or_fails_witness :
    listenerTableReady sampleDownstreamLink ∧
    (cxa_rpc_nodeRemote_addLinkListener sampleDownstreamLink 21 22).1 = true ∧
    registeredListeners (cxa_rpc_nodeRemote_addLinkListener sampleDownstreamLink 21 22).2 =
      registeredListeners sampleDownstreamLink ++
        [{ cb_linkEstablished := some 21, userVar := 22 }] :=
  ⟨⟨_, rfl, rfl, by decide⟩,
    ((addLinkListener_appends_or_fails sampleDownstreamLink 21 22
      ⟨_, rfl, rfl, by decide⟩).1 (by decide)).1,
    ((addLinkListener_appends_or_fails sampleDownstreamLink 21 22
      ⟨_, rfl, rfl, by decide⟩).1 (by decide)).2.1⟩

/-! ## C18 -/

/-- The link that `cxa_rpc_nodeRemote_init_downstream` leaves, whatever it returns. -/
theorem init_downstream_link (env : NrEnv) (nodes : NodeMem) (nrAddr : Nat)
    (nrIn : cxa_rpc_nodeRemote_t) (ioStreamIn timeBaseIn subNodeIn : Nat) :
    (cxa_rpc_nodeRemote_init_downstream env nodes nrAddr nrIn ioStreamIn timeBaseIn
        subNodeIn).2.1.linkListeners = cxa_array_initStd (some nrIn.linkListeners_raw) ∧
    (cxa_rpc_nodeRemote_init_downstream env nodes nrAddr nrIn ioStreamIn timeBaseIn
        subNodeIn).2.1.downstreamSubNode = some subNodeIn ∧
    (cxa_rpc_nodeRemote_init_downstream env nodes nrAddr nrIn ioStreamIn timeBaseIn
        subNodeIn).2.1.isProvisioned = false := by
  unfold cxa_rpc_nodeRemote_init_downstream
  dsimp only
  split
  · exact ⟨rfl, rfl, rfl⟩
  · split
    · exact ⟨rfl, rfl, rfl⟩
    · exact ⟨rfl, rfl, rfl⟩

/-- The listener loop calls every registered listener whose callback is set. -/
theorem notifyLinkListeners_of_registered (nr : cxa_rpc_nodeRemote_t) (ls : List (Nat × Nat))
    (h : registeredListeners nr =
      ls.map fun l => { cb_linkEstablished := some l.1, userVar := l.2 }) :
    notifyLinkListeners nr = ls.map listenerCall := by
  unfold notifyLinkListeners
  unfold registeredListeners at h
  rw [h, List.filterMap_map]
  clear h
  induction ls with
  | nil => rfl
  | cons l rest ih =>
    simp only [List.filterMap_cons, Function.comp_apply, List.map_cons]
    exact congrArg _ ih

/-- C18: a downstream link is initialised over listener storage of any size and the listeners
`ls` are registered with `cxa_rpc_nodeRemote_addLinkListener`; those that found a free slot are
the registered ones.  When the link then handles an accepted provisioning response naming its
local root it becomes provisioned and calls the registered listeners, each exactly once, in
registration order, each with its own user variable (the link itself is the first argument of
every call), and it calls nothing else.  `cxa_array_iterate` runs over exactly the first
`insertIndex` slots of the buffer, and over none when the buffer is absent. -/
theorem provisioning_calls_registered_listeners (env envR : NrEnv) (nodes nodesR : NodeMem)
    (nrAddr : Nat) (nrIn nr : cxa_rpc_nodeRemote_t) (ioStreamIn timeBaseIn subNodeIn : Nat)
    (ls : List (Nat × Nat)) (msgIn : cxa_rpc_message_t)
    (hnr : nr = addLinkListeners (cxa_rpc_nodeRemote_init_downstream env nodes nrAddr nrIn
      ioStreamIn timeBaseIn subNodeIn).2.1 ls)
    (hacc : isAcceptedResponseFor (nodesR subNodeIn).name msgIn) :
    registeredListeners nr =
      (ls.take nrIn.linkListeners_raw.length).map
        (fun l => { cb_linkEstablished := some l.1, userVar := l.2 }) ∧
    messageReceived_cb envR nodesR nr msgIn =
      some ({ nr with isProvisioned := true },
        (ls.take nrIn.linkListeners_raw.length).map listenerCall) ∧
    (∀ (arr : cxa_array_t cxa_rpc_nodeRemote_linkListener_t) buf, arr.bufferLoc = some buf →
      cxa_array_iterate arr = buf.take arr.insertIndex) ∧
    (∀ (arr : cxa_array_t cxa_rpc_nodeRemote_linkListener_t), arr.bufferLoc = none →
      cxa_array_iterate arr = []) := by
  obtain ⟨hll, hsub, _⟩ := init_downstream_link env nodes nrAddr nrIn ioStreamIn timeBaseIn
    subNodeIn
  obtain ⟨hreg, hds⟩ := addLinkListeners_registered ls _
    (init_downstream_listenerTableReady env nodes nrAddr nrIn ioStreamIn timeBaseIn subNodeIn)
  rw [← hnr] at hreg hds
  rw [hsub] at hds
  have hreg0 : registeredListeners (cxa_rpc_nodeRemote_init_downstream env nodes nrAddr nrIn
      ioStreamIn timeBaseIn subNodeIn).2.1 = [] := by
    unfold registeredListeners
    rw [hll]
    rfl
  rw [hreg0, hll] at hreg
  have hreg1 : registeredListeners nr =
      (ls.take nrIn.linkListeners_raw.length).map
        (fun l => { cb_linkEstablished := some l.1, userVar := l.2 }) := by
    rw [hreg]
    rfl
  refine ⟨hreg1, ?_, ?_, ?_⟩
  · obtain ⟨⟨hdest, htype, hid, _⟩, hname, hret⟩ := hacc
    rw [messageReceived_cb_downstream_eq envR nodesR nr subNodeIn msgIn hds, if_pos hdest,
      handleLinkManagement_downstream_eq nodesR nr subNodeIn msgIn hds,
      if_pos ⟨htype, hid, hname⟩, if_neg hret,
      notifyLinkListeners_of_registered nr _ hreg1]
  · intro arr buf hb
    unfold cxa_array_iterate
    rw [hb]
  · intro arr hb
    unfold cxa_array_iterate
    rw [hb]

theorem provisioning_calls_registered_listeners_witness :
    isAcceptedResponseFor (sampleNodes 5).name (sampleResponse "leafA" 1) ∧
    messageReceived_cb sampleEnv sampleNodes
        (addLinkListeners
          (cxa_rpc_nodeRemote_init_downstream sampleEnv sampleNodes 100 sampleRawLink 1 2 5).2.1
          [(7, 9), (21, 22), (31, 32)])
        (sampleResponse "leafA" 1) =
      some ({ addLinkListeners
                (cxa_rpc_nodeRemote_init_downstream sampleEnv sampleNodes 100 sampleRawLink 1 2
                  5).2.1 [(7, 9), (21, 22), (31, 32)] with isProvisioned := true },
        [NrEvent.cb_linkEstablished 7 9, NrEvent.cb_linkEstablished 21 22]) :=
  ⟨by decide,
    (provisioning_calls_registered_listeners sampleEnv sampleEnv sampleNodes sampleNodes 100
      sampleRawLink _ 1 2 5 [(7, 9), (21, 22), (31, 32)] (sampleResponse "leafA" 1) rfl
      (by decide)).2.1⟩

theorem link_handlers_frame (env : NrEnv) (nrIn : cxa_rpc_nodeRemote_t)
    (msgIn : Option cxa_rpc_message_t) :
    (handleMessage_upstream env nrIn msgIn).1 = nrIn ∧
    (handleMessage_downstream env nrIn msgIn).2.1 = nrIn := by
  unfold handleMessage_upstream handleMessage_downstream
  cases msgIn with
  | none => exact ⟨rfl, rfl⟩
  | some msg =>
    cases hu : isUpstream nrIn <;> cases hw : env.writeMessage msg <;> simp [hu, hw]

/-! ## C16 -/

theorem update_frame (env : NrEnv) (nodes : NodeMem) (nrIn : cxa_rpc_nodeRemote_t) :
    (cxa_rpc_nodeRemote_update env nodes nrIn).1.isProvisioned = nrIn.isProvisioned ∧
    (cxa_rpc_nodeRemote_update env nodes nrIn).1.downstreamSubNode = nrIn.downstreamSubNode := by
  unfold cxa_rpc_nodeRemote_update
  split
  · dsimp only
    split
    · split
      · exact ⟨rfl, rfl⟩
      · split
        · exact ⟨rfl, rfl⟩
        · split
          · exact ⟨rfl, rfl⟩
          · exact ⟨rfl, rfl⟩
    · exact ⟨rfl, rfl⟩
  · exact ⟨rfl, rfl⟩

theorem handleLinkManagement_upstream_frame (env : NrEnv) (nrIn : cxa_rpc_nodeRemote_t)
    (msgIn : cxa_rpc_message_t) :
    (handleLinkManagement_upstream env nrIn msgIn).1 = nrIn := by
  unfold handleLinkManagement_upstream
  split
  · split
    · rfl
    · split
      · rfl
      · split
        · rfl
        · split
          · rfl
          · split
            · rfl
            · split
              · rfl
              · rfl
  · rfl

/-- One call on a link: the owned subnode stays, and the link is provisioned afterwards only if
it was before or the call delivered a response naming the local root of a downstream link. -/
theorem linkCall_step (nodes : NodeMem) (nrIn nr1 : cxa_rpc_nodeRemote_t) (call : LinkCall)
    (hcall : linkCall nodes nrIn call = some nr1) :
    nr1.downstreamSubNode = nrIn.downstreamSubNode ∧
    (nr1.isProvisioned = true → nrIn.isProvisioned = true ∨
      ∃ subNode, nrIn.downstreamSubNode = some subNode ∧
        deliversResponseNaming (nodes subNode).name call) := by
  cases call with
  | update env =>
    simp only [linkCall, Option.some.injEq] at hcall
    subst hcall
    obtain ⟨h1, h2⟩ := update_frame env nodes nrIn
    exact ⟨h2, fun h => Or.inl (h1 ▸ h)⟩
  | handleMessage_upstream env msgIn =>
    simp only [linkCall, Option.some.injEq] at hcall
    subst hcall
    have := (link_handlers_frame env nrIn msgIn).1
    rw [this]
    exact ⟨rfl, fun h => Or.inl h⟩
  | handleMessage_downstream env msgIn =>
    simp only [linkCall, Option.some.injEq] at hcall
    subst hcall
    have := (link_handlers_frame env nrIn msgIn).2
    rw [this]
    exact ⟨rfl, fun h => Or.inl h⟩
  | addLinkListener cb userVar =>
    simp only [linkCall, Option.some.injEq] at hcall
    subst hcall
    exact ⟨rfl, fun h => Or.inl h⟩
  | messageReceived env msgIn =>
    simp only [linkCall] at hcall
    cases hsub : nrIn.downstreamSubNode with
    | none =>
      have hup : isUpstream nrIn = true := by
        unfold isUpstream
        rw [hsub]
        rfl
      unfold messageReceived_cb at hcall
      rw [hup] at hcall
      split at hcall
      · simp only [if_true, Option.map_some', Option.some.injEq] at hcall
        subst hcall
        rw [handleLinkManagement_upstream_frame]
        exact ⟨hsub, fun h => Or.inl h⟩
      · simp only [if_true] at hcall
        split at hcall
        · exact Option.noConfusion hcall
        · simp only [Option.map_some', Option.some.injEq] at hcall
          subst hcall
          exact ⟨hsub, fun h => Or.inl h⟩
    | some subNode =>
      rw [messageReceived_cb_downstream_eq env nodes nrIn subNode msgIn hsub] at hcall
      by_cases hdest : msgIn.destination = some LINK_MANAGEMENT_DEST
      · rw [if_pos hdest,
          handleLinkManagement_downstream_eq nodes nrIn subNode msgIn hsub] at hcall
        by_cases hm : msgIn.type = .RESPONSE ∧ msgIn.id = LINK_MANAGEMENT_ID_PROVISON ∧
            carriedName msgIn = some (nodes subNode).name
        · rw [if_pos hm] at hcall
          have hdel : deliversResponseNaming (nodes subNode).name
              (LinkCall.messageReceived env msgIn) :=
            ⟨⟨hdest, hm.1, hm.2.1, by rw [hm.2.2]; rfl⟩, hm.2.2⟩
          by_cases hr : msgIn.returnValue = 0
          · rw [if_pos hr] at hcall
            simp only [Option.map_some', Option.some.injEq] at hcall
            subst hcall
            exact ⟨hsub, fun _ => Or.inr ⟨subNode, rfl, hdel⟩⟩
          · rw [if_neg hr] at hcall
            simp only [Option.map_some', Option.some.injEq] at hcall
            subst hcall
            exact ⟨hsub, fun _ => Or.inr ⟨subNode, rfl, hdel⟩⟩
        · rw [if_neg hm] at hcall
          simp only [Option.map_some', Option.some.injEq] at hcall
          subst hcall
          exact ⟨hsub, fun h => Or.inl h⟩
      · rw [if_neg hdest] at hcall
        simp only [Option.map_some', Option.some.injEq] at hcall
        subst hcall
        exact ⟨hsub, fun h => Or.inl h⟩

/-- A sequence of calls on a link: the owned subnode stays, and the link is provisioned at the
end only if it was at the start or one of the calls delivered a response naming the local
root of the downstream link. -/
theorem linkCalls_steps (nodes : NodeMem) (calls : List LinkCall)
    (nr0 nr : cxa_rpc_nodeRemote_t) (hcalls : linkCalls nodes nr0 calls = some nr) :
    nr.downstreamSubNode = nr0.downstreamSubNode ∧
    (nr.isProvisioned = true → nr0.isProvisioned = true ∨
      ∃ subNode, nr0.downstreamSubNode = some subNode ∧
        ∃ call ∈ calls, deliversResponseNaming (nodes subNode).name call) := by
  induction calls generalizing nr0 with
  | nil =>
    simp only [linkCalls, Option.some.injEq] at hcalls
    subst hcalls
    exact ⟨rfl, fun h => Or.inl h⟩
  | cons call rest ih =>
    simp only [linkCalls] at hcalls
    cases hc : linkCall nodes nr0 call with
    | none => simp [hc] at hcalls
    | some nr1 =>
      simp only [hc] at hcalls
      obtain ⟨hsub1, hprov1⟩ := linkCall_step nodes nr0 nr1 call hc
      obtain ⟨hsub, hprov⟩ := ih nr1 hcalls
      refine ⟨hsub.trans hsub1, fun h => ?_⟩
      rcases hprov h with h1 | ⟨subNode, hs, c, hc1, hd⟩
      · rcases hprov1 h1 with h0 | ⟨subNode, hs, hd⟩
        · exact Or.inl h0
        · exact Or.inr ⟨subNode, hs, call, List.mem_cons_self _ _, hd⟩
      · exact Or.inr ⟨subNode, hsub1 ▸ hs, c, List.mem_cons_of_mem _ hc1, hd⟩

/-- C16: `isProvisioned` is false after `cxa_rpc_nodeRemote_init_upstream` and after
`cxa_rpc_nodeRemote_init_downstream`.  `update`, the link's `handleMessage_upstream` and
`handleMessage_downstream`, `addLinkListener`, the relaying of an application message and the
upstream-side link-management handler leave `isProvisioned` as it is.  In every state reached
from an unprovisioned link by any sequence of calls, `isProvisioned` is true only if the link
is a downstream link and one of the calls delivered a link-management response naming its
local root; so a link initialised as upstream is never provisioned. -/
theorem provisioned_only_by_matching_response (env : NrEnv) (nodes : NodeMem) (nrAddr : Nat)
    (nrRaw nrIn : cxa_rpc_nodeRemote_t) (ioStreamIn timeBaseIn subNodeIn cb userVar : Nat)
    (msgOpt : Option cxa_rpc_message_t) (msgIn : cxa_rpc_message_t) :
    (cxa_rpc_nodeRemote_init_upstream nrAddr nrRaw ioStreamIn).isProvisioned = false ∧
    (cxa_rpc_nodeRemote_init_downstream env nodes nrAddr nrRaw ioStreamIn timeBaseIn
      subNodeIn).2.1.isProvisioned = false ∧
    (cxa_rpc_nodeRemote_update env nodes nrIn).1.isProvisioned = nrIn.isProvisioned ∧
    (handleMessage_upstream env nrIn msgOpt).1.isProvisioned = nrIn.isProvisioned ∧
    (handleMessage_downstream env nrIn msgOpt).2.1.isProvisioned = nrIn.isProvisioned ∧
    (cxa_rpc_nodeRemote_addLinkListener nrIn cb userVar).2.isProvisioned
      = nrIn.isProvisioned ∧
    (msgIn.destination ≠ some LINK_MANAGEMENT_DEST →
      ∀ r, messageReceived_cb env nodes nrIn msgIn = some r →
        r.1.isProvisioned = nrIn.isProvisioned) ∧
    (handleLinkManagement_upstream env nrIn msgIn).1.isProvisioned = nrIn.isProvisioned ∧
    (∀ calls nr0 nr, nr0.isProvisioned = false → linkCalls nodes nr0 calls = some nr →
      nr.isProvisioned = true →
      ∃ subNode, nr.downstreamSubNode = some subNode ∧
        ∃ call ∈ calls, deliversResponseNaming (nodes subNode).name call) ∧
    (∀ calls nr,
      linkCalls nodes (cxa_rpc_nodeRemote_init_upstream nrAddr nrRaw ioStreamIn) calls = some nr →
      nr.isProvisioned = false) := by
  refine ⟨rfl, (init_downstream_link env nodes nrAddr nrRaw ioStreamIn timeBaseIn subNodeIn).2.2,
    (update_frame env nodes nrIn).1, ?_, ?_, rfl, ?_, ?_, ?_, ?_⟩
  · rw [(link_handlers_frame env nrIn msgOpt).1]
  · rw [(link_handlers_frame env nrIn msgOpt).2]
  · intro hdest r hr
    have hstep := linkCall_step nodes nrIn r.1 (LinkCall.messageReceived env msgIn)
      (by simp only [linkCall, hr, Option.map_some'])
    cases hp : r.1.isProvisioned with
    | false =>
      cases hp0 : nrIn.isProvisioned with
      | false => rfl
      | true =>
        exfalso
        cases hsub : nrIn.downstreamSubNode with
        | none =>
          unfold messageReceived_cb isUpstream cxa_rpc_message_getDestination
            cxa_stringUtils_equals at hr
          rw [hsub] at hr
          cases hd : msgIn.destination with
          | none =>
            simp only [hd, Bool.false_eq_true, if_false, beq_self_eq_true, if_true] at hr
            split at hr
            · exact Option.noConfusion hr
            · rw [← Option.some.inj hr, hp0] at hp
              exact Bool.noConfusion hp
          | some dest =>
            have hne : dest ≠ LINK_MANAGEMENT_DEST := by
              intro h
              rw [hd, h] at hdest
              exact hdest rfl
            simp only [hd, hne, decide_False, Bool.false_eq_true, if_false, beq_self_eq_true,
              if_true] at hr
            split at hr
            · exact Option.noConfusion hr
            · rw [← Option.some.inj hr, hp0] at hp
              exact Bool.noConfusion hp
        | some subNode =>
          rw [messageReceived_cb_downstream_eq env nodes nrIn subNode msgIn hsub,
            if_neg hdest] at hr
          rw [← Option.some.inj hr, hp0] at hp
          exact Bool.noConfusion hp
    | true =>
      rcases hstep.2 hp with h0 | ⟨subNode, _, hd⟩
      · exact h0.symm
      · exact absurd hd.1.1 hdest
  · rw [handleLinkManagement_upstream_frame]
  · intro calls nr0 nr h0 hcalls hp
    obtain ⟨hsub, hprov⟩ := linkCalls_steps nodes calls nr0 nr hcalls
    rcases hprov hp with h1 | ⟨subNode, hs, hd⟩
    · rw [h0] at h1
      exact Bool.noConfusion h1
    · exact ⟨subNode, hsub.trans hs, hd⟩
  · intro calls nr hcalls
    obtain ⟨_, hprov⟩ := linkCalls_steps nodes calls _ nr hcalls
    cases hp : nr.isProvisioned with
    | false => rfl
    | true =>
      rcases hprov hp with h1 | ⟨subNode, hs, _⟩
      · exact Bool.noConfusion h1
      · exact Option.noConfusion hs

theorem provisioned_only_by_matching_response_witness :
    ∃ nr, linkCalls sampleNodes sampleDownstreamLink
        [.update sampleEnv, .messageReceived sampleEnv (sampleResponse "leafA" 1)] = some nr ∧
      nr.isProvisioned = true ∧
      ∃ subNode, nr.downstreamSubNode = some subNode ∧
        ∃ call ∈ [LinkCall.update sampleEnv,
            LinkCall.messageReceived sampleEnv (sampleResponse "leafA" 1)],
          deliversResponseNaming (sampleNodes subNode).name call :=
  ⟨_, rfl, rfl,
    (provisioned_only_by_matching_response sampleEnv sampleNodes 100 sampleRawLink
      sampleDownstreamLink 1 2 5 7 9 none (sampleResponse "leafA" 1)).2.2.2.2.2.2.2.2.1
      _ sampleDownstreamLink _ rfl rfl rfl⟩

/-! ## More helper lemmas on the bridge -/

/-- The trace of a readable CONNECT frame on a bridge whose authentication callback is set. -/
theorem connect_trace (env : BridgeEnv) (nodeIn : cxa_mqtt_rpc_node_bridge_t)
    (msgIn : cxa_mqtt_message_t) (cb : AuthArgs → Option String) (clientId : List Nat)
    (username password : Option (List Nat))
    (htype : cxa_mqtt_message_getType msgIn = .CONNECT)
    (hcb : nodeIn.cb_auth = some cb)
    (hread : readConnectInfo msgIn = some (clientId, username, password)) :
    protoParseCb_onPacketReceived env nodeIn (some msgIn) =
      (nodeIn,
        if clientId.length ≥ env.CXA_MQTT_RPC_NODE_BRIDGE_CLIENTID_MAXLEN_BYTES then
          sendMessage_connack env nodeIn false .REFUSED_CID
        else
          BridgeEvent.cb_auth (authArgsOf nodeIn clientId username password) ::
            sendMessage_connack env nodeIn false
              (if (cb (authArgsOf nodeIn clientId username password)).isSome then .ACCEPTED
               else .REFUSED_BADUSERNAMEPASSWORD)) := by
  unfold protoParseCb_onPacketReceived
  simp only [htype]
  unfold handleMessage_connect authArgsOf
  simp only [hcb, hread]
  split
  · rfl
  · cases hres : cb { clientId := clientId, clientIdLen_bytes := clientId.length,
                      username := username, usernameLen_bytes := lenOrZero username,
                      password := password, passwordLen_bytes := lenOrZero password,
                      userVar := nodeIn.userVar_auth } <;> rfl

theorem balance_sendMessage_connack (env : BridgeEnv) (nodeIn : cxa_mqtt_rpc_node_bridge_t)
    (sp : Bool) (rc : cxa_mqtt_connAck_returnCode_t) :
    acquiredMessages (sendMessage_connack env nodeIn sp rc) =
        (if env.freeMessage = true then 1 else 0) ∧
    releasedMessages (sendMessage_connack env nodeIn sp rc) =
        (if env.freeMessage = true then 1 else 0) := by
  unfold sendMessage_connack acquiredMessages releasedMessages
  cases env.freeMessage <;> cases env.connack_initOk <;> simp

/-! ## C17 -/

/-- C17, as the code has it: for a readable CONNECT frame on a bridge whose authentication
callback is set, the frame reaches the callback if and only if its client id is shorter than
`CXA_MQTT_RPC_NODE_BRIDGE_CLIENTID_MAXLEN_BYTES`, and a CONNACK with the client-id code is
written if and only if the client id is at least that long (and a pool message is available
and can be initialised); in particular a client id of exactly the maximum length is refused
for its length and does not reach the callback. -/
theorem clientId_of_maximum_length_refused (env : BridgeEnv)
    (nodeIn : cxa_mqtt_rpc_node_bridge_t) (msgIn : cxa_mqtt_message_t)
    (cb : AuthArgs → Option String) (clientId : List Nat)
    (username password : Option (List Nat))
    (htype : cxa_mqtt_message_getType msgIn = .CONNECT)
    (hcb : nodeIn.cb_auth = some cb)
    (hread : readConnectInfo msgIn = some (clientId, username, password)) :
    (authCalls (protoParseCb_onPacketReceived env nodeIn (some msgIn)).2 ≠ [] ↔
      clientId.length < env.CXA_MQTT_RPC_NODE_BRIDGE_CLIENTID_MAXLEN_BYTES) ∧
    (MqttPacket.CONNACK false .REFUSED_CID ∈
        writtenPackets (protoParseCb_onPacketReceived env nodeIn (some msgIn)).2 ↔
      (env.CXA_MQTT_RPC_NODE_BRIDGE_CLIENTID_MAXLEN_BYTES ≤ clientId.length ∧
        env.freeMessage = true ∧ env.connack_initOk = true)) ∧
    (clientId.length = env.CXA_MQTT_RPC_NODE_BRIDGE_CLIENTID_MAXLEN_BYTES →
      authCalls (protoParseCb_onPacketReceived env nodeIn (some msgIn)).2 = [] ∧
      writtenPackets (protoParseCb_onPacketReceived env nodeIn (some msgIn)).2 =
        if env.freeMessage = true ∧ env.connack_initOk = true then
          [MqttPacket.CONNACK false .REFUSED_CID]
        else []) := by
  rw [connect_trace env nodeIn msgIn cb clientId username password htype hcb hread]
  by_cases hlen : clientId.length ≥ env.CXA_MQTT_RPC_NODE_BRIDGE_CLIENTID_MAXLEN_BYTES
  · simp only [hlen, if_true, authCalls_sendMessage_connack,
      writtenPackets_sendMessage_connack]
    refine ⟨?_, ?_, ?_⟩
    · constructor
      · intro h
        exact absurd rfl h
      · intro h
        exact absurd hlen (Nat.not_le_of_lt h)
    · by_cases hres : env.freeMessage = true ∧ env.connack_initOk = true
      · simp [hres, hlen]
      · simp only [hres, if_false, List.not_mem_nil, false_iff]
        intro h
        exact h.2
    · intro _
      exact ⟨trivial, trivial⟩
  · have hlt : clientId.length < env.CXA_MQTT_RPC_NODE_BRIDGE_CLIENTID_MAXLEN_BYTES :=
      Nat.lt_of_not_le hlen
    have hle : ¬ env.CXA_MQTT_RPC_NODE_BRIDGE_CLIENTID_MAXLEN_BYTES ≤ clientId.length := hlen
    simp only [hlen, if_false]
    refine ⟨?_, ?_, ?_⟩
    · simp [authCalls, hlt]
    · simp only [writtenPackets, List.filterMap_cons, hle, false_and, iff_false]
      have hw := writtenPackets_sendMessage_connack env nodeIn false
        (if (cb (authArgsOf nodeIn clientId username password)).isSome then
          cxa_mqtt_connAck_returnCode_t.ACCEPTED
         else cxa_mqtt_connAck_returnCode_t.REFUSED_BADUSERNAMEPASSWORD)
      unfold writtenPackets at hw
      rw [hw]
      split
      · cases (cb (authArgsOf nodeIn clientId username password)).isSome <;> simp
      · simp
    · intro heq
      exact absurd (Nat.le_of_eq heq.symm) hle

theorem clientId_of_maximum_length_refused_witness :
    (cxa_mqtt_message_getType (sampleConnect [1, 2, 3, 4]) = .CONNECT ∧
      sampleBridge.cb_auth.isSome = true ∧
      readConnectInfo (sampleConnect [1, 2, 3, 4]) = some ([1, 2, 3, 4], some [1], none) ∧
      [1, 2, 3, 4].length = sampleBridgeEnv.CXA_MQTT_RPC_NODE_BRIDGE_CLIENTID_MAXLEN_BYTES) ∧
    authCalls (protoParseCb_onPacketReceived sampleBridgeEnv sampleBridge
        (some (sampleConnect [1, 2, 3, 4]))).2 = [] :=
  ⟨⟨rfl, rfl, rfl, rfl⟩,
    ((clientId_of_maximum_length_refused sampleBridgeEnv sampleBridge
      (sampleConnect [1, 2, 3, 4]) _ [1, 2, 3, 4] (some [1]) none rfl rfl rfl).2.2 rfl).1⟩

/-- C17 fails as stated: with a maximum of 4 bytes, a readable CONNECT frame whose client id
is exactly 4 bytes long, on a bridge whose callback would accept it, is answered with the
client-id refusal and never reaches the authentication callback. -/
theorem clientId_of_exactly_maximum_length_is_refused :
    readConnectInfo (sampleConnect [1, 2, 3, 4]) = some ([1, 2, 3, 4], some [1], none) ∧
    [1, 2, 3, 4].length = sampleBridgeEnv.CXA_MQTT_RPC_NODE_BRIDGE_CLIENTID_MAXLEN_BYTES ∧
    authCalls (protoParseCb_onPacketReceived sampleBridgeEnv sampleBridge
        (some (sampleConnect [1, 2, 3, 4]))).2 = [] ∧
    writtenPackets (protoParseCb_onPacketReceived sampleBridgeEnv sampleBridge
        (some (sampleConnect [1, 2, 3, 4]))).2 = [MqttPacket.CONNACK false .REFUSED_CID] :=
  ⟨rfl, rfl, rfl, rfl⟩

/-! ## C19 -/

/-- C19: handling any received frame leaves the number of live pool messages unchanged: the
trace releases as many messages as it acquires, and it acquires at most one; a packet is only
written from an acquired message; when the pool is exhausted nothing is acquired, written or
released; the handler always returns, with the bridge unchanged. -/
theorem pool_messages_balanced (env : BridgeEnv) (nodeIn : cxa_mqtt_rpc_node_bridge_t)
    (msg : Option cxa_mqtt_message_t) :
    acquiredMessages (protoParseCb_onPacketReceived env nodeIn msg).2 =
      releasedMessages (protoParseCb_onPacketReceived env nodeIn msg).2 ∧
    acquiredMessages (protoParseCb_onPacketReceived env nodeIn msg).2 ≤ 1 ∧
    (writtenPackets (protoParseCb_onPacketReceived env nodeIn msg).2).length ≤
      acquiredMessages (protoParseCb_onPacketReceived env nodeIn msg).2 ∧
    (env.freeMessage = false →
      writtenPackets (protoParseCb_onPacketReceived env nodeIn msg).2 = [] ∧
      acquiredMessages (protoParseCb_onPacketReceived env nodeIn msg).2 = 0 ∧
      releasedMessages (protoParseCb_onPacketReceived env nodeIn msg).2 = 0) ∧
    (protoParseCb_onPacketReceived env nodeIn msg).1 = nodeIn := by
  have hconnack : ∀ sp rc,
      acquiredMessages (sendMessage_connack env nodeIn sp rc) =
        releasedMessages (sendMessage_connack env nodeIn sp rc) ∧
      acquiredMessages (sendMessage_connack env nodeIn sp rc) ≤ 1 ∧
      (writtenPackets (sendMessage_connack env nodeIn sp rc)).length ≤
        acquiredMessages (sendMessage_connack env nodeIn sp rc) ∧
      (env.freeMessage = false →
        writtenPackets (sendMessage_connack env nodeIn sp rc) = [] ∧
        acquiredMessages (sendMessage_connack env nodeIn sp rc) = 0 ∧
        releasedMessages (sendMessage_connack env nodeIn sp rc) = 0) := by
    intro sp rc
    unfold sendMessage_connack acquiredMessages releasedMessages writtenPackets
    cases env.freeMessage <;> cases env.connack_initOk <;> simp
  have hcons : ∀ args trace, acquiredMessages (BridgeEvent.cb_auth args :: trace)
      = acquiredMessages trace ∧
      releasedMessages (BridgeEvent.cb_auth args :: trace) = releasedMessages trace ∧
      writtenPackets (BridgeEvent.cb_auth args :: trace) = writtenPackets trace := by
    intro args trace
    simp [acquiredMessages, releasedMessages, writtenPackets]
  cases msg with
  | none => simp [protoParseCb_onPacketReceived, acquiredMessages, releasedMessages,
      writtenPackets]
  | some msg =>
    cases ht : cxa_mqtt_message_getType msg with
    | CONNECT =>
      cases hcb : nodeIn.cb_auth with
      | none =>
        simp [protoParseCb_onPacketReceived, ht, handleMessage_connect, hcb, acquiredMessages,
          releasedMessages, writtenPackets]
      | some cb =>
        cases hread : readConnectInfo msg with
        | none =>
          simp [protoParseCb_onPacketReceived, ht, handleMessage_connect, hcb, hread,
            acquiredMessages, releasedMessages, writtenPackets]
        | some info =>
          obtain ⟨clientId, username, password⟩ := info
          rw [connect_trace env nodeIn msg cb clientId username password ht hcb hread]
          split
          · obtain ⟨h1, h2, h3, h4⟩ := hconnack false .REFUSED_CID
            exact ⟨h1, h2, h3, h4, rfl⟩
          · obtain ⟨h1, h2, h3, h4⟩ := hconnack false
              (if (cb (authArgsOf nodeIn clientId username password)).isSome then
                cxa_mqtt_connAck_returnCode_t.ACCEPTED
               else cxa_mqtt_connAck_returnCode_t.REFUSED_BADUSERNAMEPASSWORD)
            obtain ⟨g1, g2, g3⟩ := hcons (authArgsOf nodeIn clientId username password)
              (sendMessage_connack env nodeIn false
                (if (cb (authArgsOf nodeIn clientId username password)).isSome then
                  cxa_mqtt_connAck_returnCode_t.ACCEPTED
                 else cxa_mqtt_connAck_returnCode_t.REFUSED_BADUSERNAMEPASSWORD))
            simp only [g1, g2, g3]
            exact ⟨h1, h2, h3, h4, trivial⟩
    | PINGREQ =>
      simp only [protoParseCb_onPacketReceived, ht, handleMessage_pingReq]
      cases env.freeMessage <;> cases env.pingResponse_initOk <;>
        simp [acquiredMessages, releasedMessages, writtenPackets]
    | SUBSCRIBE =>
      simp [protoParseCb_onPacketReceived, ht, handleMessage_subscribe, acquiredMessages,
        releasedMessages, writtenPackets]
    | PUBLISH =>
      simp [protoParseCb_onPacketReceived, ht, handleMessage_publish, acquiredMessages,
        releasedMessages, writtenPackets]
    | CONNACK =>
      simp [protoParseCb_onPacketReceived, ht, acquiredMessages, releasedMessages,
        writtenPackets]
    | PINGRESP =>
      simp [protoParseCb_onPacketReceived, ht, acquiredMessages, releasedMessages,
        writtenPackets]
    | OTHER code =>
      simp [protoParseCb_onPacketReceived, ht, acquiredMessages, releasedMessages,
        writtenPackets]

theorem pool_messages_balanced_witness :
    acquiredMessages (protoParseCb_onPacketReceived sampleBridgeEnv sampleBridge
        (some (sampleConnect [1, 2]))).2 = 1 ∧
    releasedMessages (protoParseCb_onPacketReceived sampleBridgeEnv sampleBridge
        (some (sampleConnect [1, 2]))).2 = 1 ∧
    writtenPackets (protoParseCb_onPacketReceived sampleBridgeEnvExhausted sampleBridge
        (some (sampleFrame .PINGREQ))).2 = [] :=
  ⟨rfl,
    (pool_messages_balanced sampleBridgeEnv sampleBridge (some (sampleConnect [1, 2]))).1
      ▸ rfl,
    ((pool_messages_balanced sampleBridgeEnvExhausted sampleBridge
      (some (sampleFrame .PINGREQ))).2.2.2.1 rfl).1⟩

/-! ## C20 -/

/-- What makes the fields of a CONNECT frame unreadable: the client id cannot be read, a flag
cannot be read, or a field that the flags announce cannot be read. -/
theorem readConnectInfo_eq_none_iff (msgIn : cxa_mqtt_message_t) :
    readConnectInfo msgIn = none ↔
      (cxa_mqtt_message_connect_getClientId msgIn = none ∨
        cxa_mqtt_message_connect_hasUsername msgIn = none ∨
        (cxa_mqtt_message_connect_hasUsername msgIn = some true ∧
          cxa_mqtt_message_connect_getUsername msgIn = none) ∨
        cxa_mqtt_message_connect_hasPassword msgIn = none ∨
        (cxa_mqtt_message_connect_hasPassword msgIn = some true ∧
          cxa_mqtt_message_connect_getPassword msgIn = none)) := by
  unfold readConnectInfo
  cases cxa_mqtt_message_connect_getClientId msgIn with
  | none => simp
  | some c =>
    cases cxa_mqtt_message_connect_hasUsername msgIn with
    | none => simp
    | some hu =>
      cases cxa_mqtt_message_connect_hasPassword msgIn with
      | none => cases hu <;> cases cxa_mqtt_message_connect_getUsername msgIn <;> simp
      | some hp =>
        cases hu <;> cases hp <;> cases cxa_mqtt_message_connect_getUsername msgIn <;>
          cases cxa_mqtt_message_connect_getPassword msgIn <;> simp

/-- A field that the flags of a readable CONNECT frame do not announce is read as absent. -/
theorem readConnectInfo_absent (msgIn : cxa_mqtt_message_t) (clientId : List Nat)
    (username password : Option (List Nat))
    (hread : readConnectInfo msgIn = some (clientId, username, password)) :
    (cxa_mqtt_message_connect_hasUsername msgIn = some false → username = none) ∧
    (cxa_mqtt_message_connect_hasPassword msgIn = some false → password = none) := by
  unfold readConnectInfo at hread
  cases hc : cxa_mqtt_message_connect_getClientId msgIn with
  | none => simp [hc] at hread
  | some c =>
    cases hhu : cxa_mqtt_message_connect_hasUsername msgIn with
    | none => simp [hc, hhu] at hread
    | some hu =>
      cases hhp : cxa_mqtt_message_connect_hasPassword msgIn with
      | none =>
        cases hu <;> cases hgu : cxa_mqtt_message_connect_getUsername msgIn <;>
          simp [hc, hhu, hhp, hgu] at hread
      | some hp =>
        cases hu <;> cases hp <;> cases hgu : cxa_mqtt_message_connect_getUsername msgIn <;>
          cases hgp : cxa_mqtt_message_connect_getPassword msgIn <;>
          simp [hc, hhu, hhp, hgu, hgp] at hread <;> simp [← hread.2.1, ← hread.2.2]

/-- C20: the bridge tells an absent CONNECT field from a malformed one.  A readable frame whose
client id passes the length check reaches the set authentication callback, once, and a
username (resp. password) that the flags do not announce is passed as null with length 0.
When an accessor reports failure (client id unreadable, a flag unreadable, or an announced
field that cannot be read), and only then, the fields count as unreadable, and the CONNECT is
discarded: the callback is not invoked and nothing is written. -/
theorem absent_field_is_not_malformed (env : BridgeEnv) (nodeIn : cxa_mqtt_rpc_node_bridge_t)
    (msgIn : cxa_mqtt_message_t)
    (htype : cxa_mqtt_message_getType msgIn = .CONNECT) :
    (∀ cb clientId username password, nodeIn.cb_auth = some cb →
      readConnectInfo msgIn = some (clientId, username, password) →
      clientId.length < env.CXA_MQTT_RPC_NODE_BRIDGE_CLIENTID_MAXLEN_BYTES →
      authCalls (protoParseCb_onPacketReceived env nodeIn (some msgIn)).2 =
        [authArgsOf nodeIn clientId username password] ∧
      (cxa_mqtt_message_connect_hasUsername msgIn = some false →
        (authArgsOf nodeIn clientId username password).username = none ∧
        (authArgsOf nodeIn clientId username password).usernameLen_bytes = 0) ∧
      (cxa_mqtt_message_connect_hasPassword msgIn = some false →
        (authArgsOf nodeIn clientId username password).password = none ∧
        (authArgsOf nodeIn clientId username password).passwordLen_bytes = 0)) ∧
    ((cxa_mqtt_message_connect_getClientId msgIn = none ∨
        cxa_mqtt_message_connect_hasUsername msgIn = none ∨
        (cxa_mqtt_message_connect_hasUsername msgIn = some true ∧
          cxa_mqtt_message_connect_getUsername msgIn = none) ∨
        cxa_mqtt_message_connect_hasPassword msgIn = none ∨
        (cxa_mqtt_message_connect_hasPassword msgIn = some true ∧
          cxa_mqtt_message_connect_getPassword msgIn = none)) →
      protoParseCb_onPacketReceived env nodeIn (some msgIn) = (nodeIn, [])) ∧
    (∀ clientId, cxa_mqtt_message_connect_getClientId msgIn = some clientId →
      cxa_mqtt_message_connect_hasUsername msgIn = some false →
      cxa_mqtt_message_connect_hasPassword msgIn = some false →
      readConnectInfo msgIn = some (clientId, none, none)) := by
  refine ⟨?_, ?_, ?_⟩
  · intro cb clientId username password hcb hread hlen
    rw [connect_trace env nodeIn msgIn cb clientId username password htype hcb hread,
      if_neg (Nat.not_le_of_lt hlen)]
    obtain ⟨hu, hp⟩ := readConnectInfo_absent msgIn clientId username password hread
    refine ⟨?_, ?_, ?_⟩
    · simp only [authCalls, List.filterMap_cons]
      exact congrArg _ (authCalls_sendMessage_connack _ _ _ _)
    · intro h
      rw [hu h]
      exact ⟨rfl, rfl⟩
    · intro h
      rw [hp h]
      exact ⟨rfl, rfl⟩
  · intro hbad
    have hnone := (readConnectInfo_eq_none_iff msgIn).mpr hbad
    unfold protoParseCb_onPacketReceived
    simp only [htype]
    unfold handleMessage_connect
    rw [hnone]
    cases nodeIn.cb_auth <;> rfl
  · intro clientId hc hu hp
    unfold readConnectInfo
    rw [hc, hu, hp]
    rfl

theorem absent_field_is_not_malformed_witness :
    cxa_mqtt_message_getType sampleConnectAnonymous = .CONNECT ∧
    authCalls (protoParseCb_onPacketReceived sampleBridgeEnv sampleBridge
        (some sampleConnectAnonymous)).2 =
      [{ clientId := [1, 2], clientIdLen_bytes := 2, username := none, usernameLen_bytes := 0,
         password := none, passwordLen_bytes := 0, userVar := 3 }] ∧
    protoParseCb_onPacketReceived sampleBridgeEnv sampleBridge (some sampleConnectMalformed)
      = (sampleBridge, []) :=
  ⟨rfl,
    ((absent_field_is_not_malformed sampleBridgeEnv sampleBridge sampleConnectAnonymous
      rfl).1 _ [1, 2] none none rfl rfl (by decide)).1,
    (absent_field_is_not_malformed sampleBridgeEnv sampleBridge sampleConnectMalformed
      rfl).2.1 (Or.inr (Or.inr (Or.inl ⟨rfl, rfl⟩)))⟩

/-! ## C21 -/

/-- C21: relaying does not depend on the provisioning state.  For two states of a downstream
link that differ only in `isProvisioned`, `handleMessage_upstream` on the same message makes
the same calls (one write of that message, when it is non-null), and receiving the same
message that is not for "_linkMan" makes the same call into the subnode's downstream
handler. -/
theorem relaying_independent_of_provisioning (env : NrEnv) (nodes : NodeMem)
    (nr1 nr2 : cxa_rpc_nodeRemote_t) (subNode : Nat) (provisioned : Bool)
    (msgOpt : Option cxa_rpc_message_t) (msgIn : cxa_rpc_message_t)
    (hds : nr1.downstreamSubNode = some subNode)
    (hdiff : nr2 = { nr1 with isProvisioned := provisioned })
    (hdest : msgIn.destination ≠ some LINK_MANAGEMENT_DEST) :
    (handleMessage_upstream env nr1 msgOpt).2 = (handleMessage_upstream env nr2 msgOpt).2 ∧
    (∀ msg, msgOpt = some msg →
      (handleMessage_upstream env nr1 msgOpt).2
        = [NrEvent.writeMessage msg (env.writeMessage msg)]) ∧
    messageReceived_cb env nodes nr1 msgIn
      = some (nr1, cxa_rpc_messageHandler_handleDownstream nodes subNode msgIn) ∧
    messageReceived_cb env nodes nr2 msgIn
      = some (nr2, cxa_rpc_messageHandler_handleDownstream nodes subNode msgIn) := by
  have hds2 : nr2.downstreamSubNode = some subNode := by rw [hdiff]; exact hds
  have hup1 : isUpstream nr1 = false := by unfold isUpstream; rw [hds]; rfl
  have hup2 : isUpstream nr2 = false := by unfold isUpstream; rw [hds2]; rfl
  refine ⟨?_, ?_, ?_, ?_⟩
  · unfold handleMessage_upstream
    cases msgOpt with
    | none => rfl
    | some msg => simp [hup1, hup2]
  · intro msg hmsg
    unfold handleMessage_upstream
    rw [hmsg]
    simp [hup1]
  · rw [messageReceived_cb_downstream_eq env nodes nr1 subNode msgIn hds, if_neg hdest]
  · rw [messageReceived_cb_downstream_eq env nodes nr2 subNode msgIn hds2, if_neg hdest]

theorem relaying_independent_of_provisioning_witness :
    (sampleDownstreamLink.downstreamSubNode = some 5 ∧
      sampleApplicationMessage.destination ≠ some LINK_MANAGEMENT_DEST) ∧
    (handleMessage_upstream sampleEnv sampleDownstreamLink (some sampleApplicationMessage)).2 =
      (handleMessage_upstream sampleEnv { sampleDownstreamLink with isProvisioned := true }
        (some sampleApplicationMessage)).2 ∧
    messageReceived_cb sampleEnv sampleNodes { sampleDownstreamLink with isProvisioned := true }
        sampleApplicationMessage =
      some ({ sampleDownstreamLink with isProvisioned := true },
        cxa_rpc_messageHandler_handleDownstream sampleNodes 5 sampleApplicationMessage) :=
  ⟨⟨rfl, by decide⟩,
    (relaying_independent_of_provisioning sampleEnv sampleNodes sampleDownstreamLink _ 5 true
      (some sampleApplicationMessage) sampleApplicationMessage rfl rfl (by decide)).1,
    (relaying_independent_of_provisioning sampleEnv sampleNodes sampleDownstreamLink _ 5 true
      (some sampleApplicationMessage) sampleApplicationMessage rfl rfl (by decide)).2.2.2⟩

/-! ## Helper lemmas on update -/

/-- The trace of `update` in a call where no provisioning request is due. -/
theorem update_not_due (env : NrEnv) (nodes : NodeMem) (nrIn : cxa_rpc_nodeRemote_t)
    (h : ¬ provisioningDue env nrIn) :
    requestAttempts (cxa_rpc_nodeRemote_update env nodes nrIn).2 = 0 ∧
    writtenMessages (cxa_rpc_nodeRemote_update env nodes nrIn).2 = [] ∧
    parserPolls (cxa_rpc_nodeRemote_update env nodes nrIn).2 = 1 := by
  unfold provisioningDue at h
  unfold cxa_rpc_nodeRemote_update
  cases hup : isUpstream nrIn with
  | true => simp [requestAttempts, writtenMessages, parserPolls]
  | false =>
    cases hprov : nrIn.isProvisioned with
    | true => simp [requestAttempts, writtenMessages, parserPolls]
    | false =>
      have ht : (env.isElapsed_recurring_ms nrIn.td_provision PROVISION_TIMEOUT_MS).1 = false := by
        cases hc : (env.isElapsed_recurring_ms nrIn.td_provision PROVISION_TIMEOUT_MS).1 with
        | false => rfl
        | true => exact absurd ⟨hup, hprov, hc⟩ h
      simp [requestAttempts, writtenMessages, parserPolls, ht]

/-- The trace of `update` in a call where a provisioning request is due. -/
theorem update_due (env : NrEnv) (nodes : NodeMem) (nrIn : cxa_rpc_nodeRemote_t)
    (h : provisioningDue env nrIn) :
    requestAttempts (cxa_rpc_nodeRemote_update env nodes nrIn).2 = 1 ∧
    parserPolls (cxa_rpc_nodeRemote_update env nodes nrIn).2 =
      if requestGoesOut env nodes nrIn = true then 1 else 0 := by
  obtain ⟨hup, hprov, ht⟩ := h
  have hsub : ∃ subNode, nrIn.downstreamSubNode = some subNode := by
    unfold isUpstream at hup
    cases hs : nrIn.downstreamSubNode with
    | none => rw [hs] at hup; exact absurd hup (by decide)
    | some subNode => exact ⟨subNode, rfl⟩
  obtain ⟨subNode, hs⟩ := hsub
  unfold cxa_rpc_nodeRemote_update requestGoesOut
  simp only [hup, hprov, ht, hs, Bool.not_false, Bool.and_self, if_true]
  cases hfree : env.freeMessage with
  | false => simp [requestAttempts, parserPolls]
  | true =>
    cases hbuild : buildProvisionRequest env (cxa_rpc_node_getName nodes subNode) with
    | none => simp [requestAttempts, parserPolls]
    | some req =>
      cases hw : env.writeMessage req <;> simp [requestAttempts, parserPolls, hw]

/-! ## C22 -/

/-- C22: on a downstream link, a well-formed provisioning response naming the local root whose
return value is zero sets `isProvisioned` to false, whatever it was before, changes nothing
else and calls no listener; on the resulting link `update` attempts a provisioning request
whenever the timer reports elapsed, and writes it when it can be built. -/
theorem denied_response_unprovisions (env : NrEnv) (nodes : NodeMem)
    (nrIn : cxa_rpc_nodeRemote_t) (subNode : Nat) (msgIn : cxa_rpc_message_t)
    (hds : nrIn.downstreamSubNode = some subNode)
    (hresp : isProvisionResponse msgIn)
    (hname : carriedName msgIn = some (nodes subNode).name)
    (hzero : msgIn.returnValue = 0) :
    messageReceived_cb env nodes nrIn msgIn
      = some ({ nrIn with isProvisioned := false }, []) ∧
    ∀ env2, (env2.isElapsed_recurring_ms nrIn.td_provision PROVISION_TIMEOUT_MS).1 = true →
      requestAttempts
        (cxa_rpc_nodeRemote_update env2 nodes { nrIn with isProvisioned := false }).2 = 1 ∧
      ∀ req, env2.freeMessage = true →
        buildProvisionRequest env2 (cxa_rpc_node_getName nodes subNode) = some req →
        writtenMessages
          (cxa_rpc_nodeRemote_update env2 nodes { nrIn with isProvisioned := false }).2
          = [req] := by
  constructor
  · rw [messageReceived_cb_downstream_eq env nodes nrIn subNode msgIn hds, if_pos hresp.1,
      handleLinkManagement_downstream_eq nodes nrIn subNode msgIn hds,
      if_pos ⟨hresp.2.1, hresp.2.2.1, hname⟩, if_pos hzero]
  · intro env2 htimer
    have hup : isUpstream { nrIn with isProvisioned := false } = false := by
      unfold isUpstream
      simp [hds]
    refine ⟨(update_due env2 nodes _ ⟨hup, rfl, htimer⟩).1, ?_⟩
    intro req hfree hbuild
    exact update_writes_built_request env2 nodes _ subNode req hds rfl htimer hfree hbuild

theorem denied_response_unprovisions_witness :
    ({ sampleDownstreamLink with isProvisioned := true }.downstreamSubNode = some 5 ∧
      isProvisionResponse (sampleResponse "leafA" 0) ∧
      carriedName (sampleResponse "leafA" 0) = some (sampleNodes 5).name ∧
      (sampleResponse "leafA" 0).returnValue = 0) ∧
    messageReceived_cb sampleEnv sampleNodes { sampleDownstreamLink with isProvisioned := true }
        (sampleResponse "leafA" 0)
      = some ({ { sampleDownstreamLink with isProvisioned := true } with
                  isProvisioned := false }, []) :=
  ⟨⟨rfl, by decide, rfl, rfl⟩,
    (denied_response_unprovisions sampleEnv sampleNodes
      { sampleDownstreamLink with isProvisioned := true } 5 (sampleResponse "leafA" 0) rfl
      (by decide) rfl rfl).1⟩

/-! ## C23 -/

/-- C23: when `cxa_rpc_nodeRemote_init_downstream` returns false the nodes are untouched, but
the link has recorded the rejected node as its downstream subnode: it counts as a downstream
link, `update` (timer elapsed, constructors succeeding) writes a provisioning request carrying
the rejected node's name, and a received application message is handed to the rejected node's
downstream handler. -/
theorem failed_init_downstream_keeps_subnode (env : NrEnv) (nodes : NodeMem) (nrAddr : Nat)
    (nrIn : cxa_rpc_nodeRemote_t) (ioStreamIn timeBaseIn subNodeIn : Nat)
    (hfalse : (cxa_rpc_nodeRemote_init_downstream env nodes nrAddr nrIn ioStreamIn timeBaseIn
      subNodeIn).1 = false) :
    (cxa_rpc_nodeRemote_init_downstream env nodes nrAddr nrIn ioStreamIn timeBaseIn
      subNodeIn).2.2 = nodes ∧
    (cxa_rpc_nodeRemote_init_downstream env nodes nrAddr nrIn ioStreamIn timeBaseIn
      subNodeIn).2.1.downstreamSubNode = some subNodeIn ∧
    isUpstream (cxa_rpc_nodeRemote_init_downstream env nodes nrAddr nrIn ioStreamIn timeBaseIn
      subNodeIn).2.1 = false ∧
    (∀ env2, allSucceed env2 →
      (env2.isElapsed_recurring_ms (env.timeDiff_init timeBaseIn) PROVISION_TIMEOUT_MS).1 = true →
      writtenMessages (cxa_rpc_nodeRemote_update env2 nodes
        (cxa_rpc_nodeRemote_init_downstream env nodes nrAddr nrIn ioStreamIn timeBaseIn
          subNodeIn).2.1).2 = [provisionRequest (cxa_rpc_node_getName nodes subNodeIn)]) ∧
    (∀ env2 msgIn cb, msgIn.destination ≠ some LINK_MANAGEMENT_DEST →
      (nodes subNodeIn).super.cb_downstream = some cb →
      messageReceived_cb env2 nodes
        (cxa_rpc_nodeRemote_init_downstream env nodes nrAddr nrIn ioStreamIn timeBaseIn
          subNodeIn).2.1 msgIn =
        some ((cxa_rpc_nodeRemote_init_downstream env nodes nrAddr nrIn ioStreamIn timeBaseIn
          subNodeIn).2.1, [NrEvent.cb_downstream cb subNodeIn msgIn])) := by
  obtain ⟨_, hsub, hprov⟩ := init_downstream_link env nodes nrAddr nrIn ioStreamIn timeBaseIn
    subNodeIn
  have htd : (cxa_rpc_nodeRemote_init_downstream env nodes nrAddr nrIn ioStreamIn timeBaseIn
      subNodeIn).2.1.td_provision = env.timeDiff_init timeBaseIn := by
    unfold cxa_rpc_nodeRemote_init_downstream
    dsimp only
    split
    · rfl
    · split <;> rfl
  refine ⟨?_, hsub, ?_, ?_, ?_⟩
  · unfold cxa_rpc_nodeRemote_init_downstream at hfalse ⊢
    dsimp only at hfalse ⊢
    split
    · rfl
    · split
      · rfl
      · rename_i h1 h2
        rw [if_neg h1, if_neg h2] at hfalse
        exact Bool.noConfusion hfalse
  · unfold isUpstream
    rw [hsub]
    rfl
  · intro env2 hok htimer
    apply update_writes_built_request env2 nodes _ subNodeIn _ hsub hprov
    · rw [htd]
      exact htimer
    · exact hok.1
    · exact buildProvisionRequest_ok env2 _ hok
  · intro env2 msgIn cb hdest hcb
    rw [messageReceived_cb_downstream_eq env2 nodes _ subNodeIn msgIn hsub, if_neg hdest]
    unfold cxa_rpc_messageHandler_handleDownstream
    rw [hcb]

theorem failed_init_downstream_keeps_subnode_witness :
    (cxa_rpc_nodeRemote_init_downstream sampleEnv sampleGlobalRoot 100 sampleRawLink 1 2 5).1
        = false ∧
    (cxa_rpc_nodeRemote_init_downstream sampleEnv sampleGlobalRoot 100 sampleRawLink 1 2
        5).2.1.downstreamSubNode = some 5 ∧
    writtenMessages (cxa_rpc_nodeRemote_update sampleEnv sampleGlobalRoot
        (cxa_rpc_nodeRemote_init_downstream sampleEnv sampleGlobalRoot 100 sampleRawLink 1 2
          5).2.1).2 = [provisionRequest (cxa_rpc_node_getName sampleGlobalRoot 5)] :=
  ⟨rfl,
    (failed_init_downstream_keeps_subnode sampleEnv sampleGlobalRoot 100 sampleRawLink 1 2 5
      rfl).2.1,
    (failed_init_downstream_keeps_subnode sampleEnv sampleGlobalRoot 100 sampleRawLink 1 2 5
      rfl).2.2.2.1 sampleEnv ⟨rfl, rfl, rfl, rfl, rfl, rfl, rfl, fun _ => rfl⟩ rfl⟩

/-! ## C24 -/

/-- C24: `cxa_rpc_nodeRemote_update` polls the protocol parser exactly once per call, except
when a provisioning request was due in that call and could not be built or written: then it
returns without polling the parser. -/
theorem update_polls_parser_unless_request_fails (env : NrEnv) (nodes : NodeMem)
    (nrIn : cxa_rpc_nodeRemote_t) :
    parserPolls (cxa_rpc_nodeRemote_update env nodes nrIn).2 =
      (if provisioningDue env nrIn ∧ requestGoesOut env nodes nrIn = false then 0 else 1) ∧
    (provisioningDue env nrIn → requestGoesOut env nodes nrIn = false →
      NrEvent.protocolParser_update ∉ (cxa_rpc_nodeRemote_update env nodes nrIn).2) := by
  have hmem : ∀ trace : List NrEvent, parserPolls trace = 0 →
      NrEvent.protocolParser_update ∉ trace := by
    intro trace h hin
    unfold parserPolls at h
    rw [List.countP_eq_zero] at h
    exact absurd rfl (h _ hin)
  by_cases hdue : provisioningDue env nrIn
  · have h := (update_due env nodes nrIn hdue).2
    cases hgo : requestGoesOut env nodes nrIn with
    | true =>
      rw [hgo] at h
      simp only [if_true] at h
      refine ⟨?_, fun _ hf => Bool.noConfusion hf⟩
      rw [h]
      simp
    | false =>
      rw [hgo] at h
      simp only [Bool.false_eq_true, if_false] at h
      refine ⟨?_, fun _ _ => hmem _ h⟩
      rw [h]
      simp [hdue]
  · have h := (update_not_due env nodes nrIn hdue).2.2
    refine ⟨?_, fun hd => absurd hd hdue⟩
    rw [h]
    simp [hdue]

theorem update_polls_parser_unless_request_fails_witness :
    parserPolls (cxa_rpc_nodeRemote_update sampleEnv sampleNodes sampleDownstreamLink).2 = 1 ∧
    NrEvent.protocolParser_update ∉
      (cxa_rpc_nodeRemote_update sampleEnvWriteFails sampleNodes sampleDownstreamLink).2 :=
  ⟨(update_polls_parser_unless_request_fails sampleEnv sampleNodes sampleDownstreamLink).1.trans
      (by decide),
    (update_polls_parser_unless_request_fails sampleEnvWriteFails sampleNodes
      sampleDownstreamLink).2 (by decide) (by decide)⟩

/-! ## Helper lemmas on the upstream link-management handler -/

theorem handlerCalls_append (t1 t2 : List NrEvent) :
    handlerCalls (t1 ++ t2) = handlerCalls t1 ++ handlerCalls t2 := by
  unfold handlerCalls
  exact List.filter_append _ _

/-- What `handleLinkManagement_upstream` does, case by case. -/
theorem handleLinkManagement_upstream_eq (env : NrEnv) (nrIn : cxa_rpc_nodeRemote_t)
    (msgIn : cxa_rpc_message_t) :
    handleLinkManagement_upstream env nrIn msgIn =
      (nrIn,
        if msgIn.type = .REQUEST ∧ msgIn.method = some LINK_MANAGEMENT_METHOD_PROVISON then
          match carriedName msgIn with
          | none => []
          | some name =>
            if name.length = 0 then []
            else if env.freeMessage = false then
              [.getFreeMessage_empty false, .decrementMessageRefCount false]
            else
              match buildProvisionResponse env msgIn name with
              | none => [.getFreeMessage_empty true, .decrementMessageRefCount true]
              | some respMsg =>
                if env.writeMessage respMsg = false then
                  [.getFreeMessage_empty true, .writeMessage respMsg false,
                   .decrementMessageRefCount true]
                else
                  [.getFreeMessage_empty true, .writeMessage respMsg true,
                   .decrementMessageRefCount true] ++ notifyLinkListeners nrIn
        else []) := by
  unfold handleLinkManagement_upstream carriedName cxa_rpc_message_getType
    cxa_rpc_message_getMethod cxa_rpc_message_getParams cxa_linkedField_get_pointerToIndex
    cxa_stringUtils_equals
  cases hm : msgIn.method with
  | none => simp
  | some method =>
    by_cases ht : msgIn.type = .REQUEST
    · by_cases hmm : method = LINK_MANAGEMENT_METHOD_PROVISON
      · simp only [ht, hmm, decide_True, Bool.and_self, if_true, and_self]
        cases hp : msgIn.params with
        | none => rfl
        | some params =>
          simp only
          cases hn : params[0]? with
          | none => rfl
          | some name =>
            simp only
            by_cases hl : name.length = 0
            · simp [hl]
            · simp only [hl, if_false]
              cases hf : env.freeMessage with
              | false => simp
              | true =>
                simp only [Bool.not_true, Bool.false_eq_true, if_false]
                cases hb : buildProvisionResponse env msgIn name with
                | none => rfl
                | some respMsg =>
                  simp only
                  cases hw : env.writeMessage respMsg <;> simp
      · simp [ht, hmm]
    · simp [ht]

theorem handlerCalls_handleLinkManagement_upstream (env : NrEnv)
    (nrIn : cxa_rpc_nodeRemote_t) (msgIn : cxa_rpc_message_t) :
    handlerCalls (handleLinkManagement_upstream env nrIn msgIn).2 = [] := by
  rw [handleLinkManagement_upstream_eq]
  dsimp only
  split
  · split
    · rfl
    · split
      · rfl
      · split
        · rfl
        · split
          · rfl
          · split
            · rfl
            · rw [handlerCalls_append, handlerCalls_notifyLinkListeners]
              rfl
  · rfl

/-! ## C25 -/

/-- C25: a received message whose destination equals "_linkMan" is handled by the link itself,
on an upstream link as on a downstream link and whatever else the message holds: the call
returns, and its trace holds no call of the parent's upstream handler and none of the subnode's
downstream handler. -/
theorem link_management_never_enters_tree (env : NrEnv) (nodes : NodeMem)
    (nrIn : cxa_rpc_nodeRemote_t) (msgIn : cxa_rpc_message_t)
    (hdest : msgIn.destination = some LINK_MANAGEMENT_DEST) :
    ∃ nr trace, messageReceived_cb env nodes nrIn msgIn = some (nr, trace) ∧
      handlerCalls trace = [] ∧
      (∀ cb handler msg, NrEvent.cb_upstream cb handler msg ∉ trace) ∧
      (∀ cb handler msg, NrEvent.cb_downstream cb handler msg ∉ trace) := by
  have hno : ∀ trace : List NrEvent, handlerCalls trace = [] →
      (∀ cb handler msg, NrEvent.cb_upstream cb handler msg ∉ trace) ∧
      (∀ cb handler msg, NrEvent.cb_downstream cb handler msg ∉ trace) := by
    intro trace h
    unfold handlerCalls at h
    rw [List.filter_eq_nil_iff] at h
    exact ⟨fun cb handler msg hin => h _ hin rfl, fun cb handler msg hin => h _ hin rfl⟩
  cases hsub : nrIn.downstreamSubNode with
  | none =>
    have hrecv : messageReceived_cb env nodes nrIn msgIn
        = some (handleLinkManagement_upstream env nrIn msgIn) := by
      unfold messageReceived_cb isUpstream cxa_rpc_message_getDestination cxa_stringUtils_equals
      rw [hsub, hdest]
      simp
    have hcalls := handlerCalls_handleLinkManagement_upstream env nrIn msgIn
    exact ⟨_, _, hrecv, hcalls, hno _ hcalls⟩
  | some subNode =>
    rw [messageReceived_cb_downstream_eq env nodes nrIn subNode msgIn hsub, if_pos hdest,
      handleLinkManagement_downstream_eq nodes nrIn subNode msgIn hsub]
    split
    · split
      · exact ⟨_, _, rfl, rfl, hno _ rfl⟩
      · exact ⟨_, _, rfl, handlerCalls_notifyLinkListeners nrIn,
          hno _ (handlerCalls_notifyLinkListeners nrIn)⟩
    · exact ⟨_, _, rfl, rfl, hno _ rfl⟩

theorem link_management_never_enters_tree_witness :
    (sampleRequest .REQUEST).destination = some LINK_MANAGEMENT_DEST ∧
    ∃ nr trace,
      messageReceived_cb sampleEnv sampleNodes sampleUpstreamLinkWithParent
        (sampleRequest .REQUEST) = some (nr, trace) ∧
      handlerCalls trace = [] ∧
      (∀ cb handler msg, NrEvent.cb_upstream cb handler msg ∉ trace) ∧
      (∀ cb handler msg, NrEvent.cb_downstream cb handler msg ∉ trace) :=
  ⟨rfl, link_management_never_enters_tree sampleEnv sampleNodes sampleUpstreamLinkWithParent
    (sampleRequest .REQUEST) rfl⟩

/-! ## C27 -/

/-- C27: an upstream link that receives a link-management message writes a provisioning
response and then calls its link listeners exactly when the message is a request with method
"_getName" whose first parameter is a non-empty name and the response can be built and
written.  In every other case it calls no listener and no write succeeds; it hands nothing to
the parser's write unless the failure is the write itself, and then only the one response. -/
theorem upstream_answers_provision_request (env : NrEnv) (nodes : NodeMem)
    (nrIn : cxa_rpc_nodeRemote_t) (msgIn : cxa_rpc_message_t)
    (hus : nrIn.downstreamSubNode = none)
    (hdest : msgIn.destination = some LINK_MANAGEMENT_DEST) :
    ∃ trace, messageReceived_cb env nodes nrIn msgIn = some (nrIn, trace) ∧
      (∀ respMsg, answeredRequest env msgIn = some respMsg →
        trace = [NrEvent.getFreeMessage_empty true, NrEvent.writeMessage respMsg true,
                 NrEvent.decrementMessageRefCount true] ++ notifyLinkListeners nrIn) ∧
      (answeredRequest env msgIn = none →
        listenerCalls trace = [] ∧
        (∀ msg, NrEvent.writeMessage msg true ∉ trace) ∧
        (writtenMessages trace = [] ∨
          ∃ respMsg, env.writeMessage respMsg = false ∧
            trace = [NrEvent.getFreeMessage_empty true, NrEvent.writeMessage respMsg false,
                     NrEvent.decrementMessageRefCount true])) := by
  have hrecv : messageReceived_cb env nodes nrIn msgIn
      = some (handleLinkManagement_upstream env nrIn msgIn) := by
    unfold messageReceived_cb isUpstream cxa_rpc_message_getDestination cxa_stringUtils_equals
    rw [hus, hdest]
    simp
  rw [hrecv, handleLinkManagement_upstream_eq]
  refine ⟨_, rfl, ?_, ?_⟩
  · intro respMsg hans
    unfold answeredRequest at hans
    split at hans
    · rename_i hreq
      rw [if_pos hreq]
      split at hans
      · exact Option.noConfusion hans
      · rename_i name hname
        split at hans
        · exact Option.noConfusion hans
        · rename_i hcond
          have hl : ¬ name.length = 0 := fun h => hcond (Or.inl h)
          have hf : ¬ env.freeMessage = false := fun h => hcond (Or.inr h)
          rw [if_neg hl, if_neg hf]
          split at hans
          · exact Option.noConfusion hans
          · rename_i r hb
            split at hans
            · rename_i hw
              have := Option.some.inj hans
              subst this
              have hw2 : ¬ env.writeMessage r = false := by rw [hw]; decide
              rw [if_neg hw2]
            · exact Option.noConfusion hans
    · exact Option.noConfusion hans
  · intro hans
    unfold answeredRequest at hans
    split
    · rename_i hreq
      rw [if_pos hreq] at hans
      split
      · rename_i hname
        exact ⟨rfl, fun _ => List.not_mem_nil _, Or.inl rfl⟩
      · rename_i name hname
        rw [hname] at hans
        simp only at hans
        split
        · exact ⟨rfl, fun _ => List.not_mem_nil _, Or.inl rfl⟩
        · rename_i hl
          split
          · refine ⟨rfl, ?_, Or.inl rfl⟩
            intro msg h
            simp at h
          · rename_i hf
            have hcond : ¬ (name.length = 0 ∨ env.freeMessage = false) := by
              intro h
              rcases h with h | h
              · exact hl h
              · exact hf h
            rw [if_neg hcond] at hans
            split
            · refine ⟨rfl, ?_, Or.inl rfl⟩
              intro msg h
              simp at h
            · rename_i r hb
              rw [hb] at hans
              simp only at hans
              split
              · rename_i hw
                refine ⟨rfl, ?_, Or.inr ⟨r, hw, rfl⟩⟩
                intro msg h
                simp at h
              · rename_i hw
                have hw2 : env.writeMessage r = true := by
                  cases h : env.writeMessage r with
                  | false => exact absurd h hw
                  | true => rfl
                rw [if_pos hw2] at hans
                exact Option.noConfusion hans
    · exact ⟨rfl, fun _ => List.not_mem_nil _, Or.inl rfl⟩

theorem upstream_answers_provision_request_witness :
    (sampleUpstreamLink.downstreamSubNode = none ∧
      (sampleRequest .REQUEST).destination = some LINK_MANAGEMENT_DEST ∧
      answeredRequest sampleEnv (sampleRequest .REQUEST)
        = some (provisionResponse 1234 1 "leafA")) ∧
    ∃ trace, messageReceived_cb sampleEnv sampleNodes sampleUpstreamLink
        (sampleRequest .REQUEST) = some (sampleUpstreamLink, trace) ∧
      trace = [NrEvent.getFreeMessage_empty true,
               NrEvent.writeMessage (provisionResponse 1234 1 "leafA") true,
               NrEvent.decrementMessageRefCount true] ++
              notifyLinkListeners sampleUpstreamLink :=
  ⟨⟨rfl, rfl, by decide⟩,
    (upstream_answers_provision_request sampleEnv sampleNodes sampleUpstreamLink
      (sampleRequest .REQUEST) rfl rfl).elim
      fun trace h => ⟨trace, h.1, h.2.1 _ (by decide)⟩⟩

/-! ## C26 -/

/-- C26: after `cxa_mqtt_rpc_node_bridge_setAuthenticationCb` with a null callback the bridge's
callback is null, and every CONNECT frame is then discarded: the trace is empty (no CONNACK of
any return code is written, no pool message is acquired, no callback is invoked) and the
bridge's state is unchanged. -/
theorem connect_discarded_without_callback (env : BridgeEnv)
    (nodeIn : cxa_mqtt_rpc_node_bridge_t) (userVarIn : Nat) (msgIn : cxa_mqtt_message_t)
    (htype : cxa_mqtt_message_getType msgIn = .CONNECT) :
    (cxa_mqtt_rpc_node_bridge_setAuthenticationCb nodeIn none userVarIn).cb_auth = none ∧
    protoParseCb_onPacketReceived env
        (cxa_mqtt_rpc_node_bridge_setAuthenticationCb nodeIn none userVarIn) (some msgIn)
      = (cxa_mqtt_rpc_node_bridge_setAuthenticationCb nodeIn none userVarIn, []) ∧
    writtenPackets (protoParseCb_onPacketReceived env
        (cxa_mqtt_rpc_node_bridge_setAuthenticationCb nodeIn none userVarIn) (some msgIn)).2
      = [] ∧
    acquiredMessages (protoParseCb_onPacketReceived env
        (cxa_mqtt_rpc_node_bridge_setAuthenticationCb nodeIn none userVarIn) (some msgIn)).2
      = 0 := by
  have h : protoParseCb_onPacketReceived env
      (cxa_mqtt_rpc_node_bridge_setAuthenticationCb nodeIn none userVarIn) (some msgIn)
      = (cxa_mqtt_rpc_node_bridge_setAuthenticationCb nodeIn none userVarIn, []) := by
    unfold protoParseCb_onPacketReceived
    simp only [htype]
    rfl
  rw [h]
  exact ⟨rfl, rfl, rfl, rfl⟩

theorem connect_discarded_without_callback_witness :
    cxa_mqtt_message_getType (sampleConnect [1, 2]) = .CONNECT ∧
    protoParseCb_onPacketReceived sampleBridgeEnv
        (cxa_mqtt_rpc_node_bridge_setAuthenticationCb sampleBridge none 0)
        (some (sampleConnect [1, 2]))
      = (cxa_mqtt_rpc_node_bridge_setAuthenticationCb sampleBridge none 0, []) :=
  ⟨rfl,
    (connect_discarded_without_callback sampleBridgeEnv sampleBridge 0 (sampleConnect [1, 2])
      rfl).2.1⟩

/-! ## C28 -/

/-- The reservation loop, when it returns a slot, returns the lowest unused one and marks
it used. -/
theorem reserveClientLoop_lowest (ini : Nat → Nat) (slots : List clientEntry_t) (idx : Nat)
    (r : Nat × List clientEntry_t) (h : reserveClientLoop ini slots idx = some r) :
    ∃ i e, r.1 = idx + i ∧ slots[i]? = some e ∧ e.isUsed = false ∧
      (∀ j, j < i → ∃ e1, slots[j]? = some e1 ∧ e1.isUsed = true) ∧
      r.2 = slots.set i { isUsed := true, client := ini e.client } := by
  induction slots generalizing idx r with
  | nil => simp [reserveClientLoop] at h
  | cons e rest ih =>
    unfold reserveClientLoop at h
    cases hu : e.isUsed with
    | false =>
      simp only [hu, Bool.not_false, if_true, Option.some.injEq] at h
      subst h
      exact ⟨0, e, rfl, List.getElem?_cons_zero, hu,
        fun j hj => absurd hj (Nat.not_lt_zero _), rfl⟩
    | true =>
      cases hr : reserveClientLoop ini rest (idx + 1) with
      | none => simp [hu, hr] at h
      | some r1 =>
        simp only [hu, hr, Bool.not_true, Bool.false_eq_true, if_false,
          Option.some.injEq] at h
        subst h
        obtain ⟨i, e1, h1, h2, h3, h4, h5⟩ := ih (idx + 1) r1 hr
        refine ⟨i + 1, e1, ?_, ?_, h3, ?_, ?_⟩
        · show r1.1 = idx + (i + 1)
          omega
        · simpa using h2
        · intro j hj
          cases j with
          | zero => exact ⟨e, List.getElem?_cons_zero, hu⟩
          | succ j => simpa using h4 j (by omega)
        · show e :: r1.2 = _
          rw [h5]
          rfl

/-- Freeing a pointer leaves every slot that the pointer does not stand for as it was. -/
theorem freeClientLoop_other (clientIn : Option Nat) (slots : List clientEntry_t) (idx p : Nat)
    (hne : some (idx + p) ≠ clientIn) :
    (freeClientLoop clientIn slots idx)[p]? = slots[p]? := by
  induction slots generalizing idx p with
  | nil => rfl
  | cons e rest ih =>
    unfold freeClientLoop
    cases p with
    | zero =>
      have h0 : ¬ some idx = clientIn := hne
      rw [if_neg h0]
      simp
    | succ p =>
      split
      · rfl
      · have := ih (idx + 1) p (by rwa [show idx + 1 + p = idx + (p + 1) by omega])
        simpa using this

theorem clientIsUsed_congr (f f1 : NetworkFactory) (h : f1.clients = f.clients) (p : Nat) :
    clientIsUsed f1 p = clientIsUsed f p := by
  unfold clientIsUsed clientSlots
  rw [h]

theorem clientIsUsed_lt (f : NetworkFactory) (p : Nat) (h : clientIsUsed f p = true) :
    p < (clientSlots f).length := by
  unfold clientIsUsed at h
  by_contra hge
  rw [List.getElem?_eq_none (Nat.le_of_not_lt hge)] at h
  exact Bool.noConfusion h

theorem reserveTcpServer_frame (sini : Nat → Nat) (f f1 : NetworkFactory) (r : Option Nat)
    (h : cxa_network_factory_reserveTcpServer sini f = some (r, f1)) :
    f1.clients = f.clients ∧ f1.clients_raw = f.clients_raw ∧
      f1.servers_raw = f.servers_raw ∧ f1.isInit = f.isInit := by
  unfold cxa_network_factory_reserveTcpServer at h
  split at h
  · exact Option.noConfusion h
  · split at h
    · split at h
      · simp only [Option.some.injEq, Prod.mk.injEq] at h
        obtain ⟨_, h2⟩ := h
        subst h2
        exact ⟨rfl, rfl, rfl, rfl⟩
      · simp only [Option.some.injEq, Prod.mk.injEq] at h
        obtain ⟨_, h2⟩ := h
        subst h2
        exact ⟨rfl, rfl, rfl, rfl⟩
    · exact Option.noConfusion h

theorem freeTcpServer_frame (f f1 : NetworkFactory) (serverIn : Option Nat)
    (h : cxa_network_factory_freeTcpServer f serverIn = some f1) :
    f1.clients = f.clients ∧ f1.clients_raw = f.clients_raw ∧
      f1.servers_raw = f.servers_raw ∧ f1.isInit = f.isInit := by
  unfold cxa_network_factory_freeTcpServer at h
  split at h
  · exact Option.noConfusion h
  · split at h
    · simp only [Option.some.injEq] at h
      subst h
      exact ⟨rfl, rfl, rfl, rfl⟩
    · exact Option.noConfusion h

theorem reserveTcpClient_frame (ini : Nat → Nat) (f f1 : NetworkFactory) (r : Option Nat)
    (h : cxa_network_factory_reserveTcpClient ini f = some (r, f1)) :
    f1.servers = f.servers ∧ f1.servers_raw = f.servers_raw := by
  unfold cxa_network_factory_reserveTcpClient at h
  split at h
  · exact Option.noConfusion h
  · split at h
    · split at h
      · simp only [Option.some.injEq, Prod.mk.injEq] at h
        obtain ⟨_, h2⟩ := h
        subst h2
        exact ⟨rfl, rfl⟩
      · simp only [Option.some.injEq, Prod.mk.injEq] at h
        obtain ⟨_, h2⟩ := h
        subst h2
        exact ⟨rfl, rfl⟩
    · exact Option.noConfusion h

theorem freeTcpClient_frame (f f1 : NetworkFactory) (clientIn : Option Nat)
    (h : cxa_network_factory_freeTcpClient f clientIn = some f1) :
    f1.servers = f.servers ∧ f1.servers_raw = f.servers_raw := by
  unfold cxa_network_factory_freeTcpClient at h
  split at h
  · exact Option.noConfusion h
  · split at h
    · simp only [Option.some.injEq] at h
      subst h
      exact ⟨rfl, rfl⟩
    · exact Option.noConfusion h

/-- A successful reservation on a ready pool: the slot returned was unused, every slot below
it was used, it is used afterwards and every other slot is as before. -/
theorem reserve_lowest (ini : Nat → Nat) (f f1 : NetworkFactory) (p : Nat)
    (h : clientPoolReady f)
    (hres : cxa_network_factory_reserveTcpClient ini f = some (some p, f1)) :
    clientIsUsed f p = false ∧ (∀ j, j < p → clientIsUsed f j = true) ∧
      clientIsUsed f1 p = true ∧ (∀ q, q ≠ p → clientIsUsed f1 q = clientIsUsed f q) := by
  obtain ⟨r, f2, hres2, _, _, _, hcase⟩ := reserve_of_ready ini f h
  rw [hres] at hres2
  simp only [Option.some.injEq, Prod.mk.injEq] at hres2
  obtain ⟨hr, hf⟩ := hres2
  subst hr
  subst hf
  rcases hcase with ⟨_, hr, _⟩ | ⟨x, hx, hr, hslots⟩
  · exact Option.noConfusion hr
  · obtain ⟨i, e, h1, h2, h3, h4, h5⟩ := reserveClientLoop_lowest ini _ 0 x hx
    have hp : p = i := by
      have := Option.some.inj hr
      omega
    subst hp
    have hlt : p < (clientSlots f).length := by
      by_contra hge
      rw [List.getElem?_eq_none (Nat.le_of_not_lt hge)] at h2
      exact Option.noConfusion h2
    refine ⟨?_, ?_, ?_, ?_⟩
    · unfold clientIsUsed
      rw [h2]
      exact h3
    · intro j hj
      obtain ⟨e1, he1, hu1⟩ := h4 j hj
      unfold clientIsUsed
      rw [he1]
      exact hu1
    · unfold clientIsUsed
      rw [hslots, h5, List.getElem?_set_self hlt]
    · intro q hq
      unfold clientIsUsed
      rw [hslots, h5, List.getElem?_set_ne (Ne.symm hq)]

/-- Freeing a pointer on a ready pool leaves the used flag of every other client as it was. -/
theorem free_other (f f1 : NetworkFactory) (clientIn : Option Nat) (p : Nat)
    (h : clientPoolReady f)
    (hres : cxa_network_factory_freeTcpClient f clientIn = some f1)
    (hne : some p ≠ clientIn) :
    clientIsUsed f1 p = clientIsUsed f p := by
  obtain ⟨f2, hres2, _, _, _, hslots⟩ := free_of_ready f clientIn h
  rw [hres] at hres2
  have hf := Option.some.inj hres2
  subst hf
  unfold clientIsUsed
  rw [hslots, freeClientLoop_other clientIn _ 0 p (by rwa [Nat.zero_add])]

/-- One tracked call keeps the pool ready, the held clients pairwise distinct and their slots
marked used. -/
theorem trackedCall_step (ini sini : Nat → Nat) (f f1 : NetworkFactory)
    (held held1 : List Nat) (call : FactoryCall)
    (h : clientPoolReady f) (hnd : held.Nodup) (hused : ∀ p ∈ held, clientIsUsed f p = true)
    (hcall : trackedCall ini sini f held call = some (f1, held1)) :
    factoryCall ini sini f call = some f1 ∧ clientPoolReady f1 ∧ held1.Nodup ∧
      (∀ p ∈ held1, clientIsUsed f1 p = true) ∧ f1.clients_raw = f.clients_raw ∧
      f1.servers_raw = f.servers_raw := by
  have key : factoryCall ini sini f call = some f1 → held1.Nodup →
      (∀ p ∈ held1, clientIsUsed f1 p = true) → f1.servers_raw = f.servers_raw →
      factoryCall ini sini f call = some f1 ∧ clientPoolReady f1 ∧ held1.Nodup ∧
      (∀ p ∈ held1, clientIsUsed f1 p = true) ∧ f1.clients_raw = f.clients_raw ∧
      f1.servers_raw = f.servers_raw := by
    intro hfc h1 h2 h3
    obtain ⟨hr, hraw⟩ := ready_of_factoryCall ini sini f f1 call h hfc
    exact ⟨hfc, hr, h1, h2, hraw, h3⟩
  cases call with
  | reserveTcpClient =>
    simp only [trackedCall] at hcall
    cases hres : cxa_network_factory_reserveTcpClient ini f with
    | none =>
      rw [hres] at hcall
      exact Option.noConfusion hcall
    | some r =>
      obtain ⟨r1, f2⟩ := r
      rw [hres] at hcall
      simp only [Option.some.injEq, Prod.mk.injEq] at hcall
      obtain ⟨hf, hh⟩ := hcall
      subst hf
      have hfc : factoryCall ini sini f .reserveTcpClient = some f2 := by
        simp only [factoryCall, hres, Option.map_some']
      have hsr := (reserveTcpClient_frame ini f f2 r1 hres).2
      cases r1 with
      | none =>
        obtain ⟨r0, f3, hres3, _, _, _, hcase⟩ := reserve_of_ready ini f h
        rw [hres] at hres3
        simp only [Option.some.injEq, Prod.mk.injEq] at hres3
        obtain ⟨hr0, hf3⟩ := hres3
        subst hr0
        subst hf3
        have hsame : f2 = f := by
          rcases hcase with ⟨_, _, hf⟩ | ⟨x, _, hr, _⟩
          · exact hf
          · exact Option.noConfusion hr
        subst hh
        subst hsame
        exact key hfc hnd hused hsr
      | some p =>
        obtain ⟨hp0, _, hp1, hother⟩ := reserve_lowest ini f f2 p h hres
        have hnot : p ∉ held := by
          intro hmem
          rw [hused p hmem] at hp0
          exact Bool.noConfusion hp0
        subst hh
        refine key hfc (List.nodup_cons.mpr ⟨hnot, hnd⟩) ?_ hsr
        intro q hq
        rcases List.mem_cons.mp hq with hq | hq
        · rw [hq]
          exact hp1
        · have hne : q ≠ p := by
            intro heq
            rw [heq] at hq
            exact hnot hq
          rw [hother q hne]
          exact hused q hq
  | freeTcpClient clientIn =>
    simp only [trackedCall] at hcall
    cases hres : cxa_network_factory_freeTcpClient f clientIn with
    | none =>
      rw [hres] at hcall
      exact Option.noConfusion hcall
    | some f2 =>
      rw [hres] at hcall
      simp only [Option.some.injEq, Prod.mk.injEq] at hcall
      obtain ⟨hf, hh⟩ := hcall
      subst hf
      subst hh
      refine key hres (hnd.filter _) ?_ (freeTcpClient_frame f f2 clientIn hres).2
      intro q hq
      obtain ⟨hq1, hq2⟩ := List.mem_filter.mp hq
      rw [free_other f f2 clientIn q h hres (of_decide_eq_true hq2)]
      exact hused q hq1
  | reserveTcpServer =>
    simp only [trackedCall] at hcall
    cases hres : cxa_network_factory_reserveTcpServer sini f with
    | none =>
      rw [hres] at hcall
      exact Option.noConfusion hcall
    | some r =>
      obtain ⟨r1, f2⟩ := r
      rw [hres] at hcall
      simp only [Option.some.injEq, Prod.mk.injEq] at hcall
      obtain ⟨hf, hh⟩ := hcall
      subst hf
      subst hh
      obtain ⟨hc, _, hsr, _⟩ := reserveTcpServer_frame sini f f2 r1 hres
      have hfc : factoryCall ini sini f .reserveTcpServer = some f2 := by
        simp only [factoryCall, hres, Option.map_some']
      refine key hfc hnd ?_ hsr
      intro q hq
      rw [clientIsUsed_congr f f2 hc]
      exact hused q hq
  | freeTcpServer serverIn =>
    simp only [trackedCall] at hcall
    cases hres : cxa_network_factory_freeTcpServer f serverIn with
    | none =>
      rw [hres] at hcall
      exact Option.noConfusion hcall
    | some f2 =>
      rw [hres] at hcall
      simp only [Option.some.injEq, Prod.mk.injEq] at hcall
      obtain ⟨hf, hh⟩ := hcall
      subst hf
      subst hh
      obtain ⟨hc, _, hsr, _⟩ := freeTcpServer_frame f f2 serverIn hres
      refine key hres hnd ?_ hsr
      intro q hq
      rw [clientIsUsed_congr f f2 hc]
      exact hused q hq

theorem trackedCalls_steps (ini sini : Nat → Nat) (calls : List FactoryCall)
    (f f1 : NetworkFactory) (held held1 : List Nat)
    (h : clientPoolReady f) (hnd : held.Nodup) (hused : ∀ p ∈ held, clientIsUsed f p = true)
    (hcalls : trackedCalls ini sini f held calls = some (f1, held1)) :
    factoryCalls ini sini f calls = some f1 ∧ clientPoolReady f1 ∧ held1.Nodup ∧
      (∀ p ∈ held1, clientIsUsed f1 p = true) ∧ f1.clients_raw = f.clients_raw ∧
      f1.servers_raw = f.servers_raw := by
  induction calls generalizing f held with
  | nil =>
    simp only [trackedCalls, Option.some.injEq, Prod.mk.injEq] at hcalls
    obtain ⟨hf, hh⟩ := hcalls
    subst hf
    subst hh
    exact ⟨rfl, h, hnd, hused, rfl, rfl⟩
  | cons call rest ih =>
    simp only [trackedCalls] at hcalls
    cases hc : trackedCall ini sini f held call with
    | none =>
      rw [hc] at hcalls
      exact Option.noConfusion hcalls
    | some st =>
      obtain ⟨f2, held2⟩ := st
      rw [hc] at hcalls
      obtain ⟨a1, a2, a3, a4, a5, a6⟩ := trackedCall_step ini sini f f2 held held2 call h hnd hused hc
      obtain ⟨b1, b2, b3, b4, b5, b6⟩ := ih f2 held2 a2 a3 a4 hcalls
      refine ⟨?_, b2, b3, b4, b5.trans a5, b6.trans a6⟩
      simp only [factoryCalls, a1]
      exact b1

/-- C28: in every state reached from `cxa_esp8266_network_factory_init` (with at least one
client slot configured) by reserve and free calls, the clients handed out by
`cxa_network_factory_reserveTcpClient` and not passed to `cxa_network_factory_freeTcpClient`
since are pairwise distinct, are slots of the pool and are all marked used; the next
`cxa_network_factory_reserveTcpClient` returns, and a client it returns is not one that is
held: its slot was unused, every slot below it was used, and it is used afterwards; reserving
or freeing a client leaves the server array as it is, and reserving or freeing a server (which
returns whenever a server slot is configured) leaves the client array as it is. -/
theorem held_clients_distinct_and_used (ini sini : Nat → Nat) (f0 : NetworkFactory)
    (hn : 0 < CXA_ESP8266_NETWORKFACTORY_MAXNUM_CLIENTS f0)
    (calls : List FactoryCall) (f : NetworkFactory) (held : List Nat)
    (hrun : trackedCalls ini sini (cxa_esp8266_network_factory_init f0) [] calls
      = some (f, held)) :
    factoryCalls ini sini (cxa_esp8266_network_factory_init f0) calls = some f ∧
    held.Nodup ∧
    (∀ p ∈ held, p < CXA_ESP8266_NETWORKFACTORY_MAXNUM_CLIENTS f0 ∧ clientIsUsed f p = true) ∧
    (∃ r f1, cxa_network_factory_reserveTcpClient ini f = some (r, f1) ∧
      f1.servers = f.servers ∧
      ∀ p, r = some p → p ∉ held ∧ clientIsUsed f p = false ∧
        (∀ j, j < p → clientIsUsed f j = true) ∧ clientIsUsed f1 p = true) ∧
    (∀ clientIn, ∃ f1, cxa_network_factory_freeTcpClient f clientIn = some f1 ∧
      f1.servers = f.servers) ∧
    (∀ r f1, cxa_network_factory_reserveTcpServer sini f = some (r, f1) →
      f1.clients = f.clients) ∧
    (∀ serverIn f1, cxa_network_factory_freeTcpServer f serverIn = some f1 →
      f1.clients = f.clients) ∧
    (0 < CXA_ESP8266_NETWORKFACTORY_MAXNUM_SERVERS f0 →
      (∃ r f1, cxa_network_factory_reserveTcpServer sini f = some (r, f1)) ∧
      ∀ serverIn, ∃ f1, cxa_network_factory_freeTcpServer f serverIn = some f1) := by
  obtain ⟨hready0, hraw0, _⟩ := init_ready f0 hn
  obtain ⟨hfc, hready, hnd, hused, hraw, hsraw⟩ :=
    trackedCalls_steps ini sini calls (cxa_esp8266_network_factory_init f0) f [] held hready0
      List.nodup_nil (fun _ hp => absurd hp (List.not_mem_nil _)) hrun
  have hlen : (clientSlots f).length = CXA_ESP8266_NETWORKFACTORY_MAXNUM_CLIENTS f0 := by
    rw [clientSlots_length_of_ready f hready]
    unfold CXA_ESP8266_NETWORKFACTORY_MAXNUM_CLIENTS
    rw [hraw, hraw0]
  have hsmax : CXA_ESP8266_NETWORKFACTORY_MAXNUM_SERVERS f =
      CXA_ESP8266_NETWORKFACTORY_MAXNUM_SERVERS f0 := by
    unfold CXA_ESP8266_NETWORKFACTORY_MAXNUM_SERVERS
    rw [hsraw]
    rfl
  have hc : ¬ ((!f.isInit) = true) := by simp [hready.1]
  refine ⟨hfc, hnd, ?_, ?_, ?_, ?_, ?_, ?_⟩
  · intro p hp
    refine ⟨?_, hused p hp⟩
    rw [← hlen]
    exact clientIsUsed_lt f p (hused p hp)
  · obtain ⟨r, f1, hres, _, _, hsrv, _⟩ := reserve_of_ready ini f hready
    refine ⟨r, f1, hres, hsrv, ?_⟩
    intro p hp
    subst hp
    obtain ⟨h1, h2, h3, _⟩ := reserve_lowest ini f f1 p hready hres
    refine ⟨?_, h1, h2, h3⟩
    intro hmem
    rw [hused p hmem] at h1
    exact Bool.noConfusion h1
  · intro clientIn
    obtain ⟨f1, hres, _, _, hsrv, _⟩ := free_of_ready f clientIn hready
    exact ⟨f1, hres, hsrv⟩
  · intro r f1 hres
    exact (reserveTcpServer_frame sini f f1 r hres).1
  · intro serverIn f1 hres
    exact (freeTcpServer_frame f f1 serverIn hres).1
  · intro hs
    have hpos : CXA_ESP8266_NETWORKFACTORY_MAXNUM_SERVERS f > 0 := by
      rw [hsmax]
      exact hs
    constructor
    · unfold cxa_network_factory_reserveTcpServer
      rw [if_neg hc, if_pos hpos]
      cases reserveServerLoop sini (cxa_array_iterate f.servers) 0 with
      | none => exact ⟨_, _, rfl⟩
      | some x => exact ⟨_, _, rfl⟩
    · intro serverIn
      unfold cxa_network_factory_freeTcpServer
      rw [if_neg hc, if_pos hpos]
      exact ⟨_, rfl⟩

theorem held_clients_distinct_and_used_witness :
    (0 < CXA_ESP8266_NETWORKFACTORY_MAXNUM_CLIENTS sampleFactoryStorage ∧
      trackedCalls id id (cxa_esp8266_network_factory_init sampleFactoryStorage) []
        [.reserveTcpClient, .reserveTcpServer, .reserveTcpClient, .freeTcpClient (some 0)]
        = some (sampleFactoryInUse, [1])) ∧
    [1].Nodup ∧
    (∀ p ∈ [1], p < CXA_ESP8266_NETWORKFACTORY_MAXNUM_CLIENTS sampleFactoryStorage ∧
      clientIsUsed sampleFactoryInUse p = true) ∧
    ∃ r f1, cxa_network_factory_reserveTcpClient id sampleFactoryInUse = some (r, f1) ∧
      f1.servers = sampleFactoryInUse.servers ∧
      ∀ p, r = some p → p ∉ [1] ∧ clientIsUsed sampleFactoryInUse p = false ∧
        (∀ j, j < p → clientIsUsed sampleFactoryInUse j = true) ∧ clientIsUsed f1 p = true :=
  ⟨⟨by decide, by decide⟩,
    (held_clients_distinct_and_used id id sampleFactoryStorage (by decide)
      [.reserveTcpClient, .reserveTcpServer, .reserveTcpClient, .freeTcpClient (some 0)]
      sampleFactoryInUse [1] (by decide)).2.1,
    (held_clients_distinct_and_used id id sampleFactoryStorage (by decide)
      [.reserveTcpClient, .reserveTcpServer, .reserveTcpClient, .freeTcpClient (some 0)]
      sampleFactoryInUse [1] (by decide)).2.2.1,
    (held_clients_distinct_and_used id id sampleFactoryStorage (by decide)
      [.reserveTcpClient, .reserveTcpServer, .reserveTcpClient, .freeTcpClient (some 0)]
      sampleFactoryInUse [1] (by decide)).2.2.2.1⟩

/-! ## C29 -/

/-- C29: on the console that `cxa_console_init` sets up, the one-word line `help` (one word,
no space) matches the registered command "help" and its callback is invoked once with
`argc = 1`, but `argv[0]` is `hel`, not the word `help`; the two-word line `help me` is
delivered as its two words `help` and `me`; and the three-word line `help me x`, received
after the line `help me x y`, is delivered with `argc = 4`, the fourth argument being the `y`
that the earlier line left in the buffer. -/
theorem one_word_line_loses_last_character :
    ((sampleConsole.bind fun c =>
        receiveBytes sampleConsoleEnv c [104, 101, 108, 112, 13]).map fun r => commandCalls r.2)
      = some [(2, none, 1, some [[104, 101, 108]])] ∧
    lineWords [104, 101, 108, 112] = [[104, 101, 108, 112]] ∧
    ((sampleConsole.bind fun c =>
        receiveBytes sampleConsoleEnv c [104, 101, 108, 112, 32, 109, 101, 13]).map
          fun r => commandCalls r.2)
      = some [(2, none, 2, some (lineWords [104, 101, 108, 112, 32, 109, 101]))] ∧
    ((sampleConsole.bind fun c =>
        receiveBytes sampleConsoleEnv c
          [104, 101, 108, 112, 32, 109, 101, 32, 120, 32, 121, 13,
           104, 101, 108, 112, 32, 109, 101, 32, 120, 13]).map fun r => commandCalls r.2)
      = some [(2, none, 4, some [[104, 101, 108, 112], [109, 101], [120], [121]]),
              (2, none, 4, some [[104, 101, 108, 112], [109, 101], [120], [121]])] := by
  refine ⟨?_, rfl, ?_, ?_⟩
  · set_option maxRecDepth 100000 in rfl
  · set_option maxRecDepth 100000 in rfl
  · set_option maxRecDepth 100000 in rfl

end CommonC
